import Mathlib

/-!
# CX abstract syntax tree and format-string opcode

A shallow embedding of parts of `cx/ast.go`, `cx/op_fmt.go`, `cx/op_serialize.go`,
`cx/base/constcodes.go` and `cxgo/actions/misc.go`.  Go pointers are embedded by the
value they point to at the moment an operation reads them; a Go `int` is an `Int`,
wrapped into 64 bits where the code multiplies (`wrapInt`); a function that returns
`(value, error)` returns an `Except String`; a Go panic is an `Except.error` carrying
the panic message.
-/

set_option autoImplicit false

namespace CX

/-! ## Data model (`cx/ast.go`) -/

/-- Operand descriptor `CXArgument`: the fields the embedded operations read or write.
The Go field `Type` is `Typ` here (a reserved word); `CustomType` holds the `Name` of
the struct the Go field points to, `Package` the name of the owning package. -/
structure CXArgument where
  Name : String := ""
  Typ : Int := 0
  Size : Int := 0
  TotalSize : Int := 0
  Offset : Int := 0
  PassBy : Int := 0
  DeclarationSpecifiers : List Int := []
  CustomType : Option String := none
  Package : Option String := none
  FileName : String := ""
  FileLine : Int := 0
deriving DecidableEq, Repr

/-- Struct declaration `CXStruct`. -/
structure CXStruct where
  Name : String := ""
  Package : Option String := none
  Size : Int := 0
  Fields : List CXArgument := []
deriving DecidableEq, Repr

/-- `MakeStruct`: a struct with the given name and every other field zero. -/
def MakeStruct (name : String) : CXStruct :=
  { Name := name }

/-- Modelled from the spec: `GetSize` of `cx/utilities.go`, which is not among the
sources.  The spec (4.2 and testable property 4) makes the size of a struct the sum
of its fields' `total_size`, so a field descriptor contributes its `TotalSize`. -/
def GetSize (arg : CXArgument) : Int :=
  arg.TotalSize

/-- `CXStruct.AddField`, with the size helper `GetSize` taken as the parameter `getSize`.
The loop that sets `found` is the `List.any`; the field appended is the
descriptor after its `Offset` was overwritten (Go mutates it through the pointer
that the field list shares); a duplicate name panics. -/
def CXStruct.AddField (getSize : CXArgument → Int) (strct : CXStruct) (fld : CXArgument) :
    Except String CXStruct :=
  let found := strct.Fields.any (fun fl => fl.Name == fld.Name)
  if !found then
    let numFlds := strct.Fields.length
    let fld1 : CXArgument :=
      if numFlds != 0 then
        match strct.Fields.getLast? with
        | some lastFld => { fld with Offset := lastFld.Offset + lastFld.TotalSize }
        | none => fld
      else fld
    .ok { strct with Fields := strct.Fields ++ [fld1], Size := strct.Size + getSize fld1 }
  else
    .error "duplicate field"

/-- A sequence of `AddField` calls on the same struct, in list order; the first
panic ends the sequence. -/
def CXStruct.AddFields (getSize : CXArgument → Int) :
    CXStruct → List CXArgument → Except String CXStruct
  | strct, [] => .ok strct
  | strct, fld :: flds =>
    match strct.AddField getSize fld with
    | .ok strct1 => CXStruct.AddFields getSize strct1 flds
    | .error e => .error e

/-- Sum of the `TotalSize` of a list of field descriptors. -/
def sumTotalSize (flds : List CXArgument) : Int :=
  (flds.map (fun f => f.TotalSize)).sum

/-- The descriptor `AddField` appends to `flds`: `fld` with its `Offset` overwritten
from the last field when there is one, `fld` itself when `flds` is empty. -/
def placedField (flds : List CXArgument) (fld : CXArgument) : CXArgument :=
  match flds.getLast? with
  | some lastFld => { fld with Offset := lastFld.Offset + lastFld.TotalSize }
  | none => fld

/-- Packed layout starting at `base`: every field sits where the previous one ends. -/
def layoutFrom : Int → List CXArgument → Prop
  | _, [] => True
  | base, f :: fs => f.Offset = base ∧ layoutFrom (base + f.TotalSize) fs

/-! ## Packages and programs (`cx/ast.go`) -/

/-- Expression `CXExpression`.  `Operator` and `Function` hold the name of the
function the Go pointer designates, `Package` the name of the package. -/
structure CXExpression where
  Inputs : List CXArgument := []
  Outputs : List CXArgument := []
  Label : String := ""
  Operator : Option String := none
  Function : Option String := none
  Package : Option String := none
  FileName : String := ""
  FileLine : Int := 0
  ThenLines : Int := 0
  ElseLines : Int := 0
  ScopeOperation : Int := 0
  IsMethodCall : Bool := false
  IsStructLiteral : Bool := false
  IsArrayLiteral : Bool := false
  IsUndType : Bool := false
  IsBreak : Bool := false
  IsContinue : Bool := false
deriving DecidableEq, Repr

/-- Function `CXFunction`.  `Expressions` is `none` for the Go `nil` slice. -/
structure CXFunction where
  Name : String := ""
  Package : Option String := none
  IsNative : Bool := false
  OpCode : Int := 0
  IntCode : Int := 0
  Inputs : List CXArgument := []
  Outputs : List CXArgument := []
  Expressions : Option (List CXExpression) := none
  Length : Int := 0
  Size : Int := 0
  FileName : String := ""
  FileLine : Int := 0
  ListOfPointers : List CXArgument := []
  CurrentExpression : Option CXExpression := none
  Version : Int := 0
deriving DecidableEq, Repr

/-- Package `CXPackage`.  An imported package is embedded by value: the lookups below
read the members of the direct imports only. -/
structure CXPackage where
  Name : String := ""
  Imports : List CXPackage
  Functions : List CXFunction := []
  Structs : List CXStruct := []
  Globals : List CXArgument := []
  CurrentFunction : Option CXFunction := none
  CurrentStruct : Option CXStruct := none

/-- Call record `CXCall`. -/
structure CXCall where
  Operator : Option CXFunction := none
  Line : Int := 0
  FramePointer : Int := 0
deriving DecidableEq, Repr

/-- Program `CXProgram`.  `CurrentPackage` is `none` for the Go `nil` pointer. -/
structure CXProgram where
  Path : String := ""
  Packages : List CXPackage := []
  Inputs : List CXArgument := []
  Outputs : List CXArgument := []
  Memory : List Nat := []
  StackSize : Int := 0
  StackPointer : Int := 0
  HeapSize : Int := 0
  HeapStartsAt : Int := 0
  HeapPointer : Int := 0
  CallStack : List CXCall := []
  CallCounter : Int := 0
  Terminated : Bool := false
  Version : String := ""
  CurrentPackage : Option CXPackage := none

/-- `CXProgram.GetCurrentPackage`. -/
def CXProgram.GetCurrentPackage (prgrm : CXProgram) : Except String CXPackage :=
  match prgrm.CurrentPackage with
  | some pkg => .ok pkg
  | none => .error "current package is nil"

/-- The loop over the imports that `CXProgram.GetGlobal` and `CXProgram.GetStruct`
share: `for _, imp := range mod.Imports` around an inner loop that assigns the first
match of `imp` to the result variable and breaks.  The inner `break` leaves the outer
loop running, so every import that has a match overwrites the variable. -/
def overwriteFromImports {α : Type} (pick : CXPackage → Option α) :
    Option α → List CXPackage → Option α
  | found, [] => found
  | found, imp :: imps =>
    match pick imp with
    | some d => overwriteFromImports pick (some d) imps
    | none => overwriteFromImports pick found imps

/-- `CXProgram.GetGlobal`.  The first loop keeps the first global of that name of the
current package; the second loop runs over every import whether or not the first one
found something, and every import that has a global of that name overwrites
`foundArgument` with its first such global. -/
def CXProgram.GetGlobal (prgrm : CXProgram) (name : String) : Except String CXArgument :=
  match prgrm.GetCurrentPackage with
  | .error err => .error err
  | .ok mod =>
    let foundArgument : Option CXArgument := mod.Globals.find? (fun d => d.Name == name)
    let foundArgument : Option CXArgument :=
      overwriteFromImports (fun imp => imp.Globals.find? (fun d => d.Name == name))
        foundArgument mod.Imports
    match foundArgument with
    | none => .error ("global '" ++ name ++ "' not found")
    | some arg => .ok arg

/-- `CXProgram.GetPackage`: the first package of that name. -/
def CXProgram.GetPackage (prgrm : CXProgram) (modName : String) : Except String CXPackage :=
  match prgrm.Packages.find? (fun mod => modName == mod.Name) with
  | some found => .ok found
  | none => .error ("package '" ++ modName ++ "' not found")

/-- The first element of Go's `strings.Split(s, ".")`: the part of `s` before its
first dot, all of `s` when it has none. -/
def splitFirst (s : String) : String :=
  String.mk (s.data.takeWhile (fun c => c != '.'))

/-- `CXProgram.GetStruct`.  The package's own structs are compared with `strctName`;
when none matches, the structs of the imports are compared with the part of
`strctName` before its first dot, and every import that has a match overwrites
`foundStrct` with its first such struct. -/
def CXProgram.GetStruct (prgrm : CXProgram) (strctName : String) (modName : String) :
    Except String CXStruct :=
  let foundPkg : Option CXPackage := prgrm.Packages.find? (fun mod => modName == mod.Name)
  let foundStrct : Option CXStruct :=
    match foundPkg with
    | some pkg => pkg.Structs.find? (fun strct => strct.Name == strctName)
    | none => none
  let foundStrct : Option CXStruct :=
    match foundStrct with
    | some strct => some strct
    | none =>
      let typParts0 := splitFirst strctName
      match prgrm.GetPackage modName with
      | .ok mod =>
        overwriteFromImports
          (fun imp => imp.Structs.find? (fun strct => strct.Name == typParts0))
          none mod.Imports
      | .error _ => none
  match foundPkg, foundStrct with
  | some _, some strct => .ok strct
  | _, _ =>
    .error ("struct '" ++ strctName ++ "' not found in package '" ++ modName ++ "'")

/-- `CXProgram.GetFunction`.  The current package is searched first, whatever
`pkgName` is; then the first package named `pkgName`; imports are not searched. -/
def CXProgram.GetFunction (prgrm : CXProgram) (fnName : String) (pkgName : String) :
    Except String CXFunction :=
  let inCurrent : Option CXFunction :=
    match prgrm.GetCurrentPackage with
    | .ok pkg => pkg.Functions.find? (fun fn => fn.Name == fnName)
    | .error _ => none
  match inCurrent with
  | some fn => .ok fn
  | none =>
    match prgrm.Packages.find? (fun pkg => pkgName == pkg.Name) with
    | none => .error ("package '" ++ pkgName ++ "' not found")
    | some foundPkg =>
      match foundPkg.Functions.find? (fun fn => fn.Name == fnName) with
      | some foundFn => .ok foundFn
      | none =>
        .error ("function '" ++ fnName ++ "' not found in package '" ++ pkgName ++ "'")

/-- The nested loop of `CXPackage.GetFunction` over the imports: the first function
named `fnName` of the first import, in import order, that has one. -/
def lookupInImports (fnName : String) : List CXPackage → Option CXFunction
  | [] => none
  | imp :: imps =>
    match imp.Functions.find? (fun fn => fn.Name == fnName) with
    | some fn => some fn
    | none => lookupInImports fnName imps

/-- `CXPackage.GetFunction`: the package's own functions first, then its imports. -/
def CXPackage.GetFunction (pkg : CXPackage) (fnName : String) : Except String CXFunction :=
  match pkg.Functions.find? (fun fn => fn.Name == fnName) with
  | some fn => .ok fn
  | none =>
    match lookupInImports fnName pkg.Imports with
    | some fn => .ok fn
    | none =>
      .error ("function '" ++ fnName ++ "' not found in package '" ++ pkg.Name ++
        "' or its imports")

/-! ## Format strings (`cx/op_fmt.go`)

A Go `string` or `[]byte` is a list of bytes, each byte a `Nat` below 256. -/

/-- The bytes (UTF-8) of a string literal. -/
def bytes (s : String) : List Nat :=
  (s.data.flatMap String.utf8EncodeChar).map UInt8.toNat

/-- Go's `strconv.FormatUint(n, 10)`: the decimal digits of `n`. -/
def FormatUint (n : Nat) : List Nat :=
  (Nat.toDigits 10 n).map Char.toNat

/-- Go's `strconv.FormatInt(i, 10)`: a minus sign for a negative number, then the
decimal digits of its absolute value. -/
def FormatInt (i : Int) : List Nat :=
  if i < 0 then '-'.toNat :: FormatUint i.natAbs else FormatUint i.toNat

/-- Go's `fmt.Sprintf("%c", b)` for a byte `b`: the UTF-8 encoding of the code point
`b`, one byte below 0x80 and two bytes from 0x80 to 0xFF. -/
def sprintfC (b : Nat) : List Nat :=
  if b < 128 then [b] else [192 + b / 64, 128 + b % 64]

/-- What `buildString` uses and the sources do not hold: the type codes of package
`constants`, the memory readers of package `ast` (each takes the frame pointer and
the operand and gives the value read), the two `strconv.FormatFloat` calls on the
value read, `GetPrintableValue`, `GetAssignmentElement` and the table `TypeNames`. -/
structure FmtEnv where
  TYPE_I8 : Int
  TYPE_I16 : Int
  TYPE_I32 : Int
  TYPE_I64 : Int
  TYPE_UI8 : Int
  TYPE_UI16 : Int
  TYPE_UI32 : Int
  TYPE_UI64 : Int
  TYPE_F32 : Int
  TYPE_F64 : Int
  ReadStr : Int → CXArgument → List Nat
  ReadI8 : Int → CXArgument → Int
  ReadI16 : Int → CXArgument → Int
  ReadI32 : Int → CXArgument → Int
  ReadI64 : Int → CXArgument → Int
  ReadUI8 : Int → CXArgument → Nat
  ReadUI16 : Int → CXArgument → Nat
  ReadUI32 : Int → CXArgument → Nat
  ReadUI64 : Int → CXArgument → Nat
  FormatF32 : Int → CXArgument → List Nat
  FormatF64 : Int → CXArgument → List Nat
  GetPrintableValue : Int → CXArgument → List Nat
  GetAssignmentElement : CXArgument → CXArgument
  TypeNames : Int → String

/-- `CheckForEscapedChars`: the loop `for c := 0; c < len(str); c++` with `nextCh` the
byte after `str[c]`, or 0 at the end of the string; `res` is the accumulator. -/
def checkForEscapedCharsLoop : List Nat → List Nat → List Nat
  | [], res => res
  | [ch], res => res ++ [ch]
  | ch :: nextCh :: rest, res =>
    if ch = '\\'.toNat then
      if nextCh = '%'.toNat then checkForEscapedCharsLoop rest (res ++ [nextCh])
      else if nextCh = 'n'.toNat then checkForEscapedCharsLoop rest (res ++ ['\n'.toNat])
      else checkForEscapedCharsLoop (nextCh :: rest) (res ++ [ch])
    else checkForEscapedCharsLoop (nextCh :: rest) (res ++ [ch])

/-- `CheckForEscapedChars`. -/
def CheckForEscapedChars (str : List Nat) : List Nat :=
  checkForEscapedCharsLoop str []

/-- The `switch inp.Type` under `case 'd'`: the cases are tried in source order, and no
case means nothing is appended. -/
def formatD (E : FmtEnv) (fp : Int) (inp : CXArgument) : List Nat :=
  if inp.Typ = E.TYPE_I8 then FormatInt (E.ReadI8 fp inp)
  else if inp.Typ = E.TYPE_I16 then FormatInt (E.ReadI16 fp inp)
  else if inp.Typ = E.TYPE_I32 then FormatInt (E.ReadI32 fp inp)
  else if inp.Typ = E.TYPE_I64 then FormatInt (E.ReadI64 fp inp)
  else if inp.Typ = E.TYPE_UI8 then FormatUint (E.ReadUI8 fp inp)
  else if inp.Typ = E.TYPE_UI16 then FormatUint (E.ReadUI16 fp inp)
  else if inp.Typ = E.TYPE_UI32 then FormatUint (E.ReadUI32 fp inp)
  else if inp.Typ = E.TYPE_UI64 then FormatUint (E.ReadUI64 fp inp)
  else []

/-- The `switch inp.Type` under `case 'f'`. -/
def formatF (E : FmtEnv) (fp : Int) (inp : CXArgument) : List Nat :=
  if inp.Typ = E.TYPE_F32 then E.FormatF32 fp inp
  else if inp.Typ = E.TYPE_F64 then E.FormatF64 fp inp
  else []

/-- The `switch nextCh` of a directive that has an argument `inp`: the bytes appended
to `res`. -/
def formatDirective (E : FmtEnv) (fp : Int) (inp : CXArgument) (nextCh : Nat) : List Nat :=
  if nextCh = 's'.toNat then CheckForEscapedChars (E.ReadStr fp inp)
  else if nextCh = 'd'.toNat then formatD E fp inp
  else if nextCh = 'f'.toNat then formatF E fp inp
  else if nextCh = 'v'.toNat then E.GetPrintableValue fp inp
  else []

/-- The two variables the main loop of `buildString` updates. -/
structure FmtState where
  res : List Nat := []
  specifiersCounter : Nat := 0
deriving DecidableEq, Repr

/-- One iteration of the main loop of `buildString` on the byte `ch`, with `nextCh`
the byte after it (0 at the end of the string).  The result is the new state and
whether the iteration did `c++`, that is, whether the byte after `ch` is skipped;
`none` is the run-time panic of `expr.Inputs[specifiersCounter+1]` out of range. -/
def buildStep (E : FmtEnv) (fp : Int) (inputs : List CXArgument) (ch nextCh : Nat)
    (st : FmtState) : Option (FmtState × Bool) :=
  if ch = '\\'.toNat then
    if nextCh = '%'.toNat then some ({ st with res := st.res ++ [nextCh] }, true)
    else if nextCh = 'n'.toNat then some ({ st with res := st.res ++ ['\n'.toNat] }, true)
    else some ({ st with res := st.res ++ [ch] }, false)
  else if ch = '%'.toNat then
    if st.specifiersCounter + 1 = inputs.length then
      some ({ st with res := st.res ++ (bytes "%!" ++ sprintfC nextCh ++ bytes "(MISSING)") },
        true)
    else
      match inputs[st.specifiersCounter + 1]? with
      | none => none
      | some inp =>
        some ({ res := st.res ++ formatDirective E fp inp nextCh,
                specifiersCounter := st.specifiersCounter + 1 }, true)
  else some ({ st with res := st.res ++ [ch] }, false)

/-- The main loop of `buildString`, `for c := 0; c < len(fmtStr); c++`, on the bytes
from position `c` on. -/
def buildLoop (E : FmtEnv) (fp : Int) (inputs : List CXArgument) :
    List Nat → FmtState → Option FmtState
  | [], st => some st
  | [ch], st =>
    match buildStep E fp inputs ch 0 st with
    | none => none
    | some (st1, _) => some st1
  | ch :: nextCh :: rest, st =>
    match buildStep E fp inputs ch nextCh st with
    | none => none
    | some (st1, true) => buildLoop E fp inputs rest st1
    | some (st1, false) => buildLoop E fp inputs (nextCh :: rest) st1

/-- One `type=value` entry of the `EXTRA` suffix. -/
def extraEntry (E : FmtEnv) (fp : Int) (inp : CXArgument) : List Nat :=
  let elt := E.GetAssignmentElement inp
  let typ : List Nat :=
    match elt.CustomType with
    | some name => bytes name
    | none => bytes (E.TypeNames elt.Typ)
  typ ++ bytes "=" ++ E.GetPrintableValue fp elt

/-- The loop `for c := 0; c < lInps; c++` that builds the entries of the `EXTRA`
suffix: the separator follows every entry but the last (`c == lInps-1`). -/
def extraEntries (E : FmtEnv) (fp : Int) : List CXArgument → List Nat
  | [] => []
  | [inp] => extraEntry E fp inp
  | inp :: inp1 :: rest =>
    extraEntry E fp inp ++ bytes ", " ++ extraEntries E fp (inp1 :: rest)

/-- `buildString`, on the format string `fmtStr` (`inputs[0].Get_str()`), the frame
pointer `fp` and the current expression `expr`, whose `Inputs` are the format operand
followed by the value arguments.  `none` is a run-time panic (index or slice bound out
of range). -/
def buildString (E : FmtEnv) (fp : Int) (fmtStr : List Nat) (expr : CXExpression) :
    Option (List Nat) :=
  match buildLoop E fp expr.Inputs fmtStr { res := [], specifiersCounter := 0 } with
  | none => none
  | some st =>
    if (st.specifiersCounter : Int) ≠ (expr.Inputs.length : Int) - 1 then
      if st.specifiersCounter + 1 ≤ expr.Inputs.length then
        some (st.res ++ (bytes "%!(EXTRA " ++
          extraEntries E fp (expr.Inputs.drop (st.specifiersCounter + 1)) ++ bytes ")"))
      else none
    else some st.res

/-- The number of `%` directives the main loop of `buildString` meets in a format
string: a `%` that is not escaped by a backslash, taken together with the byte after
it. -/
def countDirectives : List Nat → Nat
  | [] => 0
  | [ch] => if ch = '%'.toNat then 1 else 0
  | ch :: nextCh :: rest =>
    if ch = '\\'.toNat then
      if nextCh = '%'.toNat ∨ nextCh = 'n'.toNat then countDirectives rest
      else countDirectives (nextCh :: rest)
    else if ch = '%'.toNat then 1 + countDirectives rest
    else countDirectives (nextCh :: rest)

/-- The replacement of escapes as the specification words it, on a whole string read
from left to right: backslash `n` becomes a newline byte, backslash `%` becomes `%`, and
every other byte, a backslash before another byte or at the end included, stays as it
is.  It is a second definition, to be compared with the loop of `buildString`. -/
def specUnescape : List Nat → List Nat
  | [] => []
  | [ch] => [ch]
  | ch :: nextCh :: rest =>
    if ch = '\\'.toNat ∧ nextCh = 'n'.toNat then '\n'.toNat :: specUnescape rest
    else if ch = '\\'.toNat ∧ nextCh = '%'.toNat then '%'.toNat :: specUnescape rest
    else ch :: specUnescape (nextCh :: rest)

/-- A value environment for the examples: every reader gives 42, every operand has
type code 3 (`i32` here), printable value `42` and type name `i32`. -/
def exEnv : FmtEnv :=
  { TYPE_I8 := 1, TYPE_I16 := 2, TYPE_I32 := 3, TYPE_I64 := 4,
    TYPE_UI8 := 5, TYPE_UI16 := 6, TYPE_UI32 := 7, TYPE_UI64 := 8,
    TYPE_F32 := 9, TYPE_F64 := 10,
    ReadStr := fun _ _ => bytes "abc",
    ReadI8 := fun _ _ => 42, ReadI16 := fun _ _ => 42,
    ReadI32 := fun _ _ => 42, ReadI64 := fun _ _ => 42,
    ReadUI8 := fun _ _ => 42, ReadUI16 := fun _ _ => 42,
    ReadUI32 := fun _ _ => 42, ReadUI64 := fun _ _ => 42,
    FormatF32 := fun _ _ => bytes "42.0000000",
    FormatF64 := fun _ _ => bytes "42.0000000000000000",
    GetPrintableValue := fun _ _ => bytes "42",
    GetAssignmentElement := fun a => a,
    TypeNames := fun _ => "i32" }

/-- The number a list of ASCII decimal digits denotes, most significant digit first. -/
def decimalValue (ds : List Nat) : Nat :=
  ds.foldl (fun acc d => 10 * acc + (d - '0'.toNat)) 0

/-! ## Building and editing the tree (`cx/ast.go`) -/

/-- `CXStruct.RemoveField`: the first field of that name is taken out of the list;
`Size` and the `Offset` of the other fields are not touched. -/
def CXStruct.RemoveField (strct : CXStruct) (fldName : String) : CXStruct :=
  if strct.Fields.length > 0 then
    { strct with Fields := strct.Fields.eraseP (fun fld => fld.Name == fldName) }
  else strct

/-- `MakeFunction`. -/
def MakeFunction (name : String) (fileName : String) (fileLine : Int) : CXFunction :=
  { Name := name, FileName := fileName, FileLine := fileLine }

/-- The length of the expression list of a function, 0 for the `nil` slice. -/
def CXFunction.numExpressions (fn : CXFunction) : Nat :=
  match fn.Expressions with
  | some exprs => exprs.length
  | none => 0

/-- `CXFunction.AddExpression`: the expression gets the package and the function as
back-references, is appended, becomes the current expression, and `Length` grows by
one. -/
def CXFunction.AddExpression (fn : CXFunction) (expr : CXExpression) : CXFunction :=
  let expr1 : CXExpression := { expr with Package := fn.Package, Function := some fn.Name }
  { fn with
    Expressions := some (fn.Expressions.getD [] ++ [expr1]),
    CurrentExpression := some expr1,
    Length := fn.Length + 1 }

/-- `CXFunction.RemoveExpression`: with a non-empty list, the last expression is removed
when `line >= len-1` or `line < 0`, the one at index `line` otherwise; nothing else of
the function is written. -/
def CXFunction.RemoveExpression (fn : CXFunction) (line : Int) : CXFunction :=
  match fn.Expressions with
  | none => fn
  | some exprs =>
    if exprs.length > 0 then
      let lenExprs : Int := exprs.length
      if line ≥ lenExprs - 1 ∨ line < 0 then
        { fn with Expressions := some exprs.dropLast }
      else
        { fn with Expressions := some (exprs.eraseIdx line.toNat) }
    else fn

/-- `CXFunction.GetExpressionByLine`.  The outer `Except` is the Go panic of
`fn.Expressions[line]` out of range, the inner one the returned `(value, error)`. -/
def CXFunction.GetExpressionByLine (fn : CXFunction) (line : Int) :
    Except String (Except String CXExpression) :=
  match fn.Expressions with
  | some exprs =>
    if line ≤ (exprs.length : Int) then
      if 0 ≤ line then
        match exprs[line.toNat]? with
        | some expr => .ok (.ok expr)
        | none => .error "runtime error: index out of range"
      else .error "runtime error: index out of range"
    else
      .ok (.error ("expression line number '" ++ toString line ++
        "' exceeds number of expressions in function '" ++ fn.Name ++ "'"))
  | none => .ok (.error ("function '" ++ fn.Name ++ "' has no expressions"))

/-- `CXProgram.RemovePackage`.  The first package of that name is taken out of the
list; when it is the current package (`mod == prgrm.CurrentPackage`, a comparison of
pointers, given here by `samePtr`), the current package becomes
`prgrm.Packages[len(prgrm.Packages)-1]`, which panics when no package is left. -/
def CXProgram.RemovePackage (samePtr : CXPackage → CXPackage → Bool) (prgrm : CXProgram)
    (modName : String) : Except String CXProgram :=
  match prgrm.Packages.find? (fun mod => mod.Name == modName) with
  | none => .ok prgrm
  | some mod =>
    let pkgs := prgrm.Packages.eraseP (fun mod => mod.Name == modName)
    let isCurrent : Bool :=
      match prgrm.CurrentPackage with
      | some cur => samePtr mod cur
      | none => false
    if isCurrent then
      match pkgs.getLast? with
      | some last => .ok { prgrm with Packages := pkgs, CurrentPackage := some last }
      | none => .error "runtime error: index out of range [-1]"
    else .ok { prgrm with Packages := pkgs }

/-- The constants and the function `minHeapSize` that `MakeProgram` and the parser
use and the sources do not hold; all are sizes or offsets in bytes or records. -/
structure CoreConsts where
  STACK_SIZE : Nat
  CALLSTACK_SIZE : Nat
  NULL_HEAP_ADDRESS_OFFSET : Nat
  minHeapSize : Nat

/-- `MakeProgram`: `make` gives a zeroed buffer and zero call records; every field
the literal does not name is zero. -/
def MakeProgram (K : CoreConsts) : CXProgram :=
  { Packages := [],
    CallStack := List.replicate K.CALLSTACK_SIZE { },
    Memory := List.replicate (K.STACK_SIZE + K.minHeapSize) 0,
    StackSize := K.STACK_SIZE,
    HeapSize := K.minHeapSize,
    HeapPointer := K.NULL_HEAP_ADDRESS_OFFSET }

/-- The layout invariant of a struct: `Size` is the sum of the `TotalSize` of its
fields and every field sits at the sum of the `TotalSize` of the fields before it. -/
def CXStruct.LayoutOk (strct : CXStruct) : Prop :=
  strct.Size = sumTotalSize strct.Fields ∧ layoutFrom 0 strct.Fields

/-- Constants for the examples. -/
def exConsts : CoreConsts :=
  { STACK_SIZE := 1024, CALLSTACK_SIZE := 16, NULL_HEAP_ADDRESS_OFFSET := 4,
    minHeapSize := 2048 }

/-- `CXProgram.AddPackage`: the first package of that name becomes the current package;
when there is none, `mod` is appended and becomes the current package. -/
def CXProgram.AddPackage (prgrm : CXProgram) (mod : CXPackage) : CXProgram :=
  match prgrm.Packages.find? (fun md => md.Name == mod.Name) with
  | some md => { prgrm with CurrentPackage := some md }
  | none => { prgrm with Packages := prgrm.Packages ++ [mod], CurrentPackage := some mod }

/-- The loop of `CXPackage.AddFunction` over `pkg.Functions`: the first function named
as `fn` gets the `Name`, `Inputs`, `Outputs`, `Expressions`, `CurrentExpression` and
`Package` of `fn`, its other fields staying as they are.  The result is the new list
and the function written, `none` when no function has that name. -/
def redeclareFunction (fn : CXFunction) : List CXFunction → Option (List CXFunction × CXFunction)
  | [] => none
  | f :: fs =>
    if f.Name == fn.Name then
      let f1 : CXFunction :=
        { f with Name := fn.Name, Inputs := fn.Inputs, Outputs := fn.Outputs,
                 Expressions := fn.Expressions, CurrentExpression := fn.CurrentExpression,
                 Package := fn.Package }
      some (f1 :: fs, f1)
    else
      match redeclareFunction fn fs with
      | some (fs1, f1) => some (f :: fs1, f1)
      | none => none

/-- `CXPackage.AddFunction`: `fn.Package` is set to the package first; a function of
that name is overwritten in place and becomes the current function; otherwise `fn` is
appended and becomes the current function.  The message printed on a redeclaration is
left out. -/
def CXPackage.AddFunction (pkg : CXPackage) (fn : CXFunction) : CXPackage :=
  let fn1 : CXFunction := { fn with Package := some pkg.Name }
  match redeclareFunction fn1 pkg.Functions with
  | some (fns, f1) => { pkg with Functions := fns, CurrentFunction := some f1 }
  | none => { pkg with Functions := pkg.Functions ++ [fn1], CurrentFunction := some fn1 }

/-- `CXFunction.SelectExpression`: the function after the call and the returned
`(value, error)`; `line` is clamped to the index range before it is used.  The outer
`Except` is the Go panic of `fn.Expressions[line]` out of range. -/
def CXFunction.SelectExpression (fn : CXFunction) (line : Int) :
    Except String (CXFunction × Except String CXExpression) :=
  let exprs := fn.Expressions.getD []
  if exprs.length = 0 then
    .ok (fn, .error "There are no expressions in this function")
  else
    let line1 : Int := if line ≥ (exprs.length : Int) then (exprs.length : Int) - 1 else line
    let line2 : Int := if line1 < 0 then 0 else line1
    match exprs[line2.toNat]? with
    | some expr => .ok ({ fn with CurrentExpression := some expr }, .ok expr)
    | none => .error "runtime error: index out of range"

/-- `CXFunction.GetCurrentExpression`.  The outer `Except` is the Go panic of
`fn.Expressions[0]` on an empty list, the inner one the returned `(value, error)`. -/
def CXFunction.GetCurrentExpression (fn : CXFunction) :
    Except String (Except String CXExpression) :=
  match fn.CurrentExpression with
  | some expr => .ok (.ok expr)
  | none =>
    match fn.Expressions with
    | some exprs =>
      match exprs[0]? with
      | some expr => .ok (.ok expr)
      | none => .error "runtime error: index out of range [0] with length 0"
    | none => .ok (.error "current expression is nil")

/-- A call of one of the three functions that edit the expressions of a function or
move its cursor. -/
inductive FnOp where
  | add (expr : CXExpression)
  | remove (line : Int)
  | select (line : Int)

/-- The function after one such call; the error is a Go panic. -/
def CXFunction.applyOp (fn : CXFunction) : FnOp → Except String CXFunction
  | .add expr => .ok (fn.AddExpression expr)
  | .remove line => .ok (fn.RemoveExpression line)
  | .select line =>
    match fn.SelectExpression line with
    | .ok (fn1, _) => .ok fn1
    | .error e => .error e

/-- The function after a sequence of such calls; the first panic ends the sequence. -/
def CXFunction.applyOps : CXFunction → List FnOp → Except String CXFunction
  | fn, [] => .ok fn
  | fn, op :: ops =>
    match fn.applyOp op with
    | .ok fn1 => CXFunction.applyOps fn1 ops
    | .error e => .error e

/-- The cursor of a function is `nil` only while its expression list is `nil`. -/
def CXFunction.CursorInv (fn : CXFunction) : Prop :=
  fn.CurrentExpression = none → fn.Expressions = none

/-! ## Emitting literals (`cxgo/actions/misc.go`, `cxgo/actions/config.go`) -/

/-- `MakeArgument`. -/
def MakeArgument (name : String) (fileName : String) (fileLine : Int) : CXArgument :=
  { Name := name, FileName := fileName, FileLine := fileLine }

/-- `MakeExpression`; `op` is the name of the operator, `none` for `nil`. -/
def MakeExpression (op : Option String) (fileName : String) (fileLine : Int) :
    CXExpression :=
  { Operator := op, FileLine := fileLine, FileName := fileName }

/-- What `WritePrimary` and `CXArgument.AddType` use and the sources do not hold: the
tables `TypeNames` and `TypeCodes`, the function `GetArgSize` and five constants. -/
structure ParseEnv where
  TypeNames : Int → String
  TypeCodes : String → Option Int
  GetArgSize : Int → Int
  DECL_BASIC : Int
  TYPE_UNDEFINED : Int
  TYPE_STR : Int
  TYPE_AFF : Int
  PASSBY_REFERENCE : Int
  TYPE_POINTER_SIZE : Int

/-- `CXArgument.AddType`. -/
def CXArgument.AddType (E : ParseEnv) (arg : CXArgument) (typ : String) : CXArgument :=
  match E.TypeCodes typ with
  | some typCode =>
    let size := E.GetArgSize typCode
    { arg with
      Typ := typCode, Size := size, TotalSize := size,
      DeclarationSpecifiers := arg.DeclarationSpecifiers ++ [E.DECL_BASIC] }
  | none => { arg with Typ := E.TYPE_UNDEFINED }

/-- The package-level variables of `cxgo/actions` that `WritePrimary` reads or writes.
`DataOffset` starts at `STACK_SIZE` and is only ever increased by a length, so it is a
natural number. -/
structure ParserState where
  PRGRM : CXProgram
  DataOffset : Nat
  CurrentFile : String := ""
  LineNo : Int := 0

/-- The state the declarations of `config.go` give, for a program `prgrm`:
`DataOffset = STACK_SIZE`. -/
def initialParserState (K : CoreConsts) (prgrm : CXProgram) : ParserState :=
  { PRGRM := prgrm, DataOffset := K.STACK_SIZE }

/-- The assignment `mem[idx] = b`; `none` is the panic of an index out of range. -/
def memSet (mem : List Nat) (idx : Nat) (b : Nat) : Option (List Nat) :=
  if idx < mem.length then some (mem.set idx b) else none

/-- A loop of assignments `mem[off+i] = byts[i]` over all of `byts`. -/
def writeBytes : List Nat → Nat → List Nat → Option (List Nat)
  | mem, _, [] => some mem
  | mem, off, b :: bs =>
    match memSet mem off b with
    | none => none
    | some mem1 => writeBytes mem1 (off + 1) bs

/-- The `if size+DataOffset > len(PRGRM.Memory)` statement of `WritePrimary`, on the
buffer `mem`.  When the bytes do not fit, the first loop runs for
`i < len(PRGRM.Memory)-DataOffset` (no iteration when that is not positive) and the
bytes from `i` on are appended; otherwise all bytes are assigned in place. -/
def writeData (mem : List Nat) (dataOffset : Nat) (byts : List Nat) : Option (List Nat) :=
  if byts.length + dataOffset > mem.length then
    let i := mem.length - dataOffset
    match writeBytes mem dataOffset (byts.take i) with
    | some mem1 => some (mem1 ++ byts.drop i)
    | none => none
  else writeBytes mem dataOffset byts

/-- The operand `WritePrimary` builds for the literal (`arg`, from `MakeArgument` to the
`if` on `TYPE_STR` and `TYPE_AFF`), in a state with current package `pkg`. -/
def primaryArg (E : ParseEnv) (st : ParserState) (pkg : CXPackage) (typ : Int)
    (byts : List Nat) : CXArgument :=
  let arg := MakeArgument "" st.CurrentFile st.LineNo
  let arg := arg.AddType E (E.TypeNames typ)
  let arg : CXArgument := { arg with Package := some pkg.Name }
  let size := byts.length
  let arg : CXArgument :=
    { arg with Size := E.GetArgSize typ, TotalSize := size, Offset := st.DataOffset }
  if arg.Typ = E.TYPE_STR ∨ arg.Typ = E.TYPE_AFF then
    { arg with PassBy := E.PASSBY_REFERENCE, Size := E.TYPE_POINTER_SIZE,
               TotalSize := E.TYPE_POINTER_SIZE }
  else arg

/-- The expression `WritePrimary` returns (`expr`), with the operand `arg` as its only
output. -/
def primaryExpr (st : ParserState) (pkg : CXPackage) (arg : CXArgument) : CXExpression :=
  let expr := MakeExpression none st.CurrentFile st.LineNo
  let expr : CXExpression := { expr with Package := some pkg.Name }
  { expr with Outputs := expr.Outputs ++ [arg] }

/-- `WritePrimary`.  The result is the new state of the package variables and the
returned expressions. -/
def WritePrimary (E : ParseEnv) (st : ParserState) (typ : Int) (byts : List Nat)
    (_isGlobal : Bool) : Except String (ParserState × List CXExpression) :=
  match st.PRGRM.CurrentPackage with
  | some pkg =>
    let arg := primaryArg E st pkg typ byts
    match writeData st.PRGRM.Memory st.DataOffset byts with
    | none => .error "runtime error: index out of range"
    | some mem1 =>
      .ok ({ st with PRGRM := { st.PRGRM with Memory := mem1 },
                     DataOffset := st.DataOffset + byts.length },
           [primaryExpr st pkg arg])
  | none => .error "WritePrimary(): error, PRGRM.GetCurrentPackage is nil"

/-- A sequence of `WritePrimary` calls, each given by its three arguments; the result
is the state after the last call, the first panic ends the sequence. -/
def WritePrimaries (E : ParseEnv) :
    ParserState → List (Int × List Nat × Bool) → Except String ParserState
  | st, [] => .ok st
  | st, (typ, byts, isGlobal) :: calls =>
    match WritePrimary E st typ byts isGlobal with
    | .ok (st1, _) => WritePrimaries E st1 calls
    | .error e => .error e

/-- The total number of bytes passed to a sequence of `WritePrimary` calls. -/
def totalBytes (calls : List (Int × List Nat × Bool)) : Nat :=
  (calls.map (fun c => c.2.1.length)).sum

/-- A parse environment for the examples: type code 3 is `i32` (4 bytes), 12 is
`str`, 13 is `aff`. -/
def exParseEnv : ParseEnv :=
  { TypeNames := fun t => if t = 3 then "i32" else if t = 12 then "str" else "",
    TypeCodes := fun n => if n = "i32" then some 3 else if n = "str" then some 12 else none,
    GetArgSize := fun t => if t = 3 then 4 else if t = 12 then 4 else 0,
    DECL_BASIC := 1, TYPE_UNDEFINED := 0, TYPE_STR := 12, TYPE_AFF := 13,
    PASSBY_REFERENCE := 1, TYPE_POINTER_SIZE := 4 }

/-- The value a Go `int` of 64 bits holds for the mathematical result `x` of an
operation on `int` operands: arithmetic on `int` wraps around modulo 2^64 into the
range from -2^63 to 2^63 - 1. -/
def wrapInt (x : Int) : Int :=
  (x + 9223372036854775808) % 18446744073709551616 - 9223372036854775808

/-- `TotalLength`: the loop multiplies `total`, which starts at 1, by every entry;
`total *= i` is a multiplication of `int`, which wraps around. -/
def TotalLength (lengths : List Int) : Int :=
  lengths.foldl (fun total i => wrapInt (total * i)) 1

/-- The type `WritePrimary` leaves in `arg.Type`: the code `TypeCodes` gives for the
name `TypeNames[typ]`, `TYPE_UNDEFINED` when it gives none. -/
def resolvedType (E : ParseEnv) (typ : Int) : Int :=
  match E.TypeCodes (E.TypeNames typ) with
  | some typCode => typCode
  | none => E.TYPE_UNDEFINED

/-! ## Affordance structs (`cxgo/actions/misc.go`, `cx/ast.go`) -/

/-- `MakeField`. -/
def MakeField (name : String) (typ : Int) (fileName : String) (fileLine : Int) :
    CXArgument :=
  { Name := name, Typ := typ, FileName := fileName, FileLine := fileLine }

/-- The loop of `CXPackage.AddStruct`: the first struct named as `strct` is replaced by
`strct`; `none` when no struct has that name. -/
def replaceStruct (strct : CXStruct) : List CXStruct → Option (List CXStruct)
  | [] => none
  | s :: ss =>
    if s.Name == strct.Name then some (strct :: ss)
    else
      match replaceStruct strct ss with
      | some ss1 => some (s :: ss1)
      | none => none

/-- `CXPackage.AddStruct`: the struct replaces the first struct of its name or is
appended, gets the package as `Package` and becomes the current struct. -/
def CXPackage.AddStruct (pkg : CXPackage) (strct : CXStruct) : CXPackage :=
  let strct1 : CXStruct := { strct with Package := some pkg.Name }
  match replaceStruct strct1 pkg.Structs with
  | some structs => { pkg with Structs := structs, CurrentStruct := some strct1 }
  | none => { pkg with Structs := pkg.Structs ++ [strct1], CurrentStruct := some strct1 }

/-- `CXPackage.GetStruct`: the package's own first struct of that name; when there is
none, the imports are searched, every one that has a match overwriting the result. -/
def CXPackage.GetStruct (pkg : CXPackage) (strctName : String) : Except String CXStruct :=
  let foundStrct : Option CXStruct :=
    match pkg.Structs.find? (fun strct => strct.Name == strctName) with
    | some strct => some strct
    | none =>
      overwriteFromImports
        (fun imp => imp.Structs.find? (fun strct => strct.Name == strctName))
        none pkg.Imports
  match foundStrct with
  | some strct => .ok strct
  | none =>
    .error ("struct '" ++ strctName ++ "' not found in package '" ++ pkg.Name ++ "'")

/-- What `AffordanceStructs` uses beyond `ParseEnv` and the sources do not hold: two
type codes, the constant `DECL_SLICE` and the functions `DeclarationSpecifiers` and
`DeclarationSpecifiersStruct` of `cxgo/actions`. -/
structure AffEnv where
  TYPE_I32 : Int
  TYPE_I64 : Int
  DECL_SLICE : Int
  DeclarationSpecifiers : CXArgument → List Int → Int → CXArgument
  DeclarationSpecifiersStruct : String → String → Bool → String → Int → CXArgument

/-- `AffordanceStructs`: seven structs are built, each by `MakeStruct` and `AddField`
calls, and each is added to the package with `AddStruct`.  The fifth one, under the
comment `Package type`, is made by `MakeStruct("Structure")`.  The error is the panic
of an `AddField`. -/
def AffordanceStructs (getSize : CXArgument → Int) (E : ParseEnv) (A : AffEnv)
    (pkg : CXPackage) (currentFile : String) (lineNo : Int) : Except String CXPackage := do
  -- Argument type
  let argFldName : CXArgument :=
    { MakeField "Name" E.TYPE_STR "" 0 with TotalSize := E.GetArgSize E.TYPE_STR }
  let argFldIndex : CXArgument :=
    { MakeField "Index" A.TYPE_I32 "" 0 with TotalSize := E.GetArgSize A.TYPE_I32 }
  let argFldType : CXArgument :=
    { MakeField "Type" E.TYPE_STR "" 0 with TotalSize := E.GetArgSize E.TYPE_STR }
  let argStrct ← (MakeStruct "Argument").AddFields getSize
    [argFldName, argFldIndex, argFldType]
  let pkg := pkg.AddStruct argStrct
  -- Expression type
  let exprFldOperator := MakeField "Operator" E.TYPE_STR "" 0
  let exprStrct ← (MakeStruct "Expression").AddFields getSize [exprFldOperator]
  let pkg := pkg.AddStruct exprStrct
  -- Function type
  let fnFldName : CXArgument :=
    { MakeField "Name" E.TYPE_STR "" 0 with TotalSize := E.GetArgSize E.TYPE_STR }
  let fnFldInpSig : CXArgument :=
    { MakeField "InputSignature" E.TYPE_STR "" 0 with Size := E.GetArgSize E.TYPE_STR }
  let fnFldInpSig := A.DeclarationSpecifiers fnFldInpSig [0] A.DECL_SLICE
  let fnFldOutSig : CXArgument :=
    { MakeField "OutputSignature" E.TYPE_STR "" 0 with Size := E.GetArgSize E.TYPE_STR }
  let fnFldOutSig := A.DeclarationSpecifiers fnFldOutSig [0] A.DECL_SLICE
  let fnStrct ← (MakeStruct "Function").AddFields getSize
    [fnFldName, fnFldInpSig, fnFldOutSig]
  let pkg := pkg.AddStruct fnStrct
  -- Structure type
  let strctFldName : CXArgument :=
    { MakeField "Name" E.TYPE_STR "" 0 with TotalSize := E.GetArgSize E.TYPE_STR }
  let strctStrct ← (MakeStruct "Structure").AddFields getSize [strctFldName]
  let pkg := pkg.AddStruct strctStrct
  -- Package type
  let pkgFldName := MakeField "Name" E.TYPE_STR "" 0
  let pkgStrct ← (MakeStruct "Structure").AddFields getSize [pkgFldName]
  let pkg := pkg.AddStruct pkgStrct
  -- Caller type
  let callFldFnName : CXArgument :=
    { MakeField "FnName" E.TYPE_STR "" 0 with TotalSize := E.GetArgSize E.TYPE_STR }
  let callFldFnSize : CXArgument :=
    { MakeField "FnSize" A.TYPE_I32 "" 0 with TotalSize := E.GetArgSize A.TYPE_I32 }
  let callStrct ← (MakeStruct "Caller").AddFields getSize [callFldFnName, callFldFnSize]
  let pkg := pkg.AddStruct callStrct
  -- Program type
  let prgrmFldCallCounter : CXArgument :=
    { MakeField "CallCounter" A.TYPE_I32 "" 0 with TotalSize := E.GetArgSize A.TYPE_I32 }
  let prgrmFldFreeHeap : CXArgument :=
    { MakeField "HeapUsed" A.TYPE_I64 "" 0 with TotalSize := E.GetArgSize A.TYPE_I64 }
  let prgrmFldCaller :=
    A.DeclarationSpecifiersStruct callStrct.Name pkg.Name false currentFile lineNo
  let prgrmFldCaller : CXArgument := { prgrmFldCaller with Name := "Caller" }
  let prgrmStrct ← (MakeStruct "Program").AddFields getSize
    [prgrmFldCallCounter, prgrmFldFreeHeap, prgrmFldCaller]
  let pkg := pkg.AddStruct prgrmStrct
  return pkg

/-- An environment for the examples: `DeclarationSpecifiers` appends the specifier and
keeps everything else, `DeclarationSpecifiersStruct` gives an operand of the named
struct type. -/
def exAffEnv : AffEnv :=
  { TYPE_I32 := 3, TYPE_I64 := 4, DECL_SLICE := 2,
    DeclarationSpecifiers := fun arg _ spec =>
      { arg with DeclarationSpecifiers := arg.DeclarationSpecifiers ++ [spec] },
    DeclarationSpecifiersStruct := fun name pkgName _ file line =>
      { CustomType := some name, Package := some pkgName, FileName := file,
        FileLine := line } }

/-- A package without structs and without imports. -/
def exEmptyPackage : CXPackage :=
  { Name := "aff", Imports := [] }

/-! ## Serialization opcodes (`cx/op_serialize.go`) -/

/-- Conversion to a Go `int32`; also what `int32` arithmetic gives, which wraps
around. -/
def i32 (x : Int) : Int :=
  (x + 2147483648) % 4294967296 - 2147483648

/-- The Go slice expression `mem[lo:hi]`; `none` is the panic of bounds out of range.
The capacity of the buffer is taken to be its length. -/
def sliceOf (mem : List Nat) (lo hi : Int) : Option (List Nat) :=
  if 0 ≤ lo ∧ lo ≤ hi ∧ hi ≤ (mem.length : Int) then
    some ((mem.drop lo.toNat).take (hi - lo).toNat)
  else none

/-- What the two opcodes use and the sources do not hold: three constants, the offset
computation `GetFinalOffset` (which reads the program), the decoder `Deserialize_i32`,
the serializer `SerializeCXProgram`, and the two writers `WriteToSlice` and `WriteI32`,
which change the program and are given here as functions from the program before to
the program after (with the returned slice offset for `WriteToSlice`). -/
structure HeapEnv where
  TYPE_POINTER_SIZE : Int
  OBJECT_HEADER_SIZE : Int
  SLICE_HEADER_SIZE : Int
  GetFinalOffset : CXProgram → Int → CXArgument → Int
  Deserialize_i32 : List Nat → Int
  SerializeCXProgram : CXProgram → Bool → List Nat
  WriteToSlice : CXProgram → Int → List Nat → CXProgram × Int
  WriteI32 : CXProgram → Int → Int → CXProgram

/-- The loop `for _, b := range byts { slcOff = WriteToSlice(slcOff, []byte{b}) }` of
`opSerialize`: the program and the slice offset after it. -/
def serializeLoop (H : HeapEnv) : CXProgram → Int → List Nat → CXProgram × Int
  | prgrm, slcOff, [] => (prgrm, slcOff)
  | prgrm, slcOff, b :: byts =>
    serializeLoop H (H.WriteToSlice prgrm slcOff [b]).1 (H.WriteToSlice prgrm slcOff [b]).2
      byts

/-- `opSerialize`, on the program `PROGRAM`: the program after the opcode. -/
def opSerialize (H : HeapEnv) (prgrm : CXProgram) (expr : CXExpression) (fp : Int) :
    Except String CXProgram :=
  match expr.Inputs[0]?, expr.Outputs[0]? with
  | some _, some out1 =>
    let out1Offset := H.GetFinalOffset prgrm fp out1
    let byts := H.SerializeCXProgram prgrm true
    let r := serializeLoop H prgrm 0 byts
    .ok (H.WriteI32 r.1 out1Offset (i32 r.2))
  | _, _ => .error "runtime error: index out of range"

/-- `opDeserialize`, on the program `PROGRAM`: the byte sequence it hands to
`Deserialize`.  `off` and `l` are `int32`, so the sums that hold them are `int32`
sums. -/
def opDeserialize (H : HeapEnv) (prgrm : CXProgram) (expr : CXExpression) (fp : Int) :
    Except String (List Nat) :=
  match expr.Inputs[0]? with
  | none => .error "runtime error: index out of range"
  | some inp =>
    let inpOffset := H.GetFinalOffset prgrm fp inp
    match sliceOf prgrm.Memory inpOffset (inpOffset + H.TYPE_POINTER_SIZE) with
    | none => .error "runtime error: slice bounds out of range"
    | some ptr =>
      let off := i32 (H.Deserialize_i32 ptr)
      let hdr := i32 (off + H.OBJECT_HEADER_SIZE)
      let elts := i32 (hdr + H.SLICE_HEADER_SIZE)
      match sliceOf prgrm.Memory hdr elts with
      | none => .error "runtime error: slice bounds out of range"
      | some _l =>
        match sliceOf _l 4 8 with
        | none => .error "runtime error: slice bounds out of range"
        | some lenField =>
          let l := i32 (H.Deserialize_i32 lenField)
          match sliceOf prgrm.Memory elts (i32 (elts + l)) with
          | none => .error "runtime error: slice bounds out of range"
          | some byts => .ok byts

/-- The bytes `B` are stored in `mem` as a heap byte slice at offset `off`: the object
lies inside the buffer and below 2^31; after the object header comes the slice header,
whose bytes 4..8 decode to the length of `B`; after the slice header come the bytes of
`B`, one element per byte. -/
def IsHeapByteSlice (H : HeapEnv) (mem : List Nat) (off : Int) (B : List Nat) : Prop :=
  0 ≤ off ∧
  off + H.OBJECT_HEADER_SIZE + H.SLICE_HEADER_SIZE + B.length ≤ mem.length ∧
  off + H.OBJECT_HEADER_SIZE + H.SLICE_HEADER_SIZE + B.length < 2147483648 ∧
  (∃ lenField,
    sliceOf mem (off + H.OBJECT_HEADER_SIZE + 4) (off + H.OBJECT_HEADER_SIZE + 8) =
      some lenField ∧
    H.Deserialize_i32 lenField = B.length) ∧
  sliceOf mem (off + H.OBJECT_HEADER_SIZE + H.SLICE_HEADER_SIZE)
      (off + H.OBJECT_HEADER_SIZE + H.SLICE_HEADER_SIZE + B.length) = some B

/-- A heap environment for the examples: a 9-byte object header, an 8-byte slice
header, little-endian integers of small value, a serializer that gives the two bytes
7 and 8, and a `WriteToSlice` that puts a new slice object at the end of the buffer
(offset 0 meaning no slice yet) and appends to the slice when it ends the buffer. -/
def exHeapEnv : HeapEnv :=
  { TYPE_POINTER_SIZE := 4, OBJECT_HEADER_SIZE := 9, SLICE_HEADER_SIZE := 8,
    GetFinalOffset := fun _ fp arg => fp + arg.Offset,
    Deserialize_i32 := fun bs =>
      (bs.getD 0 0 : Int) + 256 * (bs.getD 1 0 : Int) + 65536 * (bs.getD 2 0 : Int) +
        16777216 * (bs.getD 3 0 : Int),
    SerializeCXProgram := fun _ _ => [7, 8],
    WriteToSlice := fun prgrm off inp =>
      if off = 0 then
        ({ prgrm with
           Memory := prgrm.Memory ++ List.replicate 9 0 ++ [0, 0, 0, 0] ++
             [inp.length, 0, 0, 0] ++ inp },
         (prgrm.Memory.length : Int))
      else
        ({ prgrm with
           Memory := prgrm.Memory.set (off.toNat + 13)
             (prgrm.Memory.getD (off.toNat + 13) 0 + inp.length) ++ inp },
         off),
    WriteI32 := fun prgrm off v =>
      { prgrm with
        Memory := (((prgrm.Memory.set off.toNat v.toNat).set (off.toNat + 1) 0).set
          (off.toNat + 2) 0).set (off.toNat + 3) 0 } }

/-- A program with eight zero bytes of memory, for the examples. -/
def exProgramMem : CXProgram :=
  { Memory := [0, 0, 0, 0, 0, 0, 0, 0] }

/-! ## Removing from a package (`cx/ast.go`) -/

/-- The loop the four `Remove...` methods of `CXPackage` run over their list `xs`: `i` is
the index of the range loop and the last argument the elements still to visit.  At the
first element that passes the test the list becomes `xs[:len(xs)-1]` when
`i == len(xs)-1` and `append(xs[:i], xs[i+1:]...)` otherwise, and the loop ends by
`break`; a loop that visits every element without a match leaves the list as it is. -/
def removeLoop {α : Type} (test : α → Bool) (xs : List α) : Nat → List α → List α
  | _, [] => xs
  | i, x :: rest =>
    if test x then
      if (i : Int) = (xs.length : Int) - 1 then xs.take (xs.length - 1)
      else xs.take i ++ xs.drop (i + 1)
    else removeLoop test xs (i + 1) rest

/-- `CXPackage.RemoveImport`. -/
def CXPackage.RemoveImport (pkg : CXPackage) (impName : String) : CXPackage :=
  { pkg with
    Imports := removeLoop (fun imp => imp.Name == impName) pkg.Imports 0 pkg.Imports }

/-- `CXPackage.RemoveFunction`. -/
def CXPackage.RemoveFunction (pkg : CXPackage) (fnName : String) : CXPackage :=
  { pkg with
    Functions := removeLoop (fun fn => fn.Name == fnName) pkg.Functions 0 pkg.Functions }

/-- `CXPackage.RemoveStruct`. -/
def CXPackage.RemoveStruct (pkg : CXPackage) (strctName : String) : CXPackage :=
  { pkg with
    Structs := removeLoop (fun strct => strct.Name == strctName) pkg.Structs 0 pkg.Structs }

/-- `CXPackage.RemoveGlobal`. -/
def CXPackage.RemoveGlobal (pkg : CXPackage) (defName : String) : CXPackage :=
  { pkg with
    Globals := removeLoop (fun df => df.Name == defName) pkg.Globals 0 pkg.Globals }

/-! ## Constant codes (`cx/base/constcodes.go`) -/

/-- The first constant of the `const` block: `iota + 0xFFFF` with `iota = 0`; each
following constant repeats the expression with `iota` one higher (the two names that
are commented out are no constants and take no value of `iota`). -/
def CONST_OS_RUN_SUCCESS : Int := 0 + 0xFFFF

def CONST_OS_RUN_EMPTY_CMD : Int := 1 + 0xFFFF

def CONST_OS_RUN_PANIC : Int := 2 + 0xFFFF

def CONST_OS_RUN_START_FAILED : Int := 3 + 0xFFFF

def CONST_OS_RUN_WAIT_FAILED : Int := 4 + 0xFFFF

def CONST_OS_RUN_TIMEOUT : Int := 5 + 0xFFFF

def CONST_OS_FILEMODE_APPEND : Int := 6 + 0xFFFF

def CONST_OS_FILEMODE_EXCLUSIVE : Int := 7 + 0xFFFF

def CONST_OS_FILEMODE_TEMPORARY : Int := 8 + 0xFFFF

def CONST_OS_FILEMODE_SYMLINK : Int := 9 + 0xFFFF

def CONST_OS_FILEMODE_DEVICE : Int := 10 + 0xFFFF

def CONST_OS_FILEMODE_NAMED_PIPE : Int := 11 + 0xFFFF

def CONST_OS_FILEMODE_SOCKET : Int := 12 + 0xFFFF

def CONST_OS_FILEMODE_SETUID : Int := 13 + 0xFFFF

def CONST_OS_FILEMODE_SETGID : Int := 14 + 0xFFFF

def CONST_OS_FILEMODE_CHAR_DEVICE : Int := 15 + 0xFFFF

def CONST_OS_FILEMODE_STICKY : Int := 16 + 0xFFFF

def CONST_OS_FILEMODE_IRREGULAR : Int := 17 + 0xFFFF

def CONST_OS_FILEMODE_PERM : Int := 18 + 0xFFFF

def CONST_OS_SEEK_SET : Int := 19 + 0xFFFF

def CONST_OS_SEEK_CUR : Int := 20 + 0xFFFF

def CONST_OS_SEEK_END : Int := 21 + 0xFFFF

def CONST_JSON_TOKEN_NULL : Int := 22 + 0xFFFF

def CONST_JSON_TOKEN_DELIM : Int := 23 + 0xFFFF

def CONST_JSON_TOKEN_BOOL : Int := 24 + 0xFFFF

def CONST_JSON_TOKEN_F64 : Int := 25 + 0xFFFF

def CONST_JSON_TOKEN_NUMBER : Int := 26 + 0xFFFF

def CONST_JSON_TOKEN_STR : Int := 27 + 0xFFFF

def CONST_JSON_DELIM_CURLY_LEFT : Int := 28 + 0xFFFF

def CONST_JSON_DELIM_CURLY_RIGHT : Int := 29 + 0xFFFF

def CONST_JSON_DELIM_SQUARE_LEFT : Int := 30 + 0xFFFF

def CONST_JSON_DELIM_SQUARE_RIGHT : Int := 31 + 0xFFFF

/-- The first constant of the second `const` block: `iota`, which is 0 there; each
following constant is `iota` one higher. -/
def OS_RUN_SUCCESS : Int := 0

def OS_RUN_EMPTY_CMD : Int := 1

def OS_RUN_PANIC : Int := 2

def OS_RUN_START_FAILED : Int := 3

def OS_RUN_WAIT_FAILED : Int := 4

def OS_RUN_TIMEOUT : Int := 5

/-- The constants `init` passes on and the sources do not hold: the seek modes and the
JSON token and delimiter codes. -/
structure ConstEnv where
  OS_SEEK_SET : Int
  OS_SEEK_CUR : Int
  OS_SEEK_END : Int
  JSON_TOKEN_NULL : Int
  JSON_TOKEN_DELIM : Int
  JSON_TOKEN_BOOL : Int
  JSON_TOKEN_F64 : Int
  JSON_TOKEN_NUMBER : Int
  JSON_TOKEN_STR : Int
  JSON_DELIM_CURLY_LEFT : Int
  JSON_DELIM_CURLY_RIGHT : Int
  JSON_DELIM_SQUARE_LEFT : Int
  JSON_DELIM_SQUARE_RIGHT : Int

/-- `init`: the calls of `ConstI32`, in the order of the source.  `ConstI32` is not
among the sources: it is a parameter that takes the opcode, the name and the value
and acts on a registry of type `σ`. -/
def init {σ : Type} (K : ConstEnv) (ConstI32 : Int → String → Int → σ → σ) (s : σ) : σ :=
  let s := ConstI32 CONST_OS_RUN_SUCCESS "os.RUN_SUCCESS" OS_RUN_SUCCESS s
  let s := ConstI32 CONST_OS_RUN_EMPTY_CMD "os.RUN_EMPTY_CMD" OS_RUN_EMPTY_CMD s
  let s := ConstI32 CONST_OS_RUN_PANIC "os.RUN_PANIC" OS_RUN_PANIC s
  let s := ConstI32 CONST_OS_RUN_START_FAILED "os.RUN_START_FAILED" OS_RUN_START_FAILED s
  let s := ConstI32 CONST_OS_RUN_WAIT_FAILED "os.RUN_WAIT_FAILED" OS_RUN_WAIT_FAILED s
  let s := ConstI32 CONST_OS_RUN_TIMEOUT "os.RUN_TIMEOUT" OS_RUN_TIMEOUT s
  let s := ConstI32 CONST_OS_FILEMODE_APPEND "os.ModeAppend" 1073741824 s
  let s := ConstI32 CONST_OS_FILEMODE_EXCLUSIVE "os.ModeExclusive" 536870912 s
  let s := ConstI32 CONST_OS_FILEMODE_TEMPORARY "os.ModeTemporary" 268435456 s
  let s := ConstI32 CONST_OS_FILEMODE_SYMLINK "os.ModeSymlink" 134217728 s
  let s := ConstI32 CONST_OS_FILEMODE_DEVICE "os.ModeDevice" 67108864 s
  let s := ConstI32 CONST_OS_FILEMODE_NAMED_PIPE "os.ModeNamedPipe" 33554432 s
  let s := ConstI32 CONST_OS_FILEMODE_SOCKET "os.ModeSocket" 16777216 s
  let s := ConstI32 CONST_OS_FILEMODE_SETUID "os.ModeSetuid" 8388608 s
  let s := ConstI32 CONST_OS_FILEMODE_SETGID "os.ModeSetgid" 4194304 s
  let s := ConstI32 CONST_OS_FILEMODE_CHAR_DEVICE "os.ModeCharDevice" 2097152 s
  let s := ConstI32 CONST_OS_FILEMODE_STICKY "os.ModeSticky" 1048576 s
  let s := ConstI32 CONST_OS_FILEMODE_IRREGULAR "os.ModeIrregular" 524288 s
  let s := ConstI32 CONST_OS_FILEMODE_PERM "os.ModePerm" 511 s
  let s := ConstI32 CONST_OS_SEEK_SET "os.SEEK_SET" K.OS_SEEK_SET s
  let s := ConstI32 CONST_OS_SEEK_CUR "os.SEEK_CUR" K.OS_SEEK_CUR s
  let s := ConstI32 CONST_OS_SEEK_END "os.SEEK_END" K.OS_SEEK_END s
  let s := ConstI32 CONST_JSON_TOKEN_NULL "json.TOKEN_NULL" K.JSON_TOKEN_NULL s
  let s := ConstI32 CONST_JSON_TOKEN_DELIM "json.TOKEN_DELIM" K.JSON_TOKEN_DELIM s
  let s := ConstI32 CONST_JSON_TOKEN_BOOL "json.TOKEN_BOOL" K.JSON_TOKEN_BOOL s
  let s := ConstI32 CONST_JSON_TOKEN_F64 "json.TOKEN_F64" K.JSON_TOKEN_F64 s
  let s := ConstI32 CONST_JSON_TOKEN_NUMBER "json.TOKEN_NUMBER" K.JSON_TOKEN_NUMBER s
  let s := ConstI32 CONST_JSON_TOKEN_STR "json.TOKEN_STR" K.JSON_TOKEN_STR s
  let s := ConstI32 CONST_JSON_DELIM_CURLY_LEFT "json.DELIM_CURLY_LEFT" K.JSON_DELIM_CURLY_LEFT s
  let s := ConstI32 CONST_JSON_DELIM_CURLY_RIGHT "json.DELIM_CURLY_RIGHT" K.JSON_DELIM_CURLY_RIGHT s
  let s := ConstI32 CONST_JSON_DELIM_SQUARE_LEFT "json.DELIM_SQUARE_LEFT" K.JSON_DELIM_SQUARE_LEFT s
  let s := ConstI32 CONST_JSON_DELIM_SQUARE_RIGHT "json.DELIM_SQUARE_RIGHT" K.JSON_DELIM_SQUARE_RIGHT s
  s

/-- A registry that records the calls of `ConstI32` in order, each as opcode, name and
value. -/
def recordConstI32 (code : Int) (name : String) (value : Int)
    (calls : List (Int × String × Int)) : List (Int × String × Int) :=
  calls ++ [(code, name, value)]

/-- Values for the constants that the sources do not hold, for the examples. -/
def exConstEnv : ConstEnv :=
  { OS_SEEK_SET := 0, OS_SEEK_CUR := 1, OS_SEEK_END := 2,
    JSON_TOKEN_NULL := 3, JSON_TOKEN_DELIM := 4, JSON_TOKEN_BOOL := 5, JSON_TOKEN_F64 := 6,
    JSON_TOKEN_NUMBER := 7, JSON_TOKEN_STR := 8, JSON_DELIM_CURLY_LEFT := 9,
    JSON_DELIM_CURLY_RIGHT := 10, JSON_DELIM_SQUARE_LEFT := 11,
    JSON_DELIM_SQUARE_RIGHT := 12 }

/-! ## Vocabulary of the lookup claims -/

/-- `x` is the first element of `xs` that satisfies `p`. -/
def IsFirst {α : Type} (p : α → Prop) (xs : List α) (x : α) : Prop :=
  ∃ pre post : List α, xs = pre ++ x :: post ∧ p x ∧ ∀ y ∈ pre, ¬ p y

/-- The package declares a function of that name. -/
def DeclaresFunction (fnName : String) (pkg : CXPackage) : Prop :=
  ∃ fn ∈ pkg.Functions, fn.Name = fnName

/-- `ys` is `xs` without the first element of `xs` that satisfies `p`, the elements
before and after it in their order; or `xs` itself when no element satisfies `p`. -/
def RemovedFirst {α : Type} (p : α → Prop) (xs ys : List α) : Prop :=
  (∃ pre x post, xs = pre ++ x :: post ∧ p x ∧ (∀ y ∈ pre, ¬ p y) ∧ ys = pre ++ post) ∨
  ((∀ y ∈ xs, ¬ p y) ∧ ys = xs)

/-- A package `lib` that declares a global `x`, a function `f` and a struct `Point`. -/
def exLib : CXPackage :=
  { Name := "lib", Imports := [],
    Globals := [{ Name := "x", Offset := 20, Package := some "lib" }],
    Functions := [{ Name := "f", Package := some "lib" }],
    Structs := [{ Name := "Point", Package := some "lib" }] }

/-- A package `main` that imports `lib` and declares its own global `x` and its own
function `f`. -/
def exMain : CXPackage :=
  { Name := "main", Imports := [exLib],
    Globals := [{ Name := "x", Offset := 10, Package := some "main" }],
    Functions := [{ Name := "f", Package := some "main" }] }

/-- A package `app` that imports `lib` and declares nothing. -/
def exApp : CXPackage :=
  { Name := "app", Imports := [exLib] }

/-- A program holding `main` and `lib`, with `main` the current package. -/
def exProgram : CXProgram :=
  { Packages := [exMain, exLib], CurrentPackage := some exMain }

/-- A program holding `app` and `lib`, with `app` the current package. -/
def exProgramApp : CXProgram :=
  { Packages := [exApp, exLib], CurrentPackage := some exApp }

/-- Pointer equality of packages in a program whose packages have distinct names,
for the examples. -/
def sameName (a b : CXPackage) : Bool :=
  a.Name == b.Name

/-- A program whose only package is `lib`, which is also the current package. -/
def exProgramLibOnly : CXProgram :=
  { Packages := [exLib], CurrentPackage := some exLib }

/-- A package with two imports, three functions, two structs and three globals, two of
which are named `x`. -/
def exFull : CXPackage :=
  { Name := "full", Imports := [exLib, exApp],
    Functions := [{ Name := "f" }, { Name := "g" }, { Name := "h" }],
    Structs := [{ Name := "A" }, { Name := "B" }],
    Globals := [{ Name := "x", Offset := 1 }, { Name := "y" }, { Name := "x", Offset := 2 }] }

/-- A function with the three expressions `a`, `b` and `c`, the first one current. -/
def exThreeExprs : CXFunction :=
  { Name := "three",
    Expressions := some [{ Label := "a" }, { Label := "b" }, { Label := "c" }],
    Length := 3, CurrentExpression := some { Label := "a" } }

/-! ## Struct layout: lemmas -/

theorem placedField_Name (flds : List CXArgument) (fld : CXArgument) :
    (placedField flds fld).Name = fld.Name := by
  unfold placedField
  cases flds.getLast? <;> rfl

theorem placedField_TotalSize (flds : List CXArgument) (fld : CXArgument) :
    (placedField flds fld).TotalSize = fld.TotalSize := by
  unfold placedField
  cases flds.getLast? <;> rfl

theorem placedField_nil (fld : CXArgument) : placedField [] fld = fld := rfl

theorem sumTotalSize_append (xs ys : List CXArgument) :
    sumTotalSize (xs ++ ys) = sumTotalSize xs + sumTotalSize ys := by
  simp [sumTotalSize]

theorem sumTotalSize_cons (x : CXArgument) (xs : List CXArgument) :
    sumTotalSize (x :: xs) = x.TotalSize + sumTotalSize xs := by
  simp [sumTotalSize]

/-- What `AddField` returns when no field of the struct has the new name. -/
theorem CXStruct.AddField_fresh (getSize : CXArgument → Int) (strct : CXStruct)
    (fld : CXArgument) (h : ∀ fl ∈ strct.Fields, fl.Name ≠ fld.Name) :
    strct.AddField getSize fld =
      .ok { strct with
            Fields := strct.Fields ++ [placedField strct.Fields fld],
            Size := strct.Size + getSize (placedField strct.Fields fld) } := by
  have hany : strct.Fields.any (fun fl => fl.Name == fld.Name) = false := by
    rw [List.any_eq_false]
    intro fl hfl
    simpa using h fl hfl
  unfold CXStruct.AddField placedField
  simp only [hany]
  cases hF : strct.Fields with
  | nil => simp
  | cons a as =>
    cases hL : (a :: as).getLast? with
    | none => simp at hL
    | some l => simp [hL]

/-- What `AddField` does when a field of that name exists: the panic. -/
theorem CXStruct.AddField_dup (getSize : CXArgument → Int) (strct : CXStruct)
    (fld : CXArgument) (h : ∃ fl ∈ strct.Fields, fl.Name = fld.Name) :
    strct.AddField getSize fld = .error "duplicate field" := by
  have hany : strct.Fields.any (fun fl => fl.Name == fld.Name) = true := by
    rw [List.any_eq_true]
    obtain ⟨fl, hfl, hn⟩ := h
    exact ⟨fl, hfl, by simpa using hn⟩
  unfold CXStruct.AddField
  simp [hany]

theorem layoutFrom_append (base : Int) (flds : List CXArgument) (x : CXArgument) :
    layoutFrom base (flds ++ [x]) ↔
      layoutFrom base flds ∧ x.Offset = base + sumTotalSize flds := by
  induction flds generalizing base with
  | nil => simp [layoutFrom, sumTotalSize]
  | cons f fs ih =>
    have hcons : layoutFrom base (f :: fs ++ [x]) ↔
        f.Offset = base ∧ layoutFrom (base + f.TotalSize) (fs ++ [x]) := Iff.rfl
    have hcons1 : layoutFrom base (f :: fs) ↔
        f.Offset = base ∧ layoutFrom (base + f.TotalSize) fs := Iff.rfl
    rw [hcons, hcons1, ih, sumTotalSize_cons]
    constructor
    · rintro ⟨h1, h2, h3⟩
      exact ⟨⟨h1, h2⟩, by rw [h3]; ring⟩
    · rintro ⟨⟨h1, h2⟩, h3⟩
      exact ⟨h1, h2, by rw [h3]; ring⟩

theorem layoutFrom_getLast (base : Int) (flds : List CXArgument) (l : CXArgument)
    (h : layoutFrom base flds) (hl : flds.getLast? = some l) :
    l.Offset + l.TotalSize = base + sumTotalSize flds := by
  induction flds generalizing base with
  | nil => simp at hl
  | cons f fs ih =>
    cases fs with
    | nil =>
      simp at hl
      subst hl
      simp [layoutFrom] at h
      simp [sumTotalSize, h]
    | cons g gs =>
      have hl1 : (g :: gs).getLast? = some l := by
        simpa [List.getLast?_cons_cons] using hl
      have := ih (base + f.TotalSize) h.2 hl1
      rw [this, sumTotalSize_cons f]
      ring

theorem layoutFrom_getElem (base : Int) (flds : List CXArgument) (h : layoutFrom base flds)
    (i : Nat) (f : CXArgument) (hf : flds[i]? = some f) :
    f.Offset = base + sumTotalSize (flds.take i) := by
  induction flds generalizing base i with
  | nil => simp at hf
  | cons g gs ih =>
    cases i with
    | zero =>
      simp at hf
      subst hf
      simp [sumTotalSize, h.1]
    | succ j =>
      simp at hf
      have := ih (base + g.TotalSize) h.2 j hf
      rw [this, List.take_succ_cons, sumTotalSize_cons]
      ring

/-- A run of `AddField` calls on a struct that already has fields: all succeed when the
new names are distinct from each other and from the existing ones, the packed layout
of the existing fields extends to the new ones, and `Size` grows by the `getSize` of
every stored descriptor. -/
theorem CXStruct.AddFields_nonempty (getSize : CXArgument → Int) (flds : List CXArgument) :
    ∀ (strct : CXStruct) (base : Int), strct.Fields ≠ [] → layoutFrom base strct.Fields →
      (flds.map (fun f => f.Name)).Nodup →
      (∀ fl ∈ strct.Fields, ∀ f ∈ flds, fl.Name ≠ f.Name) →
      ∃ added : List CXArgument,
        strct.AddFields getSize flds =
          .ok { strct with Fields := strct.Fields ++ added,
                           Size := strct.Size + (added.map getSize).sum } ∧
        layoutFrom base (strct.Fields ++ added) ∧
        added.map (fun f => f.Name) = flds.map (fun f => f.Name) ∧
        added.map (fun f => f.TotalSize) = flds.map (fun f => f.TotalSize) := by
  induction flds with
  | nil =>
    intro strct base _ hlay _ _
    exact ⟨[], by simp [CXStruct.AddFields], by simpa using hlay, rfl, rfl⟩
  | cons f fs ih =>
    intro strct base hne hlay hnd hdisj
    have hfresh : ∀ fl ∈ strct.Fields, fl.Name ≠ f.Name :=
      fun fl hfl => hdisj fl hfl f (List.mem_cons_self _ _)
    obtain ⟨l, hl⟩ : ∃ l, strct.Fields.getLast? = some l := by
      cases hF : strct.Fields.getLast? with
      | none => exact absurd (List.getLast?_eq_none_iff.mp hF) hne
      | some l => exact ⟨l, rfl⟩
    have hp : placedField strct.Fields f = { f with Offset := l.Offset + l.TotalSize } := by
      simp [placedField, hl]
    have hoff : (placedField strct.Fields f).Offset = base + sumTotalSize strct.Fields := by
      rw [hp]
      exact layoutFrom_getLast base strct.Fields l hlay hl
    rw [List.map_cons, List.nodup_cons] at hnd
    obtain ⟨hfnot, hnd1⟩ := hnd
    have hdisj1 : ∀ fl ∈ strct.Fields ++ [placedField strct.Fields f], ∀ g ∈ fs,
        fl.Name ≠ g.Name := by
      intro fl hfl g hg
      rcases List.mem_append.mp hfl with h1 | h1
      · exact hdisj fl h1 g (List.mem_cons_of_mem _ hg)
      · rw [List.mem_singleton] at h1
        rw [h1, placedField_Name]
        intro hEq
        exact hfnot (List.mem_map.mpr ⟨g, hg, hEq.symm⟩)
    obtain ⟨added, hrun, hlay1, hnames, hsizes⟩ :=
      ih { strct with Fields := strct.Fields ++ [placedField strct.Fields f],
                      Size := strct.Size + getSize (placedField strct.Fields f) }
        base (by simp) ((layoutFrom_append base _ _).mpr ⟨hlay, hoff⟩) hnd1 hdisj1
    refine ⟨placedField strct.Fields f :: added, ?_, ?_, ?_, ?_⟩
    · simp only [CXStruct.AddFields, CXStruct.AddField_fresh getSize strct f hfresh, hrun]
      simp [List.append_assoc, add_assoc]
    · simpa [List.append_assoc] using hlay1
    · simp [hnames, placedField_Name]
    · simp [hsizes, placedField_TotalSize]

/-- A run of `AddField` calls on a fresh struct: with distinct names all succeed, the
first descriptor is stored as it came (its `Offset` included), the layout is packed
from that `Offset` on, and `Size` is the sum of `getSize` over the stored fields. -/
theorem CXStruct.AddFields_MakeStruct (getSize : CXArgument → Int) (name : String)
    (f : CXArgument) (fs : List CXArgument)
    (hnd : ((f :: fs).map (fun g => g.Name)).Nodup) :
    ∃ added : List CXArgument,
      (MakeStruct name).AddFields getSize (f :: fs) =
        .ok { Name := name, Fields := f :: added,
              Size := getSize f + (added.map getSize).sum } ∧
      layoutFrom f.Offset (f :: added) ∧
      added.map (fun g => g.Name) = fs.map (fun g => g.Name) ∧
      added.map (fun g => g.TotalSize) = fs.map (fun g => g.TotalSize) := by
  have h1 : (MakeStruct name).AddField getSize f =
      .ok { Name := name, Fields := [f], Size := getSize f } := by
    rw [CXStruct.AddField_fresh getSize (MakeStruct name) f (by simp [MakeStruct])]
    simp [MakeStruct, placedField_nil]
  rw [List.map_cons, List.nodup_cons] at hnd
  obtain ⟨hfnot, hnd1⟩ := hnd
  obtain ⟨added, hrun, hlay, hnames, hsizes⟩ :=
    CXStruct.AddFields_nonempty getSize fs
      { Name := name, Fields := [f], Size := getSize f } f.Offset (by simp)
      (by simp [layoutFrom]) hnd1
      (by
        intro fl hfl g hg hEq
        simp at hfl
        subst hfl
        exact hfnot (List.mem_map.mpr ⟨g, hg, hEq.symm⟩))
  refine ⟨added, ?_, ?_, hnames, hsizes⟩
  · simp only [CXStruct.AddFields, h1, hrun]
    simp
  · simpa using hlay

/-! ## Struct layout: the claims -/

/-- C1 (evaluation at the failing input): `AddField` leaves the `Offset` of the first
field as the descriptor carried it.  Adding `a` (TotalSize 4, Offset 7) and then `b`
(TotalSize 2, Offset 100) to a fresh struct stores the offsets 7 and 11, while the sums
of the `TotalSize` of the preceding fields are 0 and 4. -/
theorem C1_AddField_keeps_first_offset :
    ∃ strct : CXStruct,
      (MakeStruct "S").AddFields GetSize
          [{ Name := "a", TotalSize := 4, Offset := 7 },
           { Name := "b", TotalSize := 2, Offset := 100 }] = .ok strct ∧
      strct.Fields.map (fun f => f.Offset) = [7, 11] ∧
      (List.range 2).map (fun i => sumTotalSize (strct.Fields.take i)) = [0, 4] :=
  ⟨{ Name := "S", Size := 6,
     Fields := [{ Name := "a", TotalSize := 4, Offset := 7 },
                { Name := "b", TotalSize := 2, Offset := 11 }] },
   by rfl, by decide, by decide⟩

/-- Every field a run of `AddField` calls with distinct names puts into a fresh struct
has as `Offset` the `Offset` the first descriptor came with plus the `TotalSize` of the
fields before it; so the layout is the packed one exactly when the first descriptor
came with `Offset` 0. -/
theorem CXStruct.AddFields_offsets (getSize : CXArgument → Int) (name : String)
    (f : CXArgument) (fs : List CXArgument)
    (hnd : ((f :: fs).map (fun g => g.Name)).Nodup) :
    ∃ strct : CXStruct,
      (MakeStruct name).AddFields getSize (f :: fs) = .ok strct ∧
      strct.Fields.length = (f :: fs).length ∧
      ∀ (i : Nat) (g : CXArgument), strct.Fields[i]? = some g →
        g.Offset = f.Offset + sumTotalSize (strct.Fields.take i) := by
  obtain ⟨added, hrun, hlay, hnames, _⟩ :=
    CXStruct.AddFields_MakeStruct getSize name f fs hnd
  refine ⟨_, hrun, ?_, ?_⟩
  · have := congrArg List.length hnames
    simpa using this
  · intro i g hg
    exact layoutFrom_getElem f.Offset (f :: added) hlay i g hg

theorem find?_of_IsFirst {α : Type} (p : α → Prop) (q : α → Bool)
    (hq : ∀ a, q a = true ↔ p a) (xs : List α) (x : α) (h : IsFirst p xs x) :
    xs.find? q = some x := by
  obtain ⟨pre, post, rfl, hx, hpre⟩ := h
  induction pre with
  | nil => simp [List.find?, (hq x).mpr hx]
  | cons a as ih =>
    have ha : q a = false := by
      cases hqa : q a with
      | false => rfl
      | true => exact absurd ((hq a).mp hqa) (hpre a (List.mem_cons_self _ _))
    simp only [List.cons_append, List.find?, ha]
    exact ih (fun y hy => hpre y (List.mem_cons_of_mem _ hy))

theorem IsFirst_of_find? {α : Type} (p : α → Prop) (q : α → Bool)
    (hq : ∀ a, q a = true ↔ p a) (xs : List α) (x : α) (h : xs.find? q = some x) :
    IsFirst p xs x := by
  induction xs with
  | nil => simp at h
  | cons a as ih =>
    cases hqa : q a with
    | true =>
      simp only [List.find?, hqa, Option.some.injEq] at h
      subst h
      exact ⟨[], as, rfl, (hq a).mp hqa, by simp⟩
    | false =>
      simp only [List.find?, hqa] at h
      obtain ⟨pre, post, hxs, hx, hpre⟩ := ih h
      refine ⟨a :: pre, post, by simp [hxs], hx, ?_⟩
      intro y hy
      rcases List.mem_cons.mp hy with h1 | h1
      · subst h1
        intro hpa
        have := (hq y).mpr hpa
        simp [hqa] at this
      · exact hpre y h1

theorem find?_none_of_forall {α : Type} (p : α → Prop) (q : α → Bool)
    (hq : ∀ a, q a = true ↔ p a) (xs : List α) (h : ∀ y ∈ xs, ¬ p y) :
    xs.find? q = none := by
  rw [List.find?_eq_none]
  intro y hy hqy
  exact h y hy ((hq y).mp hqy)

theorem forall_of_find?_none {α : Type} (p : α → Prop) (q : α → Bool)
    (hq : ∀ a, q a = true ↔ p a) (xs : List α) (h : xs.find? q = none) :
    ∀ y ∈ xs, ¬ p y := by
  rw [List.find?_eq_none] at h
  intro y hy hpy
  exact h y hy ((hq y).mpr hpy)

theorem IsFirst.mem {α : Type} {p : α → Prop} {xs : List α} {x : α} (h : IsFirst p xs x) :
    x ∈ xs ∧ p x := by
  obtain ⟨pre, post, rfl, hx, _⟩ := h
  exact ⟨by simp, hx⟩

theorem nameIs_iff (name : String) (n : String) : ((n == name) = true) ↔ n = name := by
  simp

theorem isNamed_iff (name : String) (n : String) : ((name == n) = true) ↔ n = name := by
  rw [beq_iff_eq]
  exact eq_comm

theorem overwriteFromImports_none {α : Type} (pick : CXPackage → Option α)
    (imps : List CXPackage) (h : ∀ imp ∈ imps, pick imp = none) (found : Option α) :
    overwriteFromImports pick found imps = found := by
  induction imps generalizing found with
  | nil => rfl
  | cons imp imps ih =>
    simp only [overwriteFromImports, h imp (List.mem_cons_self _ _)]
    exact ih (fun q hq => h q (List.mem_cons_of_mem _ hq)) found

theorem overwriteFromImports_some {α : Type} (pick : CXPackage → Option α)
    (imps : List CXPackage) (found : Option α) (d : α)
    (h : overwriteFromImports pick found imps = some d) :
    found = some d ∨ ∃ imp ∈ imps, pick imp = some d := by
  induction imps generalizing found with
  | nil => exact Or.inl h
  | cons imp imps ih =>
    cases hp : pick imp with
    | none =>
      simp only [overwriteFromImports, hp] at h
      rcases ih found h with h1 | ⟨q, hq, hqd⟩
      · exact Or.inl h1
      · exact Or.inr ⟨q, List.mem_cons_of_mem _ hq, hqd⟩
    | some e =>
      simp only [overwriteFromImports, hp] at h
      rcases ih (some e) h with h1 | ⟨q, hq, hqd⟩
      · exact Or.inr ⟨imp, List.mem_cons_self _ _, by rw [hp, h1]⟩
      · exact Or.inr ⟨q, List.mem_cons_of_mem _ hq, hqd⟩

/-- `GetGlobal` does return the current package's own (first) global of that name when
no import declares a global of that name. -/
theorem CXProgram.GetGlobal_own_of_no_import (prgrm : CXProgram) (name : String)
    (mod : CXPackage) (own : CXArgument) (hcur : prgrm.CurrentPackage = some mod)
    (hown : IsFirst (fun d => d.Name = name) mod.Globals own)
    (himp : ∀ imp ∈ mod.Imports, ∀ d ∈ imp.Globals, d.Name ≠ name) :
    prgrm.GetGlobal name = .ok own := by
  have h1 := find?_of_IsFirst _ (fun d : CXArgument => d.Name == name)
    (fun a => nameIs_iff name a.Name) _ _ hown
  have h2 : ∀ imp ∈ mod.Imports,
      imp.Globals.find? (fun d => d.Name == name) = none := fun imp himpMem =>
    find?_none_of_forall (fun d : CXArgument => d.Name = name) _
      (fun a => nameIs_iff name a.Name) _ (himp imp himpMem)
  simp only [CXProgram.GetGlobal, CXProgram.GetCurrentPackage, hcur, h1,
    overwriteFromImports_none _ _ h2]

/-! ## Lookups: the claims -/

/-- C3 (evaluation at the failing input): in a program whose current package `main`
declares a global `x` (at offset 10) and imports `lib`, which declares a global `x`
too (at offset 20), `GetGlobal("x")` returns the global of `lib`, not the current
package's own. -/
theorem C3_GetGlobal_import_overrides_own :
    exProgram.CurrentPackage = some exMain ∧
    IsFirst (fun d => d.Name = "x") exMain.Globals
      { Name := "x", Offset := 10, Package := some "main" } ∧
    exProgram.GetGlobal "x" = .ok { Name := "x", Offset := 20, Package := some "lib" } :=
  ⟨rfl, ⟨[], [], rfl, rfl, by simp⟩, by rfl⟩

theorem not_DeclaresFunction_iff (fnName : String) (pkg : CXPackage) :
    ¬ DeclaresFunction fnName pkg ↔ ∀ g ∈ pkg.Functions, ¬ g.Name = fnName := by
  simp [DeclaresFunction]

/-- The search of the current package that opens `CXProgram.GetFunction` finds nothing
when there is no current package, or when it declares no function of that name. -/
theorem currentPackage_search_none (prgrm : CXProgram) (f : String)
    (hcur : ∀ cur, prgrm.CurrentPackage = some cur → ¬ DeclaresFunction f cur) :
    (match prgrm.GetCurrentPackage with
      | .ok pkg => pkg.Functions.find? (fun fn => fn.Name == f)
      | .error _ => none) = none := by
  cases hc : prgrm.CurrentPackage with
  | none => simp [CXProgram.GetCurrentPackage, hc]
  | some cur =>
    simp only [CXProgram.GetCurrentPackage, hc]
    exact find?_none_of_forall (fun g : CXFunction => g.Name = f) _
      (fun a => nameIs_iff f a.Name) _ ((not_DeclaresFunction_iff f cur).mp (hcur cur hc))

/-- The search of the current package that opens `CXProgram.GetFunction` decides the
call when the current package declares a function of that name. -/
theorem CXProgram.GetFunction_current (prgrm : CXProgram) (f p : String)
    (cur : CXPackage) (g : CXFunction) (hc : prgrm.CurrentPackage = some cur)
    (hg : IsFirst (fun fn => fn.Name = f) cur.Functions g) :
    prgrm.GetFunction f p = .ok g := by
  have h1 := find?_of_IsFirst _ (fun fn : CXFunction => fn.Name == f)
    (fun a => nameIs_iff f a.Name) _ _ hg
  simp only [CXProgram.GetFunction, CXProgram.GetCurrentPackage, hc, h1]

/-- C4 (counterexample): the program holds the package `lib`, which declares `f`, but
with `main` as current package, which declares an `f` of its own,
`GetFunction("f", "lib")` does not return the `f` of `lib`. -/
theorem C4_counterexample :
    IsFirst (fun q => q.Name = "lib") exProgram.Packages exLib ∧
    IsFirst (fun g => g.Name = "f") exLib.Functions { Name := "f", Package := some "lib" } ∧
    exProgram.GetFunction "f" "lib" = .ok { Name := "f", Package := some "main" } ∧
    exProgram.GetFunction "f" "lib" ≠ .ok { Name := "f", Package := some "lib" } := by
  have hrun : exProgram.GetFunction "f" "lib" = .ok { Name := "f", Package := some "main" } :=
    by rfl
  refine ⟨⟨[exMain], [], rfl, rfl, ?_⟩, ⟨[], [], rfl, rfl, by simp⟩, hrun, ?_⟩
  · intro y hy
    rw [List.mem_singleton] at hy
    subst hy
    decide
  · rw [hrun]
    intro h
    injection h with h1
    injection h1 with _ h2
    exact absurd h2 (by decide)

/-- C4 (amended): when the first package named `p` declares a function named `f`,
`GetFunction(f, p)` returns that package's first function named `f` provided the
program has no current package or the current package declares no function named `f`;
when the current package declares one, its first function named `f` is returned
instead, whatever `p` is. -/
theorem C4_GetFunction_current_package_first (prgrm : CXProgram) (f p : String)
    (pkg : CXPackage) (fn : CXFunction)
    (hp : IsFirst (fun q => q.Name = p) prgrm.Packages pkg)
    (hf : IsFirst (fun g => g.Name = f) pkg.Functions fn) :
    ((∀ cur, prgrm.CurrentPackage = some cur → ¬ DeclaresFunction f cur) →
      prgrm.GetFunction f p = .ok fn) ∧
    (∀ cur g, prgrm.CurrentPackage = some cur →
      IsFirst (fun h => h.Name = f) cur.Functions g → prgrm.GetFunction f p = .ok g) := by
  constructor
  · intro hcur
    have h0 := currentPackage_search_none prgrm f hcur
    have h1 := find?_of_IsFirst _ (fun q : CXPackage => p == q.Name)
      (fun a => isNamed_iff p a.Name) _ _ hp
    have h2 := find?_of_IsFirst _ (fun g : CXFunction => g.Name == f)
      (fun a => nameIs_iff f a.Name) _ _ hf
    simp only [CXProgram.GetFunction, h0, h1, h2]
  · intro cur g hc hg
    exact CXProgram.GetFunction_current prgrm f p cur g hc hg

/-- C4 at concrete inputs: with `app` (which declares nothing) as current package the
`f` of `lib` is returned; with `main` as current package the `f` of `main` is. -/
theorem C4_GetFunction_current_package_first_witness :
    exProgramApp.GetFunction "f" "lib" = .ok { Name := "f", Package := some "lib" } ∧
    exProgram.GetFunction "f" "lib" = .ok { Name := "f", Package := some "main" } :=
  ⟨(C4_GetFunction_current_package_first exProgramApp "f" "lib" exLib
      { Name := "f", Package := some "lib" }
      ⟨[exApp], [], rfl, rfl, by
        intro y hy
        rw [List.mem_singleton] at hy
        subst hy
        decide⟩
      ⟨[], [], rfl, rfl, by simp⟩).1
      (by
        intro cur hc
        have h1 : cur = exApp := (Option.some.inj hc).symm
        subst h1
        simp [DeclaresFunction, exApp]),
   (C4_GetFunction_current_package_first exProgram "f" "lib" exLib
      { Name := "f", Package := some "lib" }
      ⟨[exMain], [], rfl, rfl, by
        intro y hy
        rw [List.mem_singleton] at hy
        subst hy
        decide⟩
      ⟨[], [], rfl, rfl, by simp⟩).2 exMain { Name := "f", Package := some "main" } rfl
      ⟨[], [], rfl, rfl, by simp⟩⟩

/-- C5 (counterexample): `app` declares no function `f`, the package `lib` it imports
does, and yet `GetFunction("f", "app")` fails. -/
theorem C5_counterexample :
    IsFirst (fun q => q.Name = "app") exProgramApp.Packages exApp ∧
    ¬ DeclaresFunction "f" exApp ∧
    (∃ imp ∈ exApp.Imports, DeclaresFunction "f" imp) ∧
    exProgramApp.GetFunction "f" "app" =
      .error "function 'f' not found in package 'app'" ∧
    ∀ g, exProgramApp.GetFunction "f" "app" ≠ .ok g := by
  have hrun : exProgramApp.GetFunction "f" "app" =
      .error "function 'f' not found in package 'app'" := by rfl
  refine ⟨⟨[], [exLib], rfl, rfl, by simp⟩, by simp [DeclaresFunction, exApp],
    ⟨exLib, by simp [exApp], ⟨{ Name := "f", Package := some "lib" }, by simp [exLib], rfl⟩⟩,
    hrun, ?_⟩
  intro g h
  rw [hrun] at h
  cases h

/-- C5 (amended): when the first package named `p` declares no function named `f`,
`GetFunction(f, p)` does not look into the packages `p` imports: it fails with
"function 'f' not found in package 'p'" when the program has no current package or
the current package declares no function named `f`, and returns the current package's
first function named `f` otherwise. -/
theorem C5_GetFunction_ignores_imports (prgrm : CXProgram) (f p : String)
    (pkg : CXPackage)
    (hp : IsFirst (fun q => q.Name = p) prgrm.Packages pkg)
    (hown : ¬ DeclaresFunction f pkg) :
    ((∀ cur, prgrm.CurrentPackage = some cur → ¬ DeclaresFunction f cur) →
      prgrm.GetFunction f p =
        .error ("function '" ++ f ++ "' not found in package '" ++ p ++ "'")) ∧
    (∀ cur g, prgrm.CurrentPackage = some cur →
      IsFirst (fun h => h.Name = f) cur.Functions g → prgrm.GetFunction f p = .ok g) := by
  constructor
  · intro hcur
    have h0 := currentPackage_search_none prgrm f hcur
    have h1 := find?_of_IsFirst _ (fun q : CXPackage => p == q.Name)
      (fun a => isNamed_iff p a.Name) _ _ hp
    have h2 := find?_none_of_forall (fun g : CXFunction => g.Name = f) _
      (fun a => nameIs_iff f a.Name) _ ((not_DeclaresFunction_iff f pkg).mp hown)
    simp only [CXProgram.GetFunction, h0, h1, h2]
  · intro cur g hc hg
    exact CXProgram.GetFunction_current prgrm f p cur g hc hg

/-- C5 at a concrete input: `app` imports `lib`, which declares `f`; the lookup of `f`
in `app` fails. -/
theorem C5_GetFunction_ignores_imports_witness :
    (∃ imp ∈ exApp.Imports, DeclaresFunction "f" imp) ∧
    exProgramApp.GetFunction "f" "app" =
      .error ("function '" ++ "f" ++ "' not found in package '" ++ "app" ++ "'") :=
  ⟨⟨exLib, by simp [exApp], ⟨{ Name := "f", Package := some "lib" }, by simp [exLib], rfl⟩⟩,
   (C5_GetFunction_ignores_imports exProgramApp "f" "app" exApp
      ⟨[], [exLib], rfl, rfl, by simp⟩ (by simp [DeclaresFunction, exApp])).1
      (by
        intro cur hc
        have h1 : cur = exApp := (Option.some.inj hc).symm
        subst h1
        simp [DeclaresFunction, exApp])⟩

theorem lookupInImports_of_IsFirst (f : String) (imps : List CXPackage) (imp : CXPackage)
    (fn : CXFunction) (himp : IsFirst (DeclaresFunction f) imps imp)
    (hfn : IsFirst (fun g => g.Name = f) imp.Functions fn) :
    lookupInImports f imps = some fn := by
  obtain ⟨pre, post, rfl, _, hpre⟩ := himp
  have h2 := find?_of_IsFirst _ (fun g : CXFunction => g.Name == f)
    (fun a => nameIs_iff f a.Name) _ _ hfn
  induction pre with
  | nil => simp [lookupInImports, h2]
  | cons a as ih =>
    have ha := find?_none_of_forall (fun g : CXFunction => g.Name = f) _
      (fun b => nameIs_iff f b.Name) _
      ((not_DeclaresFunction_iff f a).mp (hpre a (List.mem_cons_self _ _)))
    simp only [List.cons_append, lookupInImports, ha]
    exact ih (fun y hy => hpre y (List.mem_cons_of_mem _ hy))

theorem lookupInImports_eq_none_iff (f : String) (imps : List CXPackage) :
    lookupInImports f imps = none ↔ ∀ imp ∈ imps, ¬ DeclaresFunction f imp := by
  induction imps with
  | nil => simp [lookupInImports]
  | cons a as ih =>
    cases ha : a.Functions.find? (fun g => g.Name == f) with
    | none =>
      have hna : ¬ DeclaresFunction f a := (not_DeclaresFunction_iff f a).mpr
        (forall_of_find?_none (fun g : CXFunction => g.Name = f) _
          (fun b => nameIs_iff f b.Name) _ ha)
      simp only [lookupInImports, ha, ih, List.mem_cons, forall_eq_or_imp, hna,
        not_false_eq_true, true_and]
    | some g =>
      have hg := (IsFirst_of_find? (fun g : CXFunction => g.Name = f) _
        (fun b => nameIs_iff f b.Name) _ _ ha).mem
      have hda : DeclaresFunction f a := ⟨g, hg.1, hg.2⟩
      simp only [lookupInImports, ha, List.mem_cons, forall_eq_or_imp, hda,
        not_true_eq_false, false_and]
      simp

/-- C7: `CXPackage.GetFunction(f)` returns the package's own first function named `f`
when it declares one; otherwise the first function named `f` of the first import
(in import order) that declares one; and it returns the error "function 'f' not found
in package 'pkg' or its imports" exactly when neither the package nor any
direct import declares a function named `f`. -/
theorem C7_CXPackage_GetFunction (pkg : CXPackage) (f : String) :
    (∀ fn, IsFirst (fun g => g.Name = f) pkg.Functions fn → pkg.GetFunction f = .ok fn) ∧
    (¬ DeclaresFunction f pkg → ∀ imp fn, IsFirst (DeclaresFunction f) pkg.Imports imp →
      IsFirst (fun g => g.Name = f) imp.Functions fn → pkg.GetFunction f = .ok fn) ∧
    (pkg.GetFunction f =
        .error ("function '" ++ f ++ "' not found in package '" ++ pkg.Name ++
          "' or its imports") ↔
      ¬ DeclaresFunction f pkg ∧ ∀ imp ∈ pkg.Imports, ¬ DeclaresFunction f imp) := by
  refine ⟨?_, ?_, ?_⟩
  · intro fn hfn
    have h1 := find?_of_IsFirst _ (fun g : CXFunction => g.Name == f)
      (fun a => nameIs_iff f a.Name) _ _ hfn
    simp only [CXPackage.GetFunction, h1]
  · intro hown imp fn himp hfn
    have h1 := find?_none_of_forall (fun g : CXFunction => g.Name = f) _
      (fun a => nameIs_iff f a.Name) _ ((not_DeclaresFunction_iff f pkg).mp hown)
    simp only [CXPackage.GetFunction, h1, lookupInImports_of_IsFirst f _ imp fn himp hfn]
  · constructor
    · intro h
      cases h1 : pkg.Functions.find? (fun g => g.Name == f) with
      | some g => simp [CXPackage.GetFunction, h1] at h
      | none =>
        cases h2 : lookupInImports f pkg.Imports with
        | some g => simp [CXPackage.GetFunction, h1, h2] at h
        | none =>
          exact ⟨(not_DeclaresFunction_iff f pkg).mpr
            (forall_of_find?_none (fun g : CXFunction => g.Name = f) _
              (fun b => nameIs_iff f b.Name) _ h1),
            (lookupInImports_eq_none_iff f pkg.Imports).mp h2⟩
    · rintro ⟨hown, himp⟩
      have h1 := find?_none_of_forall (fun g : CXFunction => g.Name = f) _
        (fun a => nameIs_iff f a.Name) _ ((not_DeclaresFunction_iff f pkg).mp hown)
      have h2 := (lookupInImports_eq_none_iff f pkg.Imports).mpr himp
      simp only [CXPackage.GetFunction, h1, h2]

/-- C7 at concrete inputs: `main` returns its own `f`, `app` returns the `f` of the
`lib` it imports, and `lib`, which imports nothing, reports `g` as not found. -/
theorem C7_CXPackage_GetFunction_witness :
    exMain.GetFunction "f" = .ok { Name := "f", Package := some "main" } ∧
    exApp.GetFunction "f" = .ok { Name := "f", Package := some "lib" } ∧
    exLib.GetFunction "g" =
      .error ("function '" ++ "g" ++ "' not found in package '" ++ exLib.Name ++
        "' or its imports") :=
  ⟨(C7_CXPackage_GetFunction exMain "f").1 _ ⟨[], [], rfl, rfl, by simp⟩,
   (C7_CXPackage_GetFunction exApp "f").2.1 (by simp [DeclaresFunction, exApp]) exLib _
      ⟨[], [], rfl, ⟨{ Name := "f", Package := some "lib" }, by simp [exLib], rfl⟩, by simp⟩
      ⟨[], [], rfl, rfl, by simp⟩,
   (C7_CXPackage_GetFunction exLib "g").2.2.mpr
      ⟨by simp [DeclaresFunction, exLib], by simp [exLib]⟩⟩

/-- A name without a dot is its own first part. -/
theorem splitFirst_of_no_dot (s : String) (h : '.' ∉ s.data) : splitFirst s = s := by
  have h1 : s.data.takeWhile (fun c => c != '.') = s.data := by
    rw [List.takeWhile_eq_self_iff]
    intro c hc
    simp only [bne_iff_ne, ne_eq]
    intro hEq
    exact h (hEq ▸ hc)
  simp [splitFirst, h1]

/-- C6 (counterexample): `app` has no struct of its own and imports `lib`, which
declares `Point`; `GetStruct("Point.x", "app")` succeeds, and the struct it returns is
named `Point`, not `Point.x`. -/
theorem C6_counterexample :
    ∃ strct : CXStruct,
      exProgramApp.GetStruct "Point.x" "app" = .ok strct ∧ strct.Name ≠ "Point.x" :=
  ⟨{ Name := "Point", Package := some "lib" }, by rfl, by decide⟩

/-- C6 (amended): whenever `GetStruct(s, m)` succeeds, the struct it returns is either
the first struct named `s` of the first package named `m`, or, when that package has
no struct named `s`, a struct of one of its direct imports whose name is the part of
`s` before its first dot (`s` itself when `s` has no dot); the package's own struct is
returned when it has one named `s`; and `GetStruct` fails when no package is named
`m`. -/
theorem C6_GetStruct (prgrm : CXProgram) (s m : String) :
    (∀ strct, prgrm.GetStruct s m = .ok strct →
      ∃ pkg, IsFirst (fun q => q.Name = m) prgrm.Packages pkg ∧
        (IsFirst (fun x => x.Name = s) pkg.Structs strct ∨
          ((∀ x ∈ pkg.Structs, x.Name ≠ s) ∧
            ∃ imp ∈ pkg.Imports,
              IsFirst (fun x => x.Name = splitFirst s) imp.Structs strct))) ∧
    (∀ pkg own, IsFirst (fun q => q.Name = m) prgrm.Packages pkg →
      IsFirst (fun x => x.Name = s) pkg.Structs own → prgrm.GetStruct s m = .ok own) ∧
    ((∀ q ∈ prgrm.Packages, q.Name ≠ m) →
      prgrm.GetStruct s m =
        .error ("struct '" ++ s ++ "' not found in package '" ++ m ++ "'")) := by
  refine ⟨?_, ?_, ?_⟩
  · intro strct h
    cases hpk : prgrm.Packages.find? (fun mod => m == mod.Name) with
    | none => simp [CXProgram.GetStruct, hpk] at h
    | some pkg =>
      have hfirst := IsFirst_of_find? (fun q : CXPackage => q.Name = m) _
        (fun a => isNamed_iff m a.Name) _ _ hpk
      refine ⟨pkg, hfirst, ?_⟩
      cases hown : pkg.Structs.find? (fun x => x.Name == s) with
      | some x =>
        simp only [CXProgram.GetStruct, hpk, hown, Except.ok.injEq] at h
        subst h
        exact Or.inl (IsFirst_of_find? (fun x : CXStruct => x.Name = s) _
          (fun a => nameIs_iff s a.Name) _ _ hown)
      | none =>
        right
        refine ⟨forall_of_find?_none (fun x : CXStruct => x.Name = s) _
          (fun a => nameIs_iff s a.Name) _ hown, ?_⟩
        simp only [CXProgram.GetStruct, CXProgram.GetPackage, hpk, hown] at h
        cases hov : overwriteFromImports
            (fun imp => imp.Structs.find? (fun x => x.Name == splitFirst s))
            none pkg.Imports with
        | none => simp [hov] at h
        | some y =>
          simp only [hov, Except.ok.injEq] at h
          subst h
          rcases overwriteFromImports_some _ _ _ _ hov with h1 | ⟨imp, himp, hy⟩
          · cases h1
          · exact ⟨imp, himp, IsFirst_of_find? (fun x : CXStruct => x.Name = splitFirst s) _
              (fun a => nameIs_iff (splitFirst s) a.Name) _ _ hy⟩
  · intro pkg own hpkg hown
    have h1 := find?_of_IsFirst _ (fun q : CXPackage => m == q.Name)
      (fun a => isNamed_iff m a.Name) _ _ hpkg
    have h2 := find?_of_IsFirst _ (fun x : CXStruct => x.Name == s)
      (fun a => nameIs_iff s a.Name) _ _ hown
    simp only [CXProgram.GetStruct, h1, h2]
  · intro hno
    have h1 := find?_none_of_forall (fun q : CXPackage => q.Name = m) _
      (fun a => isNamed_iff m a.Name) _ hno
    simp [CXProgram.GetStruct, h1]

/-- C6 at concrete inputs: the struct `GetStruct("Point.x", "app")` returns is a struct
of the import `lib` named as the part of `Point.x` before the dot; `lib` itself
returns its own `Point`; and no package is named `nowhere`. -/
theorem C6_GetStruct_witness :
    (∃ pkg, IsFirst (fun q => q.Name = "app") exProgramApp.Packages pkg ∧
      (IsFirst (fun x => x.Name = "Point.x") pkg.Structs
          { Name := "Point", Package := some "lib" } ∨
        ((∀ x ∈ pkg.Structs, x.Name ≠ "Point.x") ∧
          ∃ imp ∈ pkg.Imports,
            IsFirst (fun x => x.Name = splitFirst "Point.x") imp.Structs
              { Name := "Point", Package := some "lib" }))) ∧
    exProgramApp.GetStruct "Point" "lib" = .ok { Name := "Point", Package := some "lib" } ∧
    exProgramApp.GetStruct "Point" "nowhere" =
      .error ("struct '" ++ "Point" ++ "' not found in package '" ++ "nowhere" ++ "'") :=
  ⟨(C6_GetStruct exProgramApp "Point.x" "app").1 _ (by rfl),
   (C6_GetStruct exProgramApp "Point" "lib").2.1 exLib _
      ⟨[exApp], [], rfl, rfl, by
        intro y hy
        rw [List.mem_singleton] at hy
        subst hy
        decide⟩
      ⟨[], [], rfl, rfl, by simp⟩,
   (C6_GetStruct exProgramApp "Point" "nowhere").2.2 (by
      intro q hq
      simp only [exProgramApp, List.mem_cons, List.mem_singleton, List.not_mem_nil,
        or_false] at hq
      rcases hq with h | h <;> subst h <;> decide)⟩

/-! ## Format strings: lemmas -/

/-- One iteration of the main loop never panics when the expression has its format
operand, and it moves the counter by one exactly on a `%` that still has an
argument. -/
theorem buildStep_cases (E : FmtEnv) (fp : Int) (fmtArg : CXArgument)
    (args : List CXArgument) (ch nextCh : Nat) (st : FmtState)
    (hk : st.specifiersCounter ≤ args.length) :
    ∃ st1 skip, buildStep E fp (fmtArg :: args) ch nextCh st = some (st1, skip) ∧
      ((ch = '\\'.toNat ∧ (nextCh = '%'.toNat ∨ nextCh = 'n'.toNat) ∧ skip = true ∧
          st1.specifiersCounter = st.specifiersCounter) ∨
       (ch = '\\'.toNat ∧ ¬ (nextCh = '%'.toNat ∨ nextCh = 'n'.toNat) ∧ skip = false ∧
          st1.specifiersCounter = st.specifiersCounter) ∨
       (ch ≠ '\\'.toNat ∧ ch = '%'.toNat ∧ skip = true ∧
          st1.specifiersCounter = min (st.specifiersCounter + 1) args.length) ∨
       (ch ≠ '\\'.toNat ∧ ch ≠ '%'.toNat ∧ skip = false ∧
          st1.specifiersCounter = st.specifiersCounter)) := by
  unfold buildStep
  by_cases h1 : ch = '\\'.toNat
  · by_cases h2 : nextCh = '%'.toNat
    · rw [if_pos h1, if_pos h2]
      exact ⟨_, _, rfl, Or.inl ⟨h1, Or.inl h2, rfl, rfl⟩⟩
    · by_cases h3 : nextCh = 'n'.toNat
      · rw [if_pos h1, if_neg h2, if_pos h3]
        exact ⟨_, _, rfl, Or.inl ⟨h1, Or.inr h3, rfl, rfl⟩⟩
      · rw [if_pos h1, if_neg h2, if_neg h3]
        exact ⟨_, _, rfl, Or.inr (Or.inl ⟨h1, by tauto, rfl, rfl⟩)⟩
  · by_cases h2 : ch = '%'.toNat
    · by_cases h3 : st.specifiersCounter + 1 = (fmtArg :: args).length
      · rw [if_neg h1, if_pos h2, if_pos h3]
        refine ⟨_, _, rfl, Or.inr (Or.inr (Or.inl ⟨h1, h2, rfl, ?_⟩))⟩
        simp only [List.length_cons] at h3
        simp only
        omega
      · have hlt : st.specifiersCounter < args.length := by
          simp only [List.length_cons] at h3
          omega
        obtain ⟨inp, hinp⟩ : ∃ inp, (fmtArg :: args)[st.specifiersCounter + 1]? = some inp :=
          ⟨args[st.specifiersCounter], by simp [List.getElem?_eq_getElem hlt]⟩
        rw [if_neg h1, if_pos h2, if_neg h3, hinp]
        refine ⟨_, _, rfl, Or.inr (Or.inr (Or.inl ⟨h1, h2, rfl, ?_⟩))⟩
        simp only
        omega
    · rw [if_neg h1, if_neg h2]
      exact ⟨_, _, rfl, Or.inr (Or.inr (Or.inr ⟨h1, h2, rfl, rfl⟩))⟩

/-- The main loop never panics when the expression has its format operand, and it
leaves the counter at the number of directives met, capped by the number of value
arguments. -/
theorem buildLoop_counter (E : FmtEnv) (fp : Int) (fmtArg : CXArgument)
    (args : List CXArgument) :
    ∀ (n : Nat) (fmtStr : List Nat) (st : FmtState), fmtStr.length ≤ n →
      st.specifiersCounter ≤ args.length →
      ∃ st1, buildLoop E fp (fmtArg :: args) fmtStr st = some st1 ∧
        st1.specifiersCounter =
          min (st.specifiersCounter + countDirectives fmtStr) args.length := by
  intro n
  induction n with
  | zero =>
    intro fmtStr st hlen hk
    have : fmtStr = [] := List.length_eq_zero.mp (Nat.le_zero.mp hlen)
    subst this
    exact ⟨st, rfl, by simp [countDirectives, hk]⟩
  | succ n ih =>
    intro fmtStr st hlen hk
    match fmtStr, hlen with
    | [], _ => exact ⟨st, rfl, by simp [countDirectives, hk]⟩
    | [ch], _ =>
      obtain ⟨st1, skip, hstep, hcase⟩ := buildStep_cases E fp fmtArg args ch 0 st hk
      refine ⟨st1, by simp [buildLoop, hstep], ?_⟩
      have hc : countDirectives [ch] = if ch = '%'.toNat then 1 else 0 := rfl
      rw [hc]
      rcases hcase with ⟨h1, _, _, h4⟩ | ⟨h1, _, _, h4⟩ | ⟨_, h2, _, h4⟩ | ⟨_, h2, _, h4⟩
      · have : ch ≠ '%'.toNat := by rw [h1]; decide
        rw [if_neg this, h4]
        omega
      · have : ch ≠ '%'.toNat := by rw [h1]; decide
        rw [if_neg this, h4]
        omega
      · rw [if_pos h2, h4]
      · rw [if_neg h2, h4]
        omega
    | ch :: nextCh :: rest, hlen =>
      obtain ⟨st1, skip, hstep, hcase⟩ := buildStep_cases E fp fmtArg args ch nextCh st hk
      have hlen1 : rest.length ≤ n := by
        simp only [List.length_cons] at hlen
        omega
      have hlen2 : (nextCh :: rest).length ≤ n := by
        simp only [List.length_cons] at hlen ⊢
        omega
      rcases hcase with ⟨h1, h2, h3, h4⟩ | ⟨h1, h2, h3, h4⟩ | ⟨h1, h2, h3, h4⟩ |
        ⟨h1, h2, h3, h4⟩
      · subst h3
        obtain ⟨st2, hrun, hcnt⟩ := ih rest st1 hlen1 (by omega)
        refine ⟨st2, by simp only [buildLoop, hstep, hrun], ?_⟩
        rw [hcnt, h4]
        simp only [countDirectives, if_pos h1, if_pos h2]
      · subst h3
        obtain ⟨st2, hrun, hcnt⟩ := ih (nextCh :: rest) st1 hlen2 (by omega)
        refine ⟨st2, by simp only [buildLoop, hstep, hrun], ?_⟩
        rw [hcnt, h4]
        simp only [countDirectives, if_pos h1, if_neg h2]
      · subst h3
        obtain ⟨st2, hrun, hcnt⟩ := ih rest st1 hlen1 (by omega)
        refine ⟨st2, by simp only [buildLoop, hstep, hrun], ?_⟩
        rw [hcnt, h4]
        simp only [countDirectives, if_neg h1, if_pos h2]
        omega
      · subst h3
        obtain ⟨st2, hrun, hcnt⟩ := ih (nextCh :: rest) st1 hlen2 (by omega)
        refine ⟨st2, by simp only [buildLoop, hstep, hrun], ?_⟩
        rw [hcnt, h4]
        simp only [countDirectives, if_neg h1, if_neg h2]

/-- The entries loop of the `EXTRA` suffix joins the entries with `", "`. -/
theorem extraEntries_eq_intercalate (E : FmtEnv) (fp : Int) (inps : List CXArgument) :
    extraEntries E fp inps = (bytes ", ").intercalate (inps.map (extraEntry E fp)) := by
  induction inps with
  | nil => rfl
  | cons a as ih =>
    cases as with
    | nil => simp [extraEntries, List.intercalate]
    | cons b bs =>
      have h : extraEntries E fp (a :: b :: bs) =
          extraEntry E fp a ++ bytes ", " ++ extraEntries E fp (b :: bs) := rfl
      rw [h, ih]
      simp [List.intercalate, List.intersperse]

theorem digitChar_toNat (k : Nat) (hk : k < 10) : (Nat.digitChar k).toNat = 48 + k := by
  interval_cases k <;> rfl

/-- The digits `Nat.toDigitsCore` puts in front of its accumulator are ASCII digits that
denote the number. -/
theorem toDigitsCore_decimal (fuel : Nat) :
    ∀ (n : Nat) (ds : List Char), n < fuel →
      ∃ D : List Char, Nat.toDigitsCore 10 fuel n ds = D ++ ds ∧
        (∀ c ∈ D, 48 ≤ c.toNat ∧ c.toNat ≤ 57) ∧
        ∀ a : Nat, (D.map Char.toNat).foldl (fun acc d => 10 * acc + (d - 48)) a =
          a * 10 ^ D.length + n := by
  induction fuel with
  | zero => intro n ds h; omega
  | succ fuel ih =>
    intro n ds hn
    have hd : (Nat.digitChar (n % 10)).toNat = 48 + n % 10 :=
      digitChar_toNat (n % 10) (Nat.mod_lt _ (by decide))
    by_cases h0 : n / 10 = 0
    · refine ⟨[Nat.digitChar (n % 10)], by simp [Nat.toDigitsCore, h0], ?_, ?_⟩
      · intro c hc
        simp only [List.mem_singleton] at hc
        subst hc
        omega
      · intro a
        simp only [List.map_cons, List.map_nil, List.foldl_cons, List.foldl_nil, hd,
          List.length_singleton, pow_one]
        omega
    · obtain ⟨D, hD, hdig, hval⟩ := ih (n / 10) (Nat.digitChar (n % 10) :: ds) (by omega)
      refine ⟨D ++ [Nat.digitChar (n % 10)], by simp [Nat.toDigitsCore, h0, hD], ?_, ?_⟩
      · intro c hc
        rcases List.mem_append.mp hc with h1 | h1
        · exact hdig c h1
        · simp only [List.mem_singleton] at h1
          subst h1
          omega
      · intro a
        simp only [List.map_append, List.map_cons, List.map_nil, List.foldl_append,
          List.foldl_cons, List.foldl_nil, hval, hd, List.length_append,
          List.length_singleton, pow_succ]
        have h10 : n = 10 * (n / 10) + n % 10 := (Nat.div_add_mod n 10).symm
        have e : 10 * (a * 10 ^ D.length + n / 10) + (48 + n % 10 - 48) =
            a * (10 ^ D.length * 10) + (10 * (n / 10) + n % 10) := by
          rw [Nat.add_sub_cancel_left]
          ring
        rw [e, ← h10]

/-- `FormatUint` gives ASCII decimal digits that denote the number. -/
theorem FormatUint_decimal (n : Nat) :
    (∀ d ∈ FormatUint n, 48 ≤ d ∧ d ≤ 57) ∧ decimalValue (FormatUint n) = n := by
  obtain ⟨D, hD, hdig, hval⟩ := toDigitsCore_decimal (n + 1) n [] (Nat.lt_succ_self n)
  have hF : FormatUint n = D.map Char.toNat := by
    simp [FormatUint, Nat.toDigits, hD]
  rw [hF]
  constructor
  · intro d hd
    obtain ⟨c, hc, rfl⟩ := List.mem_map.mp hd
    exact hdig c hc
  · have := hval 0
    simpa [decimalValue] using this

/-! ## Format strings: the claims -/

/-- C8: for every format string and every expression whose inputs are the format
operand followed by the value arguments, `buildString` returns the output of the main
loop followed by `%!(EXTRA ` + entries + `)` exactly when the number of `%` directives
of the format string is smaller than the number of value arguments; the entries are
the `type=value` items of the arguments no directive consumed, in argument order,
joined by `", "`; otherwise the output of the main loop is returned with no suffix. -/
theorem C8_buildString_EXTRA_suffix (E : FmtEnv) (fp : Int) (fmtStr : List Nat)
    (expr : CXExpression) (fmtArg : CXArgument) (args : List CXArgument)
    (hinp : expr.Inputs = fmtArg :: args) :
    ∃ body : List Nat,
      buildLoop E fp expr.Inputs fmtStr { res := [], specifiersCounter := 0 } =
        some { res := body,
               specifiersCounter := min (countDirectives fmtStr) args.length } ∧
      buildString E fp fmtStr expr =
        some (body ++
          (if countDirectives fmtStr < args.length then
            bytes "%!(EXTRA " ++
              (bytes ", ").intercalate
                ((args.drop (countDirectives fmtStr)).map (extraEntry E fp)) ++
              bytes ")"
          else [])) := by
  obtain ⟨st1, hrun, hcnt⟩ := buildLoop_counter E fp fmtArg args fmtStr.length fmtStr
    { res := [], specifiersCounter := 0 } (le_refl _) (Nat.zero_le _)
  simp only [Nat.zero_add] at hcnt
  refine ⟨st1.res, ?_, ?_⟩
  · rw [hinp, hrun, ← hcnt]
  · unfold buildString
    rw [hinp, hrun]
    simp only [List.length_cons, Nat.cast_add, Nat.cast_one, add_sub_cancel_right, ne_eq,
      Nat.cast_inj]
    by_cases hlt : countDirectives fmtStr < args.length
    · have hk : st1.specifiersCounter = countDirectives fmtStr := by omega
      have hne : ¬ st1.specifiersCounter = args.length := by omega
      have hle : st1.specifiersCounter + 1 ≤ args.length + 1 := by omega
      rw [if_pos hne, if_pos hle, if_pos hlt, extraEntries_eq_intercalate, hk]
      simp
    · have hk : st1.specifiersCounter = args.length := by omega
      have hnn : ¬ ¬ st1.specifiersCounter = args.length := by simp [hk]
      rw [if_neg hnn, if_neg hlt]
      simp

/-- C8 at concrete inputs: one directive and three arguments leave two arguments for
the suffix; two directives and one argument give no suffix. -/
theorem C8_buildString_EXTRA_suffix_witness :
    (∃ body : List Nat,
      buildLoop exEnv 0 [{ Name := "fmt" }, { Typ := 3 }, { Typ := 3 }, { Typ := 3 }]
          (bytes "x=%d") { res := [], specifiersCounter := 0 } =
        some { res := body, specifiersCounter := 1 } ∧
      buildString exEnv 0 (bytes "x=%d")
          { Inputs := [{ Name := "fmt" }, { Typ := 3 }, { Typ := 3 }, { Typ := 3 }] } =
        some (body ++ bytes "%!(EXTRA i32=42, i32=42)")) ∧
    buildString exEnv 0 (bytes "%d %d") { Inputs := [{ Name := "fmt" }, { Typ := 3 }] } =
      some (bytes "42 %!d(MISSING)") := by
  refine ⟨?_, by decide⟩
  obtain ⟨body, h1, h2⟩ := C8_buildString_EXTRA_suffix exEnv 0 (bytes "x=%d")
    { Inputs := [{ Name := "fmt" }, { Typ := 3 }, { Typ := 3 }, { Typ := 3 }] }
    { Name := "fmt" } [{ Typ := 3 }, { Typ := 3 }, { Typ := 3 }] rfl
  exact ⟨body, h1, h2⟩

/-- On a format string in which the scan meets no directive, the main loop appends the
string with the escapes replaced and leaves the argument counter as it is, whatever the
operands and the state are. -/
theorem buildLoop_no_directive (E : FmtEnv) (fp : Int) (inputs : List CXArgument) :
    ∀ (n : Nat) (fmtStr : List Nat) (st : FmtState), fmtStr.length ≤ n →
      countDirectives fmtStr = 0 →
      buildLoop E fp inputs fmtStr st =
        some { st with res := st.res ++ specUnescape fmtStr } := by
  intro n
  induction n with
  | zero =>
    intro fmtStr st hlen _
    have : fmtStr = [] := List.length_eq_zero.mp (Nat.le_zero.mp hlen)
    subst this
    simp [buildLoop, specUnescape]
  | succ n ih =>
    intro fmtStr st hlen hc
    match fmtStr, hlen, hc with
    | [], _, _ => simp [buildLoop, specUnescape]
    | [ch], _, hc =>
      have hne : ch ≠ '%'.toNat := by
        intro h
        simp only [countDirectives, if_pos h] at hc
        exact absurd hc (by decide)
      have hs : buildStep E fp inputs ch 0 st =
          some ({ st with res := st.res ++ [ch] }, false) := by
        unfold buildStep
        by_cases hb : ch = '\\'.toNat
        · rw [if_pos hb, if_neg (by decide), if_neg (by decide)]
        · rw [if_neg hb, if_neg hne]
      simp only [buildLoop, hs, specUnescape]
    | ch :: nextCh :: rest, hlen, hc =>
      have hlen1 : rest.length ≤ n := by
        simp only [List.length_cons] at hlen
        omega
      have hlen2 : (nextCh :: rest).length ≤ n := by
        simp only [List.length_cons] at hlen ⊢
        omega
      by_cases hb : ch = '\\'.toNat
      · by_cases hn : nextCh = 'n'.toNat
        · have hp : nextCh ≠ '%'.toNat := by rw [hn]; decide
          have hc1 : countDirectives rest = 0 := by
            simpa only [countDirectives, if_pos hb, if_pos (Or.inr hn)] using hc
          have hs : buildStep E fp inputs ch nextCh st =
              some ({ st with res := st.res ++ ['\n'.toNat] }, true) := by
            unfold buildStep
            rw [if_pos hb, if_neg hp, if_pos hn]
          simp only [buildLoop, hs, ih rest _ hlen1 hc1, specUnescape,
            if_pos (And.intro hb hn), List.append_assoc, List.singleton_append]
        · by_cases hp : nextCh = '%'.toNat
          · have hc1 : countDirectives rest = 0 := by
              simpa only [countDirectives, if_pos hb, if_pos (Or.inl hp)] using hc
            have hs : buildStep E fp inputs ch nextCh st =
                some ({ st with res := st.res ++ ['%'.toNat] }, true) := by
              unfold buildStep
              rw [if_pos hb, if_pos hp, hp]
            have h1 : ¬ (ch = '\\'.toNat ∧ nextCh = 'n'.toNat) := fun h => hn h.2
            simp only [buildLoop, hs, ih rest _ hlen1 hc1, specUnescape, if_neg h1,
              if_pos (And.intro hb hp), List.append_assoc, List.singleton_append]
          · have hor : ¬ (nextCh = '%'.toNat ∨ nextCh = 'n'.toNat) := by
              rintro (h | h)
              · exact hp h
              · exact hn h
            have hc1 : countDirectives (nextCh :: rest) = 0 := by
              simpa only [countDirectives, if_pos hb, if_neg hor] using hc
            have hs : buildStep E fp inputs ch nextCh st =
                some ({ st with res := st.res ++ [ch] }, false) := by
              unfold buildStep
              rw [if_pos hb, if_neg hp, if_neg hn]
            have h1 : ¬ (ch = '\\'.toNat ∧ nextCh = 'n'.toNat) := fun h => hn h.2
            have h2 : ¬ (ch = '\\'.toNat ∧ nextCh = '%'.toNat) := fun h => hp h.2
            simp only [buildLoop, hs, ih (nextCh :: rest) _ hlen2 hc1, specUnescape,
              if_neg h1, if_neg h2, List.append_assoc, List.singleton_append]
      · have hne : ch ≠ '%'.toNat := by
          intro h
          simp only [countDirectives, if_neg hb, if_pos h] at hc
          omega
        have hc1 : countDirectives (nextCh :: rest) = 0 := by
          simpa only [countDirectives, if_neg hb, if_neg hne] using hc
        have hs : buildStep E fp inputs ch nextCh st =
            some ({ st with res := st.res ++ [ch] }, false) := by
          unfold buildStep
          rw [if_neg hb, if_neg hne]
        have h1 : ¬ (ch = '\\'.toNat ∧ nextCh = 'n'.toNat) := fun h => hb h.1
        have h2 : ¬ (ch = '\\'.toNat ∧ nextCh = '%'.toNat) := fun h => hb h.1
        simp only [buildLoop, hs, ih (nextCh :: rest) _ hlen2 hc1, specUnescape,
          if_neg h1, if_neg h2, List.append_assoc, List.singleton_append]

/-- C9 (counterexample): with no value argument, the format string `%`, backslash, `n`
gives `%!`, a backslash, `(MISSING)` and `n`, with no newline byte in it: the backslash
is taken as the character of the directive and the `n` as plain text; and with one value
argument the format string `%`, backslash gives nothing: the backslash that ends the
string is not copied. -/
theorem C9_counterexample :
    buildString exEnv 0 ['%'.toNat, '\\'.toNat, 'n'.toNat] { Inputs := [{ Name := "fmt" }] } =
      some (bytes "%!\\(MISSING)n") ∧
    '\n'.toNat ∉ bytes "%!\\(MISSING)n" ∧
    buildString exEnv 0 ['%'.toNat, '\\'.toNat]
        { Inputs := [{ Name := "fmt" }, { Typ := 3 }] } = some [] := by
  decide

/-- C9 (amended): wherever the main loop of `buildString` stands on a backslash, with
whatever output and argument counter it has reached: backslash `n` appends one newline
byte and backslash `%` appends one `%` byte, and in both cases the loop goes on after
the pair with the argument counter unchanged (no argument consumed, no directive
started); a backslash followed by any other byte is appended as it is and the loop goes
on with that byte; a backslash that ends the string is appended as it is.  The loop does
not stand on a backslash that directly follows a `%` it takes as a directive: that
backslash is the character of the directive and is skipped with it, so that `%`,
backslash gives `%!`, backslash, `(MISSING)` when no value argument is left, and
consumes the next argument and gives nothing when one is left, and the loop goes on
with the byte after the backslash.  On a format string in which the loop meets no
directive it appends the string with exactly these replacements made, and with no value
argument that is what `buildString` returns. -/
theorem C9_buildString_escapes (E : FmtEnv) (fp : Int) (inputs : List CXArgument)
    (rest : List Nat) (st : FmtState) :
    buildLoop E fp inputs ('\\'.toNat :: 'n'.toNat :: rest) st =
      buildLoop E fp inputs rest { st with res := st.res ++ ['\n'.toNat] } ∧
    buildLoop E fp inputs ('\\'.toNat :: '%'.toNat :: rest) st =
      buildLoop E fp inputs rest { st with res := st.res ++ ['%'.toNat] } ∧
    (∀ c : Nat, c ≠ '%'.toNat → c ≠ 'n'.toNat →
      buildLoop E fp inputs ('\\'.toNat :: c :: rest) st =
        buildLoop E fp inputs (c :: rest) { st with res := st.res ++ ['\\'.toNat] }) ∧
    buildLoop E fp inputs ['\\'.toNat] st =
      some { st with res := st.res ++ ['\\'.toNat] } ∧
    (st.specifiersCounter + 1 = inputs.length →
      buildLoop E fp inputs ('%'.toNat :: '\\'.toNat :: rest) st =
        buildLoop E fp inputs rest
          { st with res := st.res ++ (bytes "%!" ++ ['\\'.toNat] ++ bytes "(MISSING)") }) ∧
    (∀ inp, inputs[st.specifiersCounter + 1]? = some inp →
      buildLoop E fp inputs ('%'.toNat :: '\\'.toNat :: rest) st =
        buildLoop E fp inputs rest
          { res := st.res, specifiersCounter := st.specifiersCounter + 1 }) ∧
    (∀ fmtStr, countDirectives fmtStr = 0 →
      buildLoop E fp inputs fmtStr st =
        some { st with res := st.res ++ specUnescape fmtStr }) ∧
    (∀ fmtStr fmtArg expr, expr.Inputs = [fmtArg] → countDirectives fmtStr = 0 →
      buildString E fp fmtStr expr = some (specUnescape fmtStr)) := by
  refine ⟨?_, ?_, ?_, ?_, ?_, ?_, ?_, ?_⟩
  · have hs : buildStep E fp inputs '\\'.toNat 'n'.toNat st =
        some ({ st with res := st.res ++ ['\n'.toNat] }, true) := by
      unfold buildStep
      rw [if_pos rfl, if_neg (by decide), if_pos rfl]
    simp only [buildLoop, hs]
  · have hs : buildStep E fp inputs '\\'.toNat '%'.toNat st =
        some ({ st with res := st.res ++ ['%'.toNat] }, true) := by
      unfold buildStep
      rw [if_pos rfl, if_pos rfl]
    simp only [buildLoop, hs]
  · intro c h1 h2
    have hs : buildStep E fp inputs '\\'.toNat c st =
        some ({ st with res := st.res ++ ['\\'.toNat] }, false) := by
      unfold buildStep
      rw [if_pos rfl, if_neg h1, if_neg h2]
    simp only [buildLoop, hs]
  · have hs : buildStep E fp inputs '\\'.toNat 0 st =
        some ({ st with res := st.res ++ ['\\'.toNat] }, false) := by
      unfold buildStep
      rw [if_pos rfl, if_neg (by decide), if_neg (by decide)]
    simp only [buildLoop, hs]
  · intro hk
    have hsp : sprintfC '\\'.toNat = ['\\'.toNat] := by decide
    have hs : buildStep E fp inputs '%'.toNat '\\'.toNat st =
        some ({ st with res := st.res ++
          (bytes "%!" ++ ['\\'.toNat] ++ bytes "(MISSING)") }, true) := by
      unfold buildStep
      rw [if_neg (by decide), if_pos rfl, if_pos hk, hsp]
    simp only [buildLoop, hs]
  · intro inp hinp
    have hk : st.specifiersCounter + 1 ≠ inputs.length :=
      Nat.ne_of_lt (List.getElem?_eq_some_iff.mp hinp).1
    have hf : formatDirective E fp inp '\\'.toNat = [] := by
      unfold formatDirective
      rw [if_neg (by decide), if_neg (by decide), if_neg (by decide), if_neg (by decide)]
    have hs : buildStep E fp inputs '%'.toNat '\\'.toNat st =
        some ({ res := st.res, specifiersCounter := st.specifiersCounter + 1 }, true) := by
      unfold buildStep
      rw [if_neg (by decide), if_pos rfl, if_neg hk, hinp]
      simp only [hf, List.append_nil]
    simp only [buildLoop, hs]
  · intro fmtStr hc
    exact buildLoop_no_directive E fp inputs fmtStr.length fmtStr st (le_refl _) hc
  · intro fmtStr fmtArg expr hinp hc
    unfold buildString
    rw [buildLoop_no_directive E fp expr.Inputs fmtStr.length fmtStr _ (le_refl _) hc, hinp]
    simp

/-- C9 at concrete inputs: a backslash before `x` is copied and the loop goes on with
`x`; a `%`, backslash when the only value argument has been consumed; a `%`, backslash
that consumes the value argument; and a whole format string with the four kinds of
backslash and no directive. -/
theorem C9_buildString_escapes_witness :
    buildLoop exEnv 0 [{ Name := "fmt" }] ('\\'.toNat :: 'x'.toNat :: bytes "y")
        { res := bytes "a", specifiersCounter := 0 } =
      buildLoop exEnv 0 [{ Name := "fmt" }] ('x'.toNat :: bytes "y")
        { res := bytes "a" ++ ['\\'.toNat], specifiersCounter := 0 } ∧
    buildLoop exEnv 0 [{ Name := "fmt" }, { Typ := 3 }]
        ('%'.toNat :: '\\'.toNat :: bytes "n") { res := bytes "42", specifiersCounter := 1 } =
      buildLoop exEnv 0 [{ Name := "fmt" }, { Typ := 3 }] (bytes "n")
        { res := bytes "42" ++ (bytes "%!" ++ ['\\'.toNat] ++ bytes "(MISSING)"),
          specifiersCounter := 1 } ∧
    buildLoop exEnv 0 [{ Name := "fmt" }, { Typ := 3 }]
        ('%'.toNat :: '\\'.toNat :: bytes "n") { res := [], specifiersCounter := 0 } =
      buildLoop exEnv 0 [{ Name := "fmt" }, { Typ := 3 }] (bytes "n")
        { res := [], specifiersCounter := 0 + 1 } ∧
    buildString exEnv 0 (bytes "a\\nb\\%c\\xd\\") { Inputs := [{ Name := "fmt" }] } =
      some (specUnescape (bytes "a\\nb\\%c\\xd\\")) ∧
    specUnescape (bytes "a\\nb\\%c\\xd\\") = bytes "a\nb%c\\xd\\" :=
  ⟨(C9_buildString_escapes exEnv 0 [{ Name := "fmt" }] (bytes "y")
      { res := bytes "a", specifiersCounter := 0 }).2.2.1 'x'.toNat (by decide) (by decide),
   (C9_buildString_escapes exEnv 0 [{ Name := "fmt" }, { Typ := 3 }] (bytes "n")
      { res := bytes "42", specifiersCounter := 1 }).2.2.2.2.1 (by decide),
   (C9_buildString_escapes exEnv 0 [{ Name := "fmt" }, { Typ := 3 }] (bytes "n")
      { res := [], specifiersCounter := 0 }).2.2.2.2.2.1 { Typ := 3 } rfl,
   (C9_buildString_escapes exEnv 0 [] [] { res := [], specifiersCounter := 0 }).2.2.2.2.2.2.2
      (bytes "a\\nb\\%c\\xd\\") { Name := "fmt" } { Inputs := [{ Name := "fmt" }] } rfl
      (by decide),
   by decide⟩

/-- What `buildString` returns for the format string `%d` and one value argument: the
bytes the `switch inp.Type` under `case 'd'` appends, and nothing else. -/
theorem buildString_percent_d (E : FmtEnv) (fp : Int) (expr : CXExpression)
    (fmtArg inp : CXArgument) (hinp : expr.Inputs = [fmtArg, inp]) :
    buildString E fp (bytes "%d") expr = some (formatD E fp inp) := by
  have hb : bytes "%d" = ['%'.toNat, 'd'.toNat] := by decide
  have hf : formatDirective E fp inp 'd'.toNat = formatD E fp inp := by
    unfold formatDirective
    rw [if_neg (by decide), if_pos rfl]
  have hs : buildStep E fp [fmtArg, inp] '%'.toNat 'd'.toNat
      { res := [], specifiersCounter := 0 } =
      some ({ res := formatD E fp inp, specifiersCounter := 1 }, true) := by
    unfold buildStep
    rw [if_neg (by decide), if_pos rfl, ← hf]
    rfl
  have hl : buildLoop E fp [fmtArg, inp] ['%'.toNat, 'd'.toNat]
      { res := [], specifiersCounter := 0 } =
      some { res := formatD E fp inp, specifiersCounter := 1 } := by
    simp only [buildLoop, hs]
  unfold buildString
  rw [hinp, hb, hl]
  simp

/-- C10: for the format string `%d` and exactly one value argument, of a type among
i8, i16, i32, i64, ui8, ui16, ui32, ui64 (eight distinct type codes), `buildString`
returns exactly the decimal representation of the value the reader of that type gives
for the argument: `FormatInt`, with a minus sign for a negative value, for the signed
types, and `FormatUint`, which has no sign, for the unsigned ones; an i32 holding 42
gives `42`; and the bytes of `FormatUint n` are decimal digits that denote `n`. -/
theorem C10_buildString_percent_d_integer (E : FmtEnv) (fp : Int) (expr : CXExpression)
    (fmtArg inp : CXArgument) (hinp : expr.Inputs = [fmtArg, inp])
    (hcodes : [E.TYPE_I8, E.TYPE_I16, E.TYPE_I32, E.TYPE_I64,
      E.TYPE_UI8, E.TYPE_UI16, E.TYPE_UI32, E.TYPE_UI64].Nodup) :
    (inp.Typ = E.TYPE_I8 →
      buildString E fp (bytes "%d") expr = some (FormatInt (E.ReadI8 fp inp))) ∧
    (inp.Typ = E.TYPE_I16 →
      buildString E fp (bytes "%d") expr = some (FormatInt (E.ReadI16 fp inp))) ∧
    (inp.Typ = E.TYPE_I32 →
      buildString E fp (bytes "%d") expr = some (FormatInt (E.ReadI32 fp inp))) ∧
    (inp.Typ = E.TYPE_I64 →
      buildString E fp (bytes "%d") expr = some (FormatInt (E.ReadI64 fp inp))) ∧
    (inp.Typ = E.TYPE_UI8 →
      buildString E fp (bytes "%d") expr = some (FormatUint (E.ReadUI8 fp inp))) ∧
    (inp.Typ = E.TYPE_UI16 →
      buildString E fp (bytes "%d") expr = some (FormatUint (E.ReadUI16 fp inp))) ∧
    (inp.Typ = E.TYPE_UI32 →
      buildString E fp (bytes "%d") expr = some (FormatUint (E.ReadUI32 fp inp))) ∧
    (inp.Typ = E.TYPE_UI64 →
      buildString E fp (bytes "%d") expr = some (FormatUint (E.ReadUI64 fp inp))) ∧
    (inp.Typ = E.TYPE_I32 → E.ReadI32 fp inp = 42 →
      buildString E fp (bytes "%d") expr = some (bytes "42")) ∧
    (∀ n : Nat, FormatInt (-(n + 1 : Int)) = '-'.toNat :: FormatUint (n + 1)) ∧
    (∀ n : Nat, FormatInt (n : Int) = FormatUint n) ∧
    (∀ n : Nat, (∀ d ∈ FormatUint n, '0'.toNat ≤ d ∧ d ≤ '9'.toNat) ∧
      decimalValue (FormatUint n) = n) := by
  rw [buildString_percent_d E fp expr fmtArg inp hinp]
  simp only [List.nodup_cons, List.mem_cons, List.mem_singleton, not_or, List.not_mem_nil,
    not_false_eq_true, List.nodup_nil, and_true] at hcodes
  obtain ⟨⟨h12, h13, h14, h15, h16, h17, h18⟩, ⟨h23, h24, h25, h26, h27, h28⟩,
    ⟨h34, h35, h36, h37, h38⟩, ⟨h45, h46, h47, h48⟩, ⟨h56, h57, h58⟩, ⟨h67, h68⟩, h78⟩ :=
    hcodes
  have e3 : inp.Typ = E.TYPE_I32 → formatD E fp inp = FormatInt (E.ReadI32 fp inp) := by
    intro h
    unfold formatD
    rw [h, if_neg (Ne.symm h13), if_neg (Ne.symm h23), if_pos rfl]
  refine ⟨?_, ?_, ?_, ?_, ?_, ?_, ?_, ?_, ?_, ?_, ?_, FormatUint_decimal⟩
  · intro h
    unfold formatD
    rw [h, if_pos rfl]
  · intro h
    unfold formatD
    rw [h, if_neg (Ne.symm h12), if_pos rfl]
  · intro h
    rw [e3 h]
  · intro h
    unfold formatD
    rw [h, if_neg (Ne.symm h14), if_neg (Ne.symm h24), if_neg (Ne.symm h34), if_pos rfl]
  · intro h
    unfold formatD
    rw [h, if_neg (Ne.symm h15), if_neg (Ne.symm h25), if_neg (Ne.symm h35),
      if_neg (Ne.symm h45), if_pos rfl]
  · intro h
    unfold formatD
    rw [h, if_neg (Ne.symm h16), if_neg (Ne.symm h26), if_neg (Ne.symm h36),
      if_neg (Ne.symm h46), if_neg (Ne.symm h56), if_pos rfl]
  · intro h
    unfold formatD
    rw [h, if_neg (Ne.symm h17), if_neg (Ne.symm h27), if_neg (Ne.symm h37),
      if_neg (Ne.symm h47), if_neg (Ne.symm h57), if_neg (Ne.symm h67), if_pos rfl]
  · intro h
    unfold formatD
    rw [h, if_neg (Ne.symm h18), if_neg (Ne.symm h28), if_neg (Ne.symm h38),
      if_neg (Ne.symm h48), if_neg (Ne.symm h58), if_neg (Ne.symm h68),
      if_neg (Ne.symm h78), if_pos rfl]
  · intro h h42
    rw [e3 h, h42]
    decide
  · intro n
    have hneg : (-(n + 1 : Int)) < 0 := by omega
    have habs : (-(n + 1 : Int)).natAbs = n + 1 := by omega
    unfold FormatInt
    rw [if_pos hneg, habs]
  · intro n
    have hnn : ¬ ((n : Int) < 0) := by omega
    unfold FormatInt
    rw [if_neg hnn, Int.toNat_ofNat]

/-- C10 at a concrete input: an i32 operand holding 42 under the format `%d`. -/
theorem C10_buildString_percent_d_integer_witness :
    buildString exEnv 0 (bytes "%d") { Inputs := [{ Name := "fmt" }, { Typ := 3 }] } =
      some (bytes "42") :=
  (C10_buildString_percent_d_integer exEnv 0
    { Inputs := [{ Name := "fmt" }, { Typ := 3 }] } { Name := "fmt" } { Typ := 3 } rfl
    (by decide)).2.2.2.2.2.2.2.2.1 rfl rfl

/-! ## Building and editing the tree: the claims -/

/-- C14 (counterexample): with a stack of 1024 bytes the program `MakeProgram` returns
has `HeapStartsAt = 0`, not `StackSize` plus the data size 0. -/
theorem C14_counterexample :
    (MakeProgram exConsts).StackSize = 1024 ∧
    (MakeProgram exConsts).HeapStartsAt = 0 ∧
    (MakeProgram exConsts).HeapStartsAt ≠ (MakeProgram exConsts).StackSize + 0 := by
  decide

/-- C14 (amended): in the program `MakeProgram` returns, `StackPointer` is 0 and so
lies between 0 and `StackSize`; `HeapStartsAt` is 0, because `MakeProgram` does not set
it, and equals `StackSize` plus the data size 0 only when `STACK_SIZE` is 0;
`HeapStartsAt ≤ HeapPointer` holds, and `HeapPointer ≤ HeapStartsAt + HeapSize` holds
exactly when `NULL_HEAP_ADDRESS_OFFSET ≤ minHeapSize()`; `CallCounter` is 0, and it is
below the length of the call stack exactly when `CALLSTACK_SIZE` is positive. -/
theorem C14_MakeProgram_invariants (K : CoreConsts) :
    (MakeProgram K).StackPointer = 0 ∧
    0 ≤ (MakeProgram K).StackPointer ∧
    (MakeProgram K).StackPointer ≤ (MakeProgram K).StackSize ∧
    (MakeProgram K).HeapStartsAt = 0 ∧
    ((MakeProgram K).HeapStartsAt = (MakeProgram K).StackSize + 0 ↔ K.STACK_SIZE = 0) ∧
    (MakeProgram K).HeapStartsAt ≤ (MakeProgram K).HeapPointer ∧
    ((MakeProgram K).HeapPointer ≤ (MakeProgram K).HeapStartsAt + (MakeProgram K).HeapSize ↔
      K.NULL_HEAP_ADDRESS_OFFSET ≤ K.minHeapSize) ∧
    (MakeProgram K).CallCounter = 0 ∧
    ((MakeProgram K).CallCounter < ((MakeProgram K).CallStack.length : Int) ↔
      0 < K.CALLSTACK_SIZE) := by
  refine ⟨rfl, le_refl _, ?_, rfl, ?_, ?_, ?_, rfl, ?_⟩ <;>
    simp only [MakeProgram, List.length_replicate] <;> omega

/-- C15: `MakeProgram` returns a program with no package and no current package,
`StackSize = STACK_SIZE`, `HeapSize = minHeapSize()`, a memory buffer of exactly
`STACK_SIZE + minHeapSize()` bytes that are all zero, a call stack of `CALLSTACK_SIZE`
records, and `HeapPointer = NULL_HEAP_ADDRESS_OFFSET`. -/
theorem C15_MakeProgram_empty (K : CoreConsts) :
    (MakeProgram K).Packages.length = 0 ∧
    (MakeProgram K).CurrentPackage.isNone = true ∧
    (MakeProgram K).StackSize = K.STACK_SIZE ∧
    (MakeProgram K).HeapSize = K.minHeapSize ∧
    (MakeProgram K).Memory.length = K.STACK_SIZE + K.minHeapSize ∧
    (∀ b ∈ (MakeProgram K).Memory, b = 0) ∧
    (MakeProgram K).CallStack.length = K.CALLSTACK_SIZE ∧
    (MakeProgram K).HeapPointer = K.NULL_HEAP_ADDRESS_OFFSET := by
  refine ⟨rfl, rfl, rfl, rfl, by simp [MakeProgram], ?_, by simp [MakeProgram], rfl⟩
  intro b hb
  simp only [MakeProgram] at hb
  exact List.eq_of_mem_replicate hb

theorem CXFunction.AddExpression_Length (fn : CXFunction) (expr : CXExpression) :
    (fn.AddExpression expr).Length = fn.Length + 1 ∧
    (fn.AddExpression expr).numExpressions = fn.numExpressions + 1 := by
  cases h : fn.Expressions <;> simp [CXFunction.AddExpression, CXFunction.numExpressions, h]

/-- `RemoveExpression` never writes `Length`, and it shortens a non-empty expression
list by one. -/
theorem CXFunction.RemoveExpression_Length (fn : CXFunction) (line : Int) :
    (fn.RemoveExpression line).Length = fn.Length ∧
    (fn.RemoveExpression line).numExpressions = fn.numExpressions - 1 := by
  cases h : fn.Expressions with
  | none => simp [CXFunction.RemoveExpression, CXFunction.numExpressions, h]
  | some exprs =>
    simp only [CXFunction.RemoveExpression, h]
    by_cases h0 : exprs.length > 0
    · rw [if_pos h0]
      by_cases h1 : line ≥ (exprs.length : Int) - 1 ∨ line < 0
      · rw [if_pos h1]
        simp [CXFunction.numExpressions, h]
      · rw [if_neg h1]
        have hlt : line.toNat < exprs.length := by omega
        simp [CXFunction.numExpressions, List.length_eraseIdx, hlt, h]
    · rw [if_neg h0]
      have : exprs.length = 0 := by omega
      simp [CXFunction.numExpressions, h, this]

/-- C16 (evaluation at the failing input): after `MakeFunction`, one `AddExpression`
and one `RemoveExpression(0)` the expression list is empty and `Length` is 1. -/
theorem C16_Length_after_RemoveExpression :
    (((MakeFunction "f" "" 0).AddExpression { }).RemoveExpression 0).Expressions =
      some [] ∧
    (((MakeFunction "f" "" 0).AddExpression { }).RemoveExpression 0).numExpressions = 0 ∧
    (((MakeFunction "f" "" 0).AddExpression { }).RemoveExpression 0).Length = 1 := by
  decide

/-- C17 (evaluation at the failing input): the struct with fields `a` (4 bytes at 0)
and `b` (2 bytes at 4) and `Size` 6 satisfies the layout invariant; after
`RemoveField("a")` its only field `b` is still at offset 4 and `Size` is still 6, so
the invariant does not hold any more. -/
theorem C17_RemoveField_breaks_layout :
    CXStruct.LayoutOk
      { Name := "S", Size := 6,
        Fields := [{ Name := "a", TotalSize := 4, Offset := 0 },
                   { Name := "b", TotalSize := 2, Offset := 4 }] } ∧
    CXStruct.RemoveField
        { Name := "S", Size := 6,
          Fields := [{ Name := "a", TotalSize := 4, Offset := 0 },
                     { Name := "b", TotalSize := 2, Offset := 4 }] } "a" =
      { Name := "S", Size := 6, Fields := [{ Name := "b", TotalSize := 2, Offset := 4 }] } ∧
    ¬ CXStruct.LayoutOk
      (CXStruct.RemoveField
        { Name := "S", Size := 6,
          Fields := [{ Name := "a", TotalSize := 4, Offset := 0 },
                     { Name := "b", TotalSize := 2, Offset := 4 }] } "a") := by
  have hrun : CXStruct.RemoveField
        { Name := "S", Size := 6,
          Fields := [{ Name := "a", TotalSize := 4, Offset := 0 },
                     { Name := "b", TotalSize := 2, Offset := 4 }] } "a" =
      { Name := "S", Size := 6, Fields := [{ Name := "b", TotalSize := 2, Offset := 4 }] } :=
    by decide
  refine ⟨?_, hrun, ?_⟩
  · simp [CXStruct.LayoutOk, layoutFrom, sumTotalSize]
  · rw [hrun]
    simp [CXStruct.LayoutOk, layoutFrom, sumTotalSize]

/-- What `GetExpressionByLine` does on a function whose expression list is not `nil`
and has `n` expressions: the expression at `line` for `0 ≤ line < n`, the error
"exceeds number of expressions" for `line > n`, and the panic of an index out of range
for `line = n` and for a negative `line`. -/
theorem CXFunction.GetExpressionByLine_some (fn : CXFunction) (exprs : List CXExpression)
    (h : fn.Expressions = some exprs) (line : Int) :
    (∀ expr, 0 ≤ line → exprs[line.toNat]? = some expr →
      fn.GetExpressionByLine line = .ok (.ok expr)) ∧
    ((exprs.length : Int) < line →
      fn.GetExpressionByLine line =
        .ok (.error ("expression line number '" ++ toString line ++
          "' exceeds number of expressions in function '" ++ fn.Name ++ "'"))) ∧
    (line = (exprs.length : Int) →
      fn.GetExpressionByLine line = .error "runtime error: index out of range") ∧
    (line < 0 →
      fn.GetExpressionByLine line = .error "runtime error: index out of range") := by
  refine ⟨?_, ?_, ?_, ?_⟩
  · intro expr h0 hget
    have hlt : line.toNat < exprs.length := (List.getElem?_eq_some_iff.mp hget).1
    have hle : line ≤ (exprs.length : Int) := by omega
    simp only [CXFunction.GetExpressionByLine, h, if_pos hle, if_pos h0, hget]
  · intro hgt
    have hle : ¬ line ≤ (exprs.length : Int) := by omega
    simp only [CXFunction.GetExpressionByLine, h, if_neg hle]
  · intro heq
    have hle : line ≤ (exprs.length : Int) := by omega
    have h0 : 0 ≤ line := by omega
    have hnone : exprs[line.toNat]? = none := by
      rw [List.getElem?_eq_none_iff]
      omega
    simp only [CXFunction.GetExpressionByLine, h, if_pos hle, if_pos h0, hnone]
  · intro hneg
    have hle : line ≤ (exprs.length : Int) := by omega
    have h0 : ¬ 0 ≤ line := by omega
    simp only [CXFunction.GetExpressionByLine, h, if_pos hle, if_neg h0]

theorem CXFunction.GetExpressionByLine_nil (fn : CXFunction) (h : fn.Expressions = none)
    (line : Int) :
    fn.GetExpressionByLine line =
      .ok (.error ("function '" ++ fn.Name ++ "' has no expressions")) := by
  simp only [CXFunction.GetExpressionByLine, h]

/-- C19 (evaluation at the failing input): on a function with one expression,
`GetExpressionByLine(1)` passes the test `line <= len(fn.Expressions)` and panics in
`fn.Expressions[1]`; it does not return the error "expression line number exceeds
number of expressions". -/
theorem C19_GetExpressionByLine_off_by_one :
    CXFunction.GetExpressionByLine { Name := "f", Expressions := some [{ }] } 1 =
      .error "runtime error: index out of range" ∧
    CXFunction.GetExpressionByLine { Name := "f", Expressions := some [{ }] } 2 =
      .ok (.error
        "expression line number '2' exceeds number of expressions in function 'f'") := by
  constructor
  · rfl
  · rfl

/-- What `RemovePackage` does when the package it removes is the current package:
with a package left, the current package becomes the last package of the remaining
list; with no package left, the call panics. -/
theorem CXProgram.RemovePackage_current (samePtr : CXPackage → CXPackage → Bool)
    (prgrm : CXProgram) (modName : String) (mod cur : CXPackage)
    (hmod : IsFirst (fun q => q.Name = modName) prgrm.Packages mod)
    (hcur : prgrm.CurrentPackage = some cur) (hsame : samePtr mod cur = true) :
    (∀ last, (prgrm.Packages.eraseP (fun q => q.Name == modName)).getLast? = some last →
      prgrm.RemovePackage samePtr modName =
        .ok { prgrm with
              Packages := prgrm.Packages.eraseP (fun q => q.Name == modName),
              CurrentPackage := some last }) ∧
    (prgrm.Packages.eraseP (fun q => q.Name == modName) = [] →
      prgrm.RemovePackage samePtr modName =
        .error "runtime error: index out of range [-1]") := by
  have hfind := find?_of_IsFirst _ (fun q : CXPackage => q.Name == modName)
    (fun a => nameIs_iff modName a.Name) _ _ hmod
  constructor
  · intro last hlast
    simp only [CXProgram.RemovePackage, hfind, hcur, hsame, if_true, hlast]
  · intro hnil
    simp only [CXProgram.RemovePackage, hfind, hcur, hsame, if_true, hnil,
      List.getLast?_nil]

/-- C20 (evaluation at the failing input): in a program whose only package `lib` is
the current package, `RemovePackage("lib")` empties the package list and then panics
in `prgrm.Packages[len(prgrm.Packages)-1]`. -/
theorem C20_RemovePackage_last_package_panics :
    exProgramLibOnly.Packages.map (fun q => q.Name) = ["lib"] ∧
    (exProgramLibOnly.CurrentPackage.map (fun q => q.Name)) = some "lib" ∧
    exProgramLibOnly.Packages.eraseP (fun q => q.Name == "lib") = [] ∧
    exProgramLibOnly.RemovePackage sameName "lib" =
      .error "runtime error: index out of range [-1]" :=
  ⟨rfl, rfl, rfl, rfl⟩

/-! ## Emitting literals: lemmas -/

/-- Assigning the bytes `bs` from `off` on, inside the buffer, gives the buffer with
that range replaced. -/
theorem writeBytes_fits (bs : List Nat) : ∀ (mem : List Nat) (off : Nat),
    off + bs.length ≤ mem.length →
    writeBytes mem off bs = some (mem.take off ++ bs ++ mem.drop (off + bs.length)) := by
  induction bs with
  | nil => intro mem off _; simp [writeBytes]
  | cons b bs ih =>
    intro mem off h
    simp only [List.length_cons] at h
    have hlt : off < mem.length := by omega
    have hset : memSet mem off b = some (mem.set off b) := by simp [memSet, hlt]
    have hlen : (mem.set off b).length = mem.length := List.length_set _ _ _
    simp only [writeBytes, hset]
    rw [ih (mem.set off b) (off + 1) (by rw [hlen]; omega)]
    congr 1
    rw [List.set_eq_take_append_cons_drop, if_pos hlt]
    have h1 : (List.take off mem).length = off := by simp; omega
    have e1 : List.take (off + 1) (List.take off mem ++ b :: List.drop (off + 1) mem)
        = List.take off mem ++ [b] := by
      rw [List.take_append_eq_append_take]
      simp [h1]
    have e2 : List.drop (off + 1 + bs.length)
        (List.take off mem ++ b :: List.drop (off + 1) mem)
        = List.drop (off + (bs.length + 1)) mem := by
      rw [List.drop_append_eq_append_drop]
      simp [h1]
      have : List.drop (off + 1 + bs.length) (List.take off mem) = [] := by
        apply List.drop_eq_nil_of_le; simp; omega
      rw [this]
      have e3 : off + 1 + bs.length - off = bs.length + 1 := by omega
      simp [e3]
      congr 1
      omega
    rw [e1, e2]
    simp

/-- With the data offset inside the buffer, the `if` statement of `WritePrimary`
replaces the bytes from the data offset on and extends the buffer when they do not
fit. -/
theorem writeData_inside (mem : List Nat) (d : Nat) (byts : List Nat)
    (hd : d ≤ mem.length) :
    writeData mem d byts = some (mem.take d ++ byts ++ mem.drop (d + byts.length)) := by
  unfold writeData
  by_cases hfit : byts.length + d > mem.length
  · rw [if_pos hfit]
    have hlen : (byts.take (mem.length - d)).length = mem.length - d := by
      rw [List.length_take]
      omega
    have hw := writeBytes_fits (byts.take (mem.length - d)) mem d (by rw [hlen]; omega)
    rw [hlen] at hw
    have e1 : d + (mem.length - d) = mem.length := by omega
    have e2 : List.drop (d + byts.length) mem = [] :=
      List.drop_eq_nil_of_le (by omega)
    simp only [hw, e1, e2, List.drop_length, List.append_nil, List.append_assoc,
      List.take_append_drop]
  · rw [if_neg hfit]
    exact writeBytes_fits byts mem d (by omega)

/-- With the data offset beyond the buffer, the bytes are appended at its end. -/
theorem writeData_beyond (mem : List Nat) (d : Nat) (byts : List Nat)
    (hd : mem.length < d) :
    writeData mem d byts = some (mem ++ byts) := by
  unfold writeData
  have hfit : byts.length + d > mem.length := by omega
  have e : mem.length - d = 0 := by omega
  rw [if_pos hfit]
  simp [e, writeBytes]

theorem primaryArg_Offset (E : ParseEnv) (st : ParserState) (pkg : CXPackage)
    (typ : Int) (byts : List Nat) :
    (primaryArg E st pkg typ byts).Offset = (st.DataOffset : Int) := by
  unfold primaryArg
  simp only
  split <;> rfl

/-- `WritePrimary` never panics when the program has a current package: it returns one
expression with one output operand at the old data offset, and the data offset grows
by the number of bytes. -/
theorem WritePrimary_ok (E : ParseEnv) (st : ParserState) (typ : Int) (byts : List Nat)
    (isGlobal : Bool) (pkg : CXPackage) (hpkg : st.PRGRM.CurrentPackage = some pkg) :
    ∃ mem1 : List Nat,
      writeData st.PRGRM.Memory st.DataOffset byts = some mem1 ∧
      WritePrimary E st typ byts isGlobal =
        .ok ({ st with PRGRM := { st.PRGRM with Memory := mem1 },
                       DataOffset := st.DataOffset + byts.length },
             [primaryExpr st pkg (primaryArg E st pkg typ byts)]) := by
  obtain ⟨mem1, hmem⟩ : ∃ mem1, writeData st.PRGRM.Memory st.DataOffset byts = some mem1 := by
    by_cases hd : st.DataOffset ≤ st.PRGRM.Memory.length
    · exact ⟨_, writeData_inside _ _ _ hd⟩
    · exact ⟨_, writeData_beyond _ _ _ (by omega)⟩
  refine ⟨mem1, hmem, ?_⟩
  simp only [WritePrimary, hpkg, hmem]

/-- A sequence of `WritePrimary` calls in a state with a current package never panics,
keeps the current package, and moves the data offset by the total number of bytes. -/
theorem WritePrimaries_offset (E : ParseEnv) (pkg : CXPackage)
    (calls : List (Int × List Nat × Bool)) :
    ∀ st : ParserState, st.PRGRM.CurrentPackage = some pkg →
      ∃ st1, WritePrimaries E st calls = .ok st1 ∧
        st1.DataOffset = st.DataOffset + totalBytes calls ∧
        st1.PRGRM.CurrentPackage = some pkg := by
  induction calls with
  | nil =>
    intro st hpkg
    exact ⟨st, rfl, by simp [totalBytes], hpkg⟩
  | cons c calls ih =>
    intro st hpkg
    obtain ⟨typ, byts, isGlobal⟩ := c
    obtain ⟨mem1, _, hrun⟩ := WritePrimary_ok E st typ byts isGlobal pkg hpkg
    obtain ⟨st1, hrest, hoff, hcur⟩ :=
      ih { st with PRGRM := { st.PRGRM with Memory := mem1 },
                   DataOffset := st.DataOffset + byts.length } hpkg
    refine ⟨st1, ?_, ?_, hcur⟩
    · simp only [WritePrimaries, hrun, hrest]
    · rw [hoff]
      simp only [totalBytes, List.map_cons, List.sum_cons]
      omega

/-! ## Emitting literals: the claims -/

/-- C11: from the initial parser state (`DataOffset = STACK_SIZE`) of a program that has
a current package, every sequence of `WritePrimary` calls runs without a panic and
leaves the data offset at `STACK_SIZE` plus the total number of bytes passed to the
calls. -/
theorem C11_DataOffset_after_WritePrimary (E : ParseEnv) (K : CoreConsts)
    (prgrm : CXProgram) (pkg : CXPackage) (calls : List (Int × List Nat × Bool))
    (hpkg : prgrm.CurrentPackage = some pkg) :
    ∃ st1, WritePrimaries E (initialParserState K prgrm) calls = .ok st1 ∧
      st1.DataOffset = K.STACK_SIZE + totalBytes calls := by
  obtain ⟨st1, hrun, hoff, _⟩ :=
    WritePrimaries_offset E pkg calls (initialParserState K prgrm) hpkg
  exact ⟨st1, hrun, hoff⟩

/-- C11 at a concrete input: an `i32` literal of 4 bytes and a string literal of 2
bytes, written into a fresh program with current package `main`, leave the data
offset at 1024 + 6. -/
theorem C11_DataOffset_after_WritePrimary_witness :
    ∃ st1,
      WritePrimaries exParseEnv
          (initialParserState exConsts
            { MakeProgram exConsts with CurrentPackage := some exMain })
          [(3, [42, 0, 0, 0], false), (12, bytes "hi", false)] = .ok st1 ∧
      st1.DataOffset = 1024 + 6 :=
  C11_DataOffset_after_WritePrimary exParseEnv exConsts
    { MakeProgram exConsts with CurrentPackage := some exMain } exMain
    [(3, [42, 0, 0, 0], false), (12, bytes "hi", false)] rfl

/-- C12: in a state with a current package and `DataOffset ≤ len(Memory)`,
`WritePrimary` returns one expression whose single output operand has `Offset` equal
to the data offset `d` before the call, and afterwards the memory bytes at positions
`[d, d + len(byts))` are exactly `byts`; the buffer has then the length
`max(len(Memory), d + len(byts))`, unchanged when the bytes fit and extended when they
do not. -/
theorem C12_WritePrimary_stores_bytes (E : ParseEnv) (st : ParserState) (typ : Int)
    (byts : List Nat) (isGlobal : Bool) (pkg : CXPackage)
    (hpkg : st.PRGRM.CurrentPackage = some pkg)
    (hd : st.DataOffset ≤ st.PRGRM.Memory.length) :
    ∃ st1 expr arg,
      WritePrimary E st typ byts isGlobal = .ok (st1, [expr]) ∧
      expr.Outputs = [arg] ∧
      arg.Offset = (st.DataOffset : Int) ∧
      (st1.PRGRM.Memory.drop st.DataOffset).take byts.length = byts ∧
      st1.PRGRM.Memory.length =
        max st.PRGRM.Memory.length (st.DataOffset + byts.length) := by
  obtain ⟨mem1, hmem, hrun⟩ := WritePrimary_ok E st typ byts isGlobal pkg hpkg
  rw [writeData_inside _ _ _ hd] at hmem
  have hmem1 := (Option.some.inj hmem).symm
  have htake : (List.take st.DataOffset st.PRGRM.Memory).length = st.DataOffset := by
    rw [List.length_take]
    omega
  refine ⟨_, _, primaryArg E st pkg typ byts, hrun, ?_, primaryArg_Offset E st pkg typ byts,
    ?_, ?_⟩
  · simp [primaryExpr, MakeExpression]
  · simp only [hmem1, List.append_assoc]
    rw [List.drop_append_eq_append_drop, htake, Nat.sub_self, List.drop_zero,
      List.drop_eq_nil_of_le (by rw [htake]), List.nil_append, List.take_append_eq_append_take,
      List.take_length, Nat.sub_self, List.take_zero, List.append_nil]
  · simp only [hmem1, List.length_append, htake, List.length_drop]
    omega

/-- C12 at concrete inputs: a buffer of six bytes with the data offset at 4; three
bytes do not fit and extend the buffer, one byte fits. -/
theorem C12_WritePrimary_stores_bytes_witness :
    (∃ st1 expr arg,
      WritePrimary exParseEnv
          { PRGRM := { Memory := [0, 0, 0, 0, 0, 0], CurrentPackage := some exMain },
            DataOffset := 4 } 3 [7, 8, 9] false = .ok (st1, [expr]) ∧
      expr.Outputs = [arg] ∧
      arg.Offset = 4 ∧
      (st1.PRGRM.Memory.drop 4).take 3 = [7, 8, 9] ∧
      st1.PRGRM.Memory.length = max 6 (4 + 3)) ∧
    (∃ st1 expr arg,
      WritePrimary exParseEnv
          { PRGRM := { Memory := [0, 0, 0, 0, 0, 0], CurrentPackage := some exMain },
            DataOffset := 4 } 3 [7] false = .ok (st1, [expr]) ∧
      expr.Outputs = [arg] ∧
      arg.Offset = 4 ∧
      (st1.PRGRM.Memory.drop 4).take 1 = [7] ∧
      st1.PRGRM.Memory.length = max 6 (4 + 1)) :=
  ⟨C12_WritePrimary_stores_bytes exParseEnv
      { PRGRM := { Memory := [0, 0, 0, 0, 0, 0], CurrentPackage := some exMain },
        DataOffset := 4 } 3 [7, 8, 9] false exMain rfl (by decide),
   C12_WritePrimary_stores_bytes exParseEnv
      { PRGRM := { Memory := [0, 0, 0, 0, 0, 0], CurrentPackage := some exMain },
        DataOffset := 4 } 3 [7] false exMain rfl (by decide)⟩

/-! ## Serialization opcodes -/

theorem i32_of_range (x : Int) (h0 : -2147483648 ≤ x) (h1 : x < 2147483648) : i32 x = x := by
  unfold i32
  omega

/-- A slice of a slice is a slice of the buffer. -/
theorem sliceOf_sliceOf (mem l : List Nat) (a b c d : Int)
    (h : sliceOf mem a b = some l) (hc : 0 ≤ c) (hcd : c ≤ d) (hd : d ≤ b - a) :
    sliceOf l c d = sliceOf mem (a + c) (a + d) := by
  unfold sliceOf at h
  by_cases hab : 0 ≤ a ∧ a ≤ b ∧ b ≤ (mem.length : Int)
  · rw [if_pos hab] at h
    have hl := (Option.some.inj h).symm
    have hlen : l.length = (b - a).toNat := by
      rw [hl, List.length_take, List.length_drop]
      omega
    unfold sliceOf
    have h1 : 0 ≤ c ∧ c ≤ d ∧ d ≤ (l.length : Int) := by
      refine ⟨hc, hcd, ?_⟩
      rw [hlen]
      omega
    have h2 : 0 ≤ a + c ∧ a + c ≤ a + d ∧ a + d ≤ (mem.length : Int) := by omega
    rw [if_pos h1, if_pos h2, hl]
    congr 1
    rw [List.drop_take, List.take_take, List.drop_drop]
    have e1 : a.toNat + c.toNat = (a + c).toNat := by omega
    have e2 : (a + d - (a + c)).toNat = (d - c).toNat := by
      congr 1
      omega
    have e3 : min (d - c).toNat ((b - a).toNat - c.toNat) = (d - c).toNat := by omega
    rw [e1, e2, e3]
  · rw [if_neg hab] at h
    cases h

/-- What `opDeserialize` hands to `Deserialize` when its input operand holds the offset
of a heap byte slice: the bytes of the slice. -/
theorem opDeserialize_of_slice (H : HeapEnv) (prgrm : CXProgram) (expr : CXExpression)
    (fp : Int) (inp : CXArgument) (rest : List CXArgument) (ptr : List Nat) (off : Int)
    (B : List Nat)
    (hOBJ : 0 ≤ H.OBJECT_HEADER_SIZE) (hSL : 8 ≤ H.SLICE_HEADER_SIZE)
    (hinp : expr.Inputs = inp :: rest)
    (hptr : sliceOf prgrm.Memory (H.GetFinalOffset prgrm fp inp)
      (H.GetFinalOffset prgrm fp inp + H.TYPE_POINTER_SIZE) = some ptr)
    (hoff : i32 (H.Deserialize_i32 ptr) = off)
    (hB : IsHeapByteSlice H prgrm.Memory off B) :
    opDeserialize H prgrm expr fp = .ok B := by
  obtain ⟨h0, hin, hlt, ⟨lenField, hlf, hlen⟩, hbytes⟩ := hB
  have hBn : (0 : Int) ≤ (B.length : Int) := Int.ofNat_nonneg _
  have e1 : i32 (off + H.OBJECT_HEADER_SIZE) = off + H.OBJECT_HEADER_SIZE :=
    i32_of_range _ (by omega) (by omega)
  have e2 : i32 (off + H.OBJECT_HEADER_SIZE + H.SLICE_HEADER_SIZE) =
      off + H.OBJECT_HEADER_SIZE + H.SLICE_HEADER_SIZE :=
    i32_of_range _ (by omega) (by omega)
  have e3 : i32 (B.length : Int) = B.length := i32_of_range _ (by omega) (by omega)
  have e4 : i32 (off + H.OBJECT_HEADER_SIZE + H.SLICE_HEADER_SIZE + B.length) =
      off + H.OBJECT_HEADER_SIZE + H.SLICE_HEADER_SIZE + B.length :=
    i32_of_range _ (by omega) (by omega)
  obtain ⟨hdrBytes, hhdr⟩ : ∃ l, sliceOf prgrm.Memory (off + H.OBJECT_HEADER_SIZE)
      (off + H.OBJECT_HEADER_SIZE + H.SLICE_HEADER_SIZE) = some l := by
    unfold sliceOf
    rw [if_pos (by omega)]
    exact ⟨_, rfl⟩
  have hsub : sliceOf hdrBytes 4 8 = some lenField := by
    rw [sliceOf_sliceOf prgrm.Memory hdrBytes _ _ 4 8 hhdr (by omega) (by omega) (by omega)]
    exact hlf
  have hI : expr.Inputs[0]? = some inp := by rw [hinp]; simp
  simp only [opDeserialize, hI, hptr, hoff, e1, e2, hhdr, hsub, hlen, e3, e4, hbytes]

/-- C13: when the program after `opSerialize` holds the serializer's output `B` as a
heap byte slice at the offset the `WriteToSlice` loop returned (object header, then a
slice header of at least 8 bytes whose bytes 4..8 decode to the length of `B`, then
one element per byte of `B`), and the input operand of `opDeserialize` holds that
offset, the byte sequence `opDeserialize` hands to `Deserialize` is exactly `B`. -/
theorem C13_opDeserialize_reads_opSerialize (H : HeapEnv) (prgrm prgrm1 : CXProgram)
    (exprS exprD : CXExpression) (fpS fpD : Int) (inp : CXArgument)
    (rest : List CXArgument) (ptr : List Nat)
    (hOBJ : 0 ≤ H.OBJECT_HEADER_SIZE) (hSL : 8 ≤ H.SLICE_HEADER_SIZE)
    (hser : opSerialize H prgrm exprS fpS = .ok prgrm1)
    (hstored : IsHeapByteSlice H prgrm1.Memory
      (i32 (serializeLoop H prgrm 0 (H.SerializeCXProgram prgrm true)).2)
      (H.SerializeCXProgram prgrm true))
    (hinp : exprD.Inputs = inp :: rest)
    (hptr : sliceOf prgrm1.Memory (H.GetFinalOffset prgrm1 fpD inp)
      (H.GetFinalOffset prgrm1 fpD inp + H.TYPE_POINTER_SIZE) = some ptr)
    (hoff : i32 (H.Deserialize_i32 ptr) =
      i32 (serializeLoop H prgrm 0 (H.SerializeCXProgram prgrm true)).2) :
    opSerialize H prgrm exprS fpS = .ok prgrm1 ∧
    opDeserialize H prgrm1 exprD fpD = .ok (H.SerializeCXProgram prgrm true) :=
  ⟨hser, opDeserialize_of_slice H prgrm1 exprD fpD inp rest ptr _ _ hOBJ hSL hinp hptr hoff
    hstored⟩

/-- C13 at a concrete input: `opSerialize` on a buffer of eight bytes stores the bytes
7 and 8 as a slice at offset 8 and writes that offset at the output operand (offset
0); `opDeserialize` on an operand at offset 0 hands 7 and 8 to `Deserialize`. -/
theorem C13_opDeserialize_reads_opSerialize_witness :
    (opSerialize exHeapEnv exProgramMem
        { Inputs := [{ }], Outputs := [{ Offset := 0 }] } 0).toOption.map
        (fun p => p.Memory) =
      some ([8, 0, 0, 0, 0, 0, 0, 0] ++ List.replicate 9 0 ++ [0, 0, 0, 0] ++
        [2, 0, 0, 0] ++ [7, 8]) ∧
    opDeserialize exHeapEnv
        { Memory := [8, 0, 0, 0, 0, 0, 0, 0] ++ List.replicate 9 0 ++ [0, 0, 0, 0] ++
            [2, 0, 0, 0] ++ [7, 8] }
        { Inputs := [{ Offset := 0 }] } 0 = .ok [7, 8] :=
  ⟨by decide,
   (C13_opDeserialize_reads_opSerialize exHeapEnv exProgramMem
      { Memory := [8, 0, 0, 0, 0, 0, 0, 0] ++ List.replicate 9 0 ++ [0, 0, 0, 0] ++
          [2, 0, 0, 0] ++ [7, 8] }
      { Inputs := [{ }], Outputs := [{ Offset := 0 }] } { Inputs := [{ Offset := 0 }] } 0 0
      { Offset := 0 } [] [8, 0, 0, 0] (by decide) (by decide) (by rfl)
      ⟨by decide, by decide, by decide, ⟨[2, 0, 0, 0], by decide, by decide⟩, by decide⟩
      rfl (by decide) (by decide)).2⟩

/-! ## Emitting literals: further claims -/

theorem primaryArg_Typ (E : ParseEnv) (st : ParserState) (pkg : CXPackage)
    (typ : Int) (byts : List Nat) :
    (primaryArg E st pkg typ byts).Typ = resolvedType E typ := by
  unfold primaryArg resolvedType MakeArgument CXArgument.AddType
  cases E.TypeCodes (E.TypeNames typ) <;> (simp only; split <;> rfl)

/-- The operand of `WritePrimary` for a literal whose resolved type is `str` or
`aff`. -/
theorem primaryArg_pointer (E : ParseEnv) (st : ParserState) (pkg : CXPackage)
    (typ : Int) (byts : List Nat)
    (h : resolvedType E typ = E.TYPE_STR ∨ resolvedType E typ = E.TYPE_AFF) :
    (primaryArg E st pkg typ byts).Size = E.TYPE_POINTER_SIZE ∧
    (primaryArg E st pkg typ byts).TotalSize = E.TYPE_POINTER_SIZE ∧
    (primaryArg E st pkg typ byts).PassBy = E.PASSBY_REFERENCE := by
  unfold resolvedType at h
  unfold primaryArg MakeArgument CXArgument.AddType
  cases hc : E.TypeCodes (E.TypeNames typ) with
  | none =>
    rw [hc] at h
    simp only at h ⊢
    rw [if_pos h]
    exact ⟨rfl, rfl, rfl⟩
  | some c =>
    rw [hc] at h
    simp only at h ⊢
    rw [if_pos h]
    exact ⟨rfl, rfl, rfl⟩

/-- The operand of `WritePrimary` for a literal whose resolved type is neither `str`
nor `aff`. -/
theorem primaryArg_value (E : ParseEnv) (st : ParserState) (pkg : CXPackage)
    (typ : Int) (byts : List Nat)
    (h : ¬ (resolvedType E typ = E.TYPE_STR ∨ resolvedType E typ = E.TYPE_AFF)) :
    (primaryArg E st pkg typ byts).Size = E.GetArgSize typ ∧
    (primaryArg E st pkg typ byts).TotalSize = (byts.length : Int) ∧
    (primaryArg E st pkg typ byts).PassBy = 0 := by
  unfold resolvedType at h
  unfold primaryArg MakeArgument CXArgument.AddType
  cases hc : E.TypeCodes (E.TypeNames typ) with
  | none =>
    rw [hc] at h
    simp only at h ⊢
    rw [if_neg h]
    exact ⟨rfl, rfl, rfl⟩
  | some c =>
    rw [hc] at h
    simp only at h ⊢
    rw [if_neg h]
    exact ⟨rfl, rfl, rfl⟩

/-- A value in the range of `int` is kept as it is. -/
theorem wrapInt_of_range (x : Int) (h0 : -9223372036854775808 ≤ x)
    (h1 : x < 9223372036854775808) : wrapInt x = x := by
  unfold wrapInt
  omega

/-- Wrapping a factor first does not change the wrapped product. -/
theorem wrapInt_mul_left (a b : Int) : wrapInt (wrapInt a * b) = wrapInt (a * b) := by
  have h : wrapInt a =
      a + 18446744073709551616 * (-((a + 9223372036854775808) / 18446744073709551616)) := by
    unfold wrapInt
    omega
  rw [h]
  unfold wrapInt
  have e : (a + 18446744073709551616 *
        (-((a + 9223372036854775808) / 18446744073709551616))) * b + 9223372036854775808 =
      (a * b + 9223372036854775808) + 18446744073709551616 *
        ((-((a + 9223372036854775808) / 18446744073709551616)) * b) := by
    ring
  rw [e, Int.add_mul_emod_self_left]

theorem wrapInt_mul_right (a b : Int) : wrapInt (a * wrapInt b) = wrapInt (a * b) := by
  rw [mul_comm a (wrapInt b), wrapInt_mul_left, mul_comm]

theorem TotalLength_foldl (xs : List Int) :
    ∀ a : Int, xs.foldl (fun total i => wrapInt (total * i)) (wrapInt a) =
      wrapInt (a * xs.prod) := by
  induction xs with
  | nil =>
    intro a
    simp
  | cons x xs ih =>
    intro a
    rw [List.foldl_cons, ih (wrapInt a * x), List.prod_cons, mul_assoc, wrapInt_mul_left]

/-- Whatever overflows on the way, `TotalLength` is the product of the entries wrapped
into the range of `int`. -/
theorem TotalLength_eq_wrapInt_prod (xs : List Int) : TotalLength xs = wrapInt xs.prod := by
  unfold TotalLength
  have h1 : (1 : Int) = wrapInt 1 := by decide
  have := TotalLength_foldl xs 1
  rw [one_mul] at this
  rw [← this, ← h1]

/-- C21: `WritePrimary` returns one expression whose only output is the operand built
for the literal, and advances the data offset by `len(byts)` whatever the type is.  The
type of the operand is the code the tables resolve `typ` to (`typ` itself when
`TypeCodes[TypeNames[typ]] = typ`); when it is `str` or `aff` the operand has
`Size = TotalSize = TYPE_POINTER_SIZE` and `PassBy = PASSBY_REFERENCE`, independently
of `len(byts)`; for every other type `TotalSize = len(byts)` and `PassBy` keeps the zero
value `MakeArgument` gave it. -/
theorem C21_WritePrimary_operand (E : ParseEnv) (st : ParserState) (typ : Int)
    (byts : List Nat) (isGlobal : Bool) (pkg : CXPackage)
    (hpkg : st.PRGRM.CurrentPackage = some pkg) :
    (∃ st1, WritePrimary E st typ byts isGlobal =
        .ok (st1, [primaryExpr st pkg (primaryArg E st pkg typ byts)]) ∧
      st1.DataOffset = st.DataOffset + byts.length) ∧
    (primaryExpr st pkg (primaryArg E st pkg typ byts)).Outputs =
      [primaryArg E st pkg typ byts] ∧
    (primaryArg E st pkg typ byts).Typ = resolvedType E typ ∧
    (E.TypeCodes (E.TypeNames typ) = some typ → resolvedType E typ = typ) ∧
    ((resolvedType E typ = E.TYPE_STR ∨ resolvedType E typ = E.TYPE_AFF) →
      (primaryArg E st pkg typ byts).Size = E.TYPE_POINTER_SIZE ∧
      (primaryArg E st pkg typ byts).TotalSize = E.TYPE_POINTER_SIZE ∧
      (primaryArg E st pkg typ byts).PassBy = E.PASSBY_REFERENCE) ∧
    (¬ (resolvedType E typ = E.TYPE_STR ∨ resolvedType E typ = E.TYPE_AFF) →
      (primaryArg E st pkg typ byts).TotalSize = (byts.length : Int) ∧
      (primaryArg E st pkg typ byts).PassBy = 0) := by
  obtain ⟨mem1, _, hrun⟩ := WritePrimary_ok E st typ byts isGlobal pkg hpkg
  refine ⟨⟨_, hrun, rfl⟩, ?_, primaryArg_Typ E st pkg typ byts, ?_,
    primaryArg_pointer E st pkg typ byts, ?_⟩
  · simp [primaryExpr, MakeExpression]
  · intro h
    simp only [resolvedType, h]
  · intro h
    exact (primaryArg_value E st pkg typ byts h).2

/-- C21 at concrete inputs: a string literal of two bytes gives an operand of pointer
size passed by reference; an `i32` literal gives an operand of `TotalSize` 4 passed by
the default. -/
theorem C21_WritePrimary_operand_witness :
    ((primaryArg exParseEnv { PRGRM := exProgram, DataOffset := 0 } exMain 12
        (bytes "hi")).Size = 4 ∧
      (primaryArg exParseEnv { PRGRM := exProgram, DataOffset := 0 } exMain 12
        (bytes "hi")).TotalSize = 4 ∧
      (primaryArg exParseEnv { PRGRM := exProgram, DataOffset := 0 } exMain 12
        (bytes "hi")).PassBy = 1) ∧
    ((primaryArg exParseEnv { PRGRM := exProgram, DataOffset := 0 } exMain 3
        [42, 0, 0, 0]).TotalSize = 4 ∧
      (primaryArg exParseEnv { PRGRM := exProgram, DataOffset := 0 } exMain 3
        [42, 0, 0, 0]).PassBy = 0) :=
  ⟨(C21_WritePrimary_operand exParseEnv { PRGRM := exProgram, DataOffset := 0 } 12
      (bytes "hi") false exMain rfl).2.2.2.2.1 (by decide),
   (C21_WritePrimary_operand exParseEnv { PRGRM := exProgram, DataOffset := 0 } 3
      [42, 0, 0, 0] false exMain rfl).2.2.2.2.2 (by decide)⟩

/-- C22: `TotalLength` returns 1 for the empty list and, absent integer overflow (the
product of the entries is in the range of `int`), the product of all its entries; in
every case it returns that product wrapped into the range of `int`.  Consequently
`TotalLength(xs ++ ys)` is `TotalLength(xs) * TotalLength(ys)`: as the `int`
multiplication of the two results in every case, and as their product in the integers
when none of the three products overflows; the result is the same for two lists that
hold the same entries in a different order; and it is 0 when an entry is 0. -/
theorem C22_TotalLength_product (xs : List Int) :
    TotalLength [] = 1 ∧
    (-9223372036854775808 ≤ xs.prod → xs.prod < 9223372036854775808 →
      TotalLength xs = xs.prod) ∧
    TotalLength xs = wrapInt xs.prod ∧
    (∀ ys, TotalLength (xs ++ ys) = wrapInt (TotalLength xs * TotalLength ys)) ∧
    (∀ ys, -9223372036854775808 ≤ xs.prod → xs.prod < 9223372036854775808 →
      -9223372036854775808 ≤ ys.prod → ys.prod < 9223372036854775808 →
      -9223372036854775808 ≤ (xs ++ ys).prod → (xs ++ ys).prod < 9223372036854775808 →
      TotalLength (xs ++ ys) = TotalLength xs * TotalLength ys) ∧
    (∀ ys, xs.Perm ys → TotalLength xs = TotalLength ys) ∧
    (0 ∈ xs → TotalLength xs = 0) := by
  refine ⟨rfl, ?_, TotalLength_eq_wrapInt_prod xs, ?_, ?_, ?_, ?_⟩
  · intro h0 h1
    rw [TotalLength_eq_wrapInt_prod, wrapInt_of_range _ h0 h1]
  · intro ys
    simp only [TotalLength_eq_wrapInt_prod, List.prod_append, wrapInt_mul_left,
      wrapInt_mul_right]
  · intro ys hx0 hx1 hy0 hy1 h0 h1
    rw [TotalLength_eq_wrapInt_prod, TotalLength_eq_wrapInt_prod xs,
      TotalLength_eq_wrapInt_prod ys, wrapInt_of_range _ h0 h1, wrapInt_of_range _ hx0 hx1,
      wrapInt_of_range _ hy0 hy1, List.prod_append]
  · intro ys hperm
    simp only [TotalLength_eq_wrapInt_prod]
    rw [hperm.prod_eq]
  · intro h0
    rw [TotalLength_eq_wrapInt_prod, List.prod_eq_zero h0]
    decide

/-- C22 at concrete inputs: the product of 2, 3 and 4, which does not overflow; the same
entries in another order; an entry 0; a concatenation; and the dimensions 2^62 and 4,
whose product 2^64 overflows and wraps around to 0. -/
theorem C22_TotalLength_product_witness :
    TotalLength [2, 3, 4] = ([2, 3, 4] : List Int).prod ∧
    TotalLength [2, 3, 4] = 24 ∧
    TotalLength [2, 3, 4] = TotalLength [4, 2, 3] ∧
    TotalLength [2, 0, 4] = 0 ∧
    TotalLength ([2, 3] ++ [4]) = TotalLength [2, 3] * TotalLength [4] ∧
    TotalLength [4611686018427387904, 4] = 0 ∧
    TotalLength [4611686018427387904, 4] = wrapInt 18446744073709551616 :=
  ⟨(C22_TotalLength_product [2, 3, 4]).2.1 (by decide) (by decide),
   by decide,
   (C22_TotalLength_product [2, 3, 4]).2.2.2.2.2.1 [4, 2, 3] (by decide),
   (C22_TotalLength_product [2, 0, 4]).2.2.2.2.2.2 (by decide),
   (C22_TotalLength_product [2, 3]).2.2.2.2.1 [4] (by decide) (by decide) (by decide)
     (by decide) (by decide) (by decide),
   by decide,
   (C22_TotalLength_product [4611686018427387904, 4]).2.2.1⟩

/-- C28: in a state with a current package and `DataOffset ≤ len(Memory)`,
`WritePrimary` succeeds, the new data offset is the old one plus `len(byts)`, the new
buffer length is the maximum of the old length and the new data offset, the data
offset is again within the buffer, and the buffer is not shorter than before. -/
theorem C28_WritePrimary_keeps_offset_in_buffer (E : ParseEnv) (st : ParserState)
    (typ : Int) (byts : List Nat) (isGlobal : Bool) (pkg : CXPackage)
    (hpkg : st.PRGRM.CurrentPackage = some pkg)
    (hd : st.DataOffset ≤ st.PRGRM.Memory.length) :
    ∃ st1 exprs,
      WritePrimary E st typ byts isGlobal = .ok (st1, exprs) ∧
      st1.DataOffset = st.DataOffset + byts.length ∧
      st1.PRGRM.Memory.length = max st.PRGRM.Memory.length st1.DataOffset ∧
      st1.DataOffset ≤ st1.PRGRM.Memory.length ∧
      st.PRGRM.Memory.length ≤ st1.PRGRM.Memory.length := by
  obtain ⟨mem1, hmem, hrun⟩ := WritePrimary_ok E st typ byts isGlobal pkg hpkg
  rw [writeData_inside _ _ _ hd] at hmem
  have hmem1 := (Option.some.inj hmem).symm
  have htake : (List.take st.DataOffset st.PRGRM.Memory).length = st.DataOffset := by
    rw [List.length_take]
    omega
  have hlen : mem1.length =
      max st.PRGRM.Memory.length (st.DataOffset + byts.length) := by
    simp only [hmem1, List.length_append, htake, List.length_drop]
    omega
  refine ⟨_, _, hrun, rfl, hlen, ?_, ?_⟩
  · simp only [hlen]
    omega
  · simp only [hlen]
    omega

/-- C28 at a concrete input: three bytes at offset 4 of a buffer of six bytes. -/
theorem C28_WritePrimary_keeps_offset_in_buffer_witness :
    ∃ st1 exprs,
      WritePrimary exParseEnv
          { PRGRM := { Memory := [0, 0, 0, 0, 0, 0], CurrentPackage := some exMain },
            DataOffset := 4 } 3 [7, 8, 9] false = .ok (st1, exprs) ∧
      st1.DataOffset = 4 + 3 ∧
      st1.PRGRM.Memory.length = max 6 st1.DataOffset ∧
      st1.DataOffset ≤ st1.PRGRM.Memory.length ∧
      6 ≤ st1.PRGRM.Memory.length :=
  C28_WritePrimary_keeps_offset_in_buffer exParseEnv
    { PRGRM := { Memory := [0, 0, 0, 0, 0, 0], CurrentPackage := some exMain },
      DataOffset := 4 } 3 [7, 8, 9] false exMain rfl (by decide)

/-- C29: in a state with a current package and `DataOffset ≤ len(Memory)`, every byte
of the old buffer at an index below the old data offset `d`, or at or above
`d + len(byts)`, has the same value after `WritePrimary`. -/
theorem C29_WritePrimary_frame (E : ParseEnv) (st : ParserState) (typ : Int)
    (byts : List Nat) (isGlobal : Bool) (pkg : CXPackage)
    (hpkg : st.PRGRM.CurrentPackage = some pkg)
    (hd : st.DataOffset ≤ st.PRGRM.Memory.length) :
    ∃ st1 exprs,
      WritePrimary E st typ byts isGlobal = .ok (st1, exprs) ∧
      ∀ i, i < st.PRGRM.Memory.length →
        (i < st.DataOffset ∨ st.DataOffset + byts.length ≤ i) →
        st1.PRGRM.Memory[i]? = st.PRGRM.Memory[i]? := by
  obtain ⟨mem1, hmem, hrun⟩ := WritePrimary_ok E st typ byts isGlobal pkg hpkg
  rw [writeData_inside _ _ _ hd] at hmem
  have hmem1 := (Option.some.inj hmem).symm
  have htake : (List.take st.DataOffset st.PRGRM.Memory).length = st.DataOffset := by
    rw [List.length_take]
    omega
  refine ⟨_, _, hrun, ?_⟩
  intro i hi hout
  simp only [hmem1]
  rcases hout with hlo | hhi
  · rw [List.append_assoc, List.getElem?_append_left (by rw [htake]; exact hlo),
      List.getElem?_take_of_lt hlo]
  · have hlen2 : (List.take st.DataOffset st.PRGRM.Memory ++ byts).length =
        st.DataOffset + byts.length := by
      rw [List.length_append, htake]
    rw [List.getElem?_append_right (by rw [hlen2]; exact hhi), hlen2, List.getElem?_drop]
    congr 1
    omega

/-- C29 at a concrete input: two bytes written at offset 2 of a buffer of six bytes
leave the bytes at 0, 1, 4 and 5 as they were. -/
theorem C29_WritePrimary_frame_witness :
    ∃ st1 exprs,
      WritePrimary exParseEnv
          { PRGRM := { Memory := [1, 2, 3, 4, 5, 6], CurrentPackage := some exMain },
            DataOffset := 2 } 3 [7, 8] false = .ok (st1, exprs) ∧
      ∀ i, i < 6 → (i < 2 ∨ 2 + 2 ≤ i) →
        st1.PRGRM.Memory[i]? = ([1, 2, 3, 4, 5, 6] : List Nat)[i]? :=
  C29_WritePrimary_frame exParseEnv
    { PRGRM := { Memory := [1, 2, 3, 4, 5, 6], CurrentPackage := some exMain },
      DataOffset := 2 } 3 [7, 8] false exMain rfl (by decide)

/-! ## Format strings: further claims -/

/-- One iteration on a `%` when every value argument has been consumed. -/
theorem buildStep_missing (E : FmtEnv) (fp : Int) (fmtArg : CXArgument)
    (args : List CXArgument) (c : Nat) (st : FmtState)
    (hk : st.specifiersCounter = args.length) :
    buildStep E fp (fmtArg :: args) '%'.toNat c st =
      some ({ st with res := st.res ++ (bytes "%!" ++ sprintfC c ++ bytes "(MISSING)") },
        true) := by
  unfold buildStep
  have h : st.specifiersCounter + 1 = (fmtArg :: args).length := by
    rw [List.length_cons, hk]
  rw [if_neg (by decide), if_pos rfl, if_pos h]

/-- One iteration on a `%` when a value argument remains. -/
theorem buildStep_directive (E : FmtEnv) (fp : Int) (fmtArg : CXArgument)
    (args : List CXArgument) (c : Nat) (st : FmtState) (inp : CXArgument)
    (hinp : args[st.specifiersCounter]? = some inp) :
    buildStep E fp (fmtArg :: args) '%'.toNat c st =
      some ({ res := st.res ++ formatDirective E fp inp c,
              specifiersCounter := st.specifiersCounter + 1 }, true) := by
  unfold buildStep
  have hlt : st.specifiersCounter < args.length := (List.getElem?_eq_some_iff.mp hinp).1
  have h : ¬ st.specifiersCounter + 1 = (fmtArg :: args).length := by
    rw [List.length_cons]
    omega
  have hget : (fmtArg :: args)[st.specifiersCounter + 1]? = some inp := by
    rw [List.getElem?_cons_succ]
    exact hinp
  rw [if_neg (by decide), if_pos rfl, if_neg h, hget]

/-- Wherever the main loop of `buildString` meets a `%` followed by a byte `c` when every
value argument has been consumed (or there is none), it appends `%!`, what `%c` gives
for `c` and `(MISSING)`, skips `c`, leaves the argument counter as it is and goes on
with the rest of the string; what `%c` gives is the byte `c` itself for an ASCII byte
(below 0x80) and the two bytes `0xC0 + c / 64`, `0x80 + c % 64` for a byte from 0x80 on;
the loop then ends with the counter equal to the number of value arguments, and a run
that ends so gets no `EXTRA` suffix. -/
theorem buildLoop_MISSING (E : FmtEnv) (fp : Int) (fmtArg : CXArgument)
    (args : List CXArgument) (st : FmtState)
    (hk : st.specifiersCounter = args.length) :
    (∀ c rest, c < 128 →
      buildLoop E fp (fmtArg :: args) ('%'.toNat :: c :: rest) st =
        buildLoop E fp (fmtArg :: args) rest
          { st with res := st.res ++ (bytes "%!" ++ [c] ++ bytes "(MISSING)") }) ∧
    (∀ c rest, 128 ≤ c →
      buildLoop E fp (fmtArg :: args) ('%'.toNat :: c :: rest) st =
        buildLoop E fp (fmtArg :: args) rest
          { st with res := st.res ++
              (bytes "%!" ++ [192 + c / 64, 128 + c % 64] ++ bytes "(MISSING)") }) ∧
    (∀ c rest, ∃ st1,
      buildLoop E fp (fmtArg :: args) ('%'.toNat :: c :: rest) st = some st1 ∧
      st1.specifiersCounter = args.length) ∧
    (∀ fmtStr expr st1, expr.Inputs = fmtArg :: args →
      buildLoop E fp expr.Inputs fmtStr { res := [], specifiersCounter := 0 } = some st1 →
      st1.specifiersCounter = args.length →
      buildString E fp fmtStr expr = some st1.res) := by
  refine ⟨?_, ?_, ?_, ?_⟩
  · intro c rest hc
    have hs := buildStep_missing E fp fmtArg args c st hk
    have hsp : sprintfC c = [c] := by
      unfold sprintfC
      rw [if_pos hc]
    rw [hsp] at hs
    simp only [buildLoop, hs]
  · intro c rest hc
    have hs := buildStep_missing E fp fmtArg args c st hk
    have hsp : sprintfC c = [192 + c / 64, 128 + c % 64] := by
      unfold sprintfC
      rw [if_neg (by omega)]
    rw [hsp] at hs
    simp only [buildLoop, hs]
  · intro c rest
    obtain ⟨st1, hrun, hcnt⟩ := buildLoop_counter E fp fmtArg args
      ('%'.toNat :: c :: rest).length ('%'.toNat :: c :: rest) st (le_refl _) (by omega)
    exact ⟨st1, hrun, by rw [hcnt, hk]; omega⟩
  · intro fmtStr expr st1 hinp hrun hcnt
    unfold buildString
    rw [hrun]
    have hnot : ¬ ((st1.specifiersCounter : Int) ≠ (expr.Inputs.length : Int) - 1) := by
      rw [hinp, List.length_cons, hcnt]
      simp
    simp only [if_neg hnot]

/-- The second `%d` of `%d %d!` with one value argument, and the byte 0xC3 after a `%`
with none. -/
theorem buildLoop_MISSING_examples :
    buildLoop exEnv 0 [{ Name := "fmt" }, { Typ := 3 }] ('%'.toNat :: 'd'.toNat :: bytes "!")
        { res := bytes "42 ", specifiersCounter := 1 } =
      buildLoop exEnv 0 [{ Name := "fmt" }, { Typ := 3 }] (bytes "!")
        { res := bytes "42 " ++ (bytes "%!" ++ ['d'.toNat] ++ bytes "(MISSING)"),
          specifiersCounter := 1 } ∧
    buildLoop exEnv 0 [{ Name := "fmt" }] ('%'.toNat :: 195 :: [169])
        { res := [], specifiersCounter := 0 } =
      buildLoop exEnv 0 [{ Name := "fmt" }] [169]
        { res := [] ++ (bytes "%!" ++ [192 + 195 / 64, 128 + 195 % 64] ++ bytes "(MISSING)"),
          specifiersCounter := 0 } ∧
    buildString exEnv 0 (bytes "%d %d!") { Inputs := [{ Name := "fmt" }, { Typ := 3 }] } =
      some (bytes "42 %!d(MISSING)!") :=
  ⟨(buildLoop_MISSING exEnv 0 { Name := "fmt" } [{ Typ := 3 }]
      { res := bytes "42 ", specifiersCounter := 1 } rfl).1 'd'.toNat (bytes "!")
      (by decide),
   (buildLoop_MISSING exEnv 0 { Name := "fmt" } []
      { res := [], specifiersCounter := 0 } rfl).2.1 195 [169] (by decide),
   by decide⟩

/-- C26 (divergence): with no value argument, the format string made of `%` and the byte
0xC3 gives `%!`, the two bytes 0xC3 0x83 and `(MISSING)`, not `%!`, the byte 0xC3 and
`(MISSING)`; and the format string `%é`, whose `é` is the two bytes 0xC3 0xA9, gives
`%!`, 0xC3 0x83, `(MISSING)` and the stray byte 0xA9, where the bytes the claim
describes would be `%!`, 0xC3, `(MISSING)`, 0xA9. -/
theorem C26_MISSING_non_ascii_byte :
    buildString exEnv 0 ['%'.toNat, 195] { Inputs := [{ Name := "fmt" }] } =
      some (bytes "%!" ++ [195, 131] ++ bytes "(MISSING)") ∧
    buildString exEnv 0 ['%'.toNat, 195] { Inputs := [{ Name := "fmt" }] } ≠
      some (bytes "%!" ++ [195] ++ bytes "(MISSING)") ∧
    bytes "%é" = ['%'.toNat, 195, 169] ∧
    buildString exEnv 0 (bytes "%é") { Inputs := [{ Name := "fmt" }] } =
      some (bytes "%!" ++ [195, 131] ++ bytes "(MISSING)" ++ [169]) ∧
    buildString exEnv 0 (bytes "%é") { Inputs := [{ Name := "fmt" }] } ≠
      some (bytes "%!" ++ [195] ++ bytes "(MISSING)" ++ [169]) := by
  decide

/-- C27: wherever the main loop of `buildString` meets a `%` while a value argument
remains, it consumes exactly the next argument (the counter grows by one), appends what
the directive gives for it and skips the byte after the `%`; nothing is appended when
the directive byte is not one of `s`, `d`, `f`, `v`, when `%d` meets an argument whose
type is none of the eight integer types, and when `%f` meets an argument whose type is
neither `f32` nor `f64`; and at the end of the loop the counter is the minimum of the
number of directives and the number of value arguments. -/
theorem C27_buildString_directive (E : FmtEnv) (fp : Int) (fmtArg : CXArgument)
    (args : List CXArgument) (st : FmtState) (inp : CXArgument)
    (hinp : args[st.specifiersCounter]? = some inp) :
    (∀ c rest,
      buildLoop E fp (fmtArg :: args) ('%'.toNat :: c :: rest) st =
        buildLoop E fp (fmtArg :: args) rest
          { res := st.res ++ formatDirective E fp inp c,
            specifiersCounter := st.specifiersCounter + 1 }) ∧
    buildLoop E fp (fmtArg :: args) ['%'.toNat] st =
      some { res := st.res ++ formatDirective E fp inp 0,
             specifiersCounter := st.specifiersCounter + 1 } ∧
    (∀ c, c ≠ 's'.toNat → c ≠ 'd'.toNat → c ≠ 'f'.toNat → c ≠ 'v'.toNat →
      formatDirective E fp inp c = []) ∧
    (inp.Typ ∉ [E.TYPE_I8, E.TYPE_I16, E.TYPE_I32, E.TYPE_I64,
        E.TYPE_UI8, E.TYPE_UI16, E.TYPE_UI32, E.TYPE_UI64] →
      formatDirective E fp inp 'd'.toNat = []) ∧
    (inp.Typ ∉ [E.TYPE_F32, E.TYPE_F64] → formatDirective E fp inp 'f'.toNat = []) ∧
    (∀ fmtStr, ∃ st1,
      buildLoop E fp (fmtArg :: args) fmtStr { res := [], specifiersCounter := 0 } =
        some st1 ∧
      st1.specifiersCounter = min (countDirectives fmtStr) args.length) := by
  refine ⟨?_, ?_, ?_, ?_, ?_, ?_⟩
  · intro c rest
    simp only [buildLoop, buildStep_directive E fp fmtArg args c st inp hinp]
  · simp only [buildLoop, buildStep_directive E fp fmtArg args 0 st inp hinp]
  · intro c hs hd hf hv
    unfold formatDirective
    rw [if_neg hs, if_neg hd, if_neg hf, if_neg hv]
  · intro hT
    simp only [List.mem_cons, List.mem_singleton, List.not_mem_nil, or_false, not_or] at hT
    obtain ⟨h1, h2, h3, h4, h5, h6, h7, h8⟩ := hT
    unfold formatDirective formatD
    rw [if_neg (by decide), if_pos rfl, if_neg h1, if_neg h2, if_neg h3, if_neg h4,
      if_neg h5, if_neg h6, if_neg h7, if_neg h8]
  · intro hT
    simp only [List.mem_cons, List.mem_singleton, List.not_mem_nil, or_false, not_or] at hT
    obtain ⟨h1, h2⟩ := hT
    unfold formatDirective formatF
    rw [if_neg (by decide), if_neg (by decide), if_pos rfl, if_neg h1, if_neg h2]
  · intro fmtStr
    obtain ⟨st1, hrun, hcnt⟩ := buildLoop_counter E fp fmtArg args fmtStr.length fmtStr
      { res := [], specifiersCounter := 0 } (le_refl _) (Nat.zero_le _)
    exact ⟨st1, hrun, by simpa using hcnt⟩

/-- C27 at concrete inputs: `%%` consumes the argument and emits nothing, and `%d` on an
operand of a float type emits nothing. -/
theorem C27_buildString_directive_witness :
    buildLoop exEnv 0 [{ Name := "fmt" }, { Typ := 3 }] ('%'.toNat :: '%'.toNat :: bytes "!")
        { res := [], specifiersCounter := 0 } =
      buildLoop exEnv 0 [{ Name := "fmt" }, { Typ := 3 }] (bytes "!")
        { res := [] ++ formatDirective exEnv 0 { Typ := 3 } '%'.toNat,
          specifiersCounter := 0 + 1 } ∧
    buildString exEnv 0 (bytes "%%!") { Inputs := [{ Name := "fmt" }, { Typ := 3 }] } =
      some (bytes "!") ∧
    buildString exEnv 0 (bytes "%d!") { Inputs := [{ Name := "fmt" }, { Typ := 9 }] } =
      some (bytes "!") :=
  ⟨(C27_buildString_directive exEnv 0 { Name := "fmt" } [{ Typ := 3 }]
      { res := [], specifiersCounter := 0 } { Typ := 3 } rfl).1 '%'.toNat (bytes "!"),
   by decide, by decide⟩

/-! ## Adding packages and functions -/

theorem countP_name_eq_count {α : Type} (name : α → String) (n : String) (xs : List α) :
    xs.countP (fun x => name x == n) = (xs.map name).count n := by
  induction xs with
  | nil => rfl
  | cons x xs ih =>
    simp only [List.countP_cons, List.map_cons, List.count_cons, ih]

/-- C23: on a program whose packages have pairwise distinct names, `AddPackage(mod)`
leaves the names pairwise distinct and the former package list a prefix of the new
one; the new list holds exactly one package named `mod.Name`: the former list is kept
as it is when it has such a package, and `mod` is appended to it otherwise; the current
package is that package; and a second `AddPackage(mod)` changes nothing. -/
theorem C23_AddPackage (prgrm : CXProgram) (mod : CXPackage)
    (hnd : (prgrm.Packages.map (fun q => q.Name)).Nodup) :
    ((prgrm.AddPackage mod).Packages.map (fun q => q.Name)).Nodup ∧
    prgrm.Packages <+: (prgrm.AddPackage mod).Packages ∧
    (prgrm.AddPackage mod).Packages.countP (fun q => q.Name == mod.Name) = 1 ∧
    (∀ md, IsFirst (fun q => q.Name = mod.Name) prgrm.Packages md →
      (prgrm.AddPackage mod).Packages = prgrm.Packages ∧
      (prgrm.AddPackage mod).CurrentPackage = some md) ∧
    ((∀ q ∈ prgrm.Packages, q.Name ≠ mod.Name) →
      (prgrm.AddPackage mod).Packages = prgrm.Packages ++ [mod] ∧
      (prgrm.AddPackage mod).CurrentPackage = some mod) ∧
    (∃ cur, (prgrm.AddPackage mod).CurrentPackage = some cur ∧
      cur ∈ (prgrm.AddPackage mod).Packages ∧ cur.Name = mod.Name) ∧
    (prgrm.AddPackage mod).AddPackage mod = prgrm.AddPackage mod := by
  cases hfind : prgrm.Packages.find? (fun md => md.Name == mod.Name) with
  | some md =>
    have hfirst := IsFirst_of_find? (fun q : CXPackage => q.Name = mod.Name) _
      (fun a => nameIs_iff mod.Name a.Name) _ _ hfind
    have hrun : prgrm.AddPackage mod = { prgrm with CurrentPackage := some md } := by
      simp only [CXProgram.AddPackage, hfind]
    have hmem : mod.Name ∈ prgrm.Packages.map (fun q => q.Name) :=
      List.mem_map.mpr ⟨md, hfirst.mem.1, hfirst.mem.2⟩
    rw [hrun]
    refine ⟨hnd, List.prefix_refl _, ?_, ?_, ?_, ⟨md, rfl, hfirst.mem.1, hfirst.mem.2⟩, ?_⟩
    · rw [countP_name_eq_count (fun q : CXPackage => q.Name)]
      exact List.count_eq_one_of_mem hnd hmem
    · intro md1 hmd1
      have h1 := find?_of_IsFirst _ (fun q : CXPackage => q.Name == mod.Name)
        (fun a => nameIs_iff mod.Name a.Name) _ _ hmd1
      rw [hfind] at h1
      exact ⟨rfl, by rw [Option.some.inj h1]⟩
    · intro hno
      exact absurd hfirst.mem.2 (hno md hfirst.mem.1)
    · simp only [CXProgram.AddPackage, hfind]
  | none =>
    have hno := forall_of_find?_none (fun q : CXPackage => q.Name = mod.Name) _
      (fun a => nameIs_iff mod.Name a.Name) _ hfind
    have hrun : prgrm.AddPackage mod =
        { prgrm with Packages := prgrm.Packages ++ [mod], CurrentPackage := some mod } := by
      simp only [CXProgram.AddPackage, hfind]
    have hnot : mod.Name ∉ prgrm.Packages.map (fun q => q.Name) := by
      intro hm
      obtain ⟨q, hq, hqn⟩ := List.mem_map.mp hm
      exact hno q hq hqn
    have hnd1 : ((prgrm.Packages ++ [mod]).map (fun q => q.Name)).Nodup := by
      rw [List.map_append, List.map_singleton]
      exact List.Nodup.append hnd (List.nodup_singleton _)
        (by
          intro a ha hb
          rw [List.mem_singleton] at hb
          exact hnot (hb ▸ ha))
    have hfind1 : (prgrm.Packages ++ [mod]).find? (fun md => md.Name == mod.Name) =
        some mod :=
      find?_of_IsFirst (fun q : CXPackage => q.Name = mod.Name) _
        (fun a => nameIs_iff mod.Name a.Name) _ _ ⟨prgrm.Packages, [], rfl, rfl, hno⟩
    rw [hrun]
    refine ⟨hnd1, List.prefix_append _ _, ?_, ?_, ?_, ⟨mod, rfl, by simp, rfl⟩, ?_⟩
    · rw [countP_name_eq_count (fun q : CXPackage => q.Name)]
      exact List.count_eq_one_of_mem hnd1 (by simp)
    · intro md hmd
      exact absurd hmd.mem.2 (hno md hmd.mem.1)
    · intro _
      exact ⟨rfl, rfl⟩
    · simp only [CXProgram.AddPackage, hfind1]

/-- C23 at concrete inputs: adding `lib` to the program of `main` and `lib` keeps the
list and selects `lib`; adding `app` appends it. -/
theorem C23_AddPackage_witness :
    ((exProgram.AddPackage exLib).Packages.map (fun q => q.Name) = ["main", "lib"] ∧
      (exProgram.AddPackage exLib).CurrentPackage.map (fun q => q.Name) = some "lib") ∧
    ((exProgram.AddPackage exApp).Packages.map (fun q => q.Name) =
        ["main", "lib", "app"] ∧
      (exProgram.AddPackage exApp).CurrentPackage.map (fun q => q.Name) = some "app") ∧
    (exProgram.AddPackage exApp).Packages.countP (fun q => q.Name == exApp.Name) = 1 :=
  ⟨⟨rfl, rfl⟩, ⟨rfl, rfl⟩, (C23_AddPackage exProgram exApp (by decide)).2.2.1⟩

theorem redeclareFunction_none (fn : CXFunction) (fs : List CXFunction) :
    redeclareFunction fn fs = none ↔ ∀ f ∈ fs, f.Name ≠ fn.Name := by
  induction fs with
  | nil => simp [redeclareFunction]
  | cons f fs ih =>
    by_cases hf : f.Name = fn.Name
    · have hb : (f.Name == fn.Name) = true := by simpa using hf
      simp only [redeclareFunction, hb, if_true]
      constructor
      · intro h
        cases h
      · intro h
        exact absurd hf (h f (List.mem_cons_self _ _))
    · have hb : (f.Name == fn.Name) = false := by simpa using hf
      simp only [redeclareFunction, hb, List.mem_cons, forall_eq_or_imp]
      cases hr : redeclareFunction fn fs with
      | none =>
        simp only [Bool.false_eq_true, if_false, true_iff]
        exact ⟨hf, ih.mp hr⟩
      | some r =>
        simp only [Bool.false_eq_true, if_false]
        constructor
        · intro h
          cases h
        · rintro ⟨_, hall⟩
          have := ih.mpr hall
          rw [hr] at this
          cases this

/-- What the loop of `AddFunction` leaves when it finds a function of that name. -/
theorem redeclareFunction_some (fn : CXFunction) (fs : List CXFunction) :
    ∀ (fs1 : List CXFunction) (f1 : CXFunction), redeclareFunction fn fs = some (fs1, f1) →
      fs1.map (fun f => f.Name) = fs.map (fun f => f.Name) ∧
      f1 ∈ fs1 ∧ f1.Name = fn.Name ∧ f1.Inputs = fn.Inputs ∧ f1.Outputs = fn.Outputs ∧
      f1.Expressions = fn.Expressions ∧ f1.Package = fn.Package ∧
      fs1.filter (fun f => f.Name != fn.Name) = fs.filter (fun f => f.Name != fn.Name) := by
  induction fs with
  | nil =>
    intro fs1 f1 h
    simp [redeclareFunction] at h
  | cons f fs ih =>
    intro fs1 f1 h
    by_cases hf : f.Name = fn.Name
    · have hb : (f.Name == fn.Name) = true := by simpa using hf
      simp only [redeclareFunction, hb, if_true, Option.some.injEq, Prod.mk.injEq] at h
      obtain ⟨h1, h2⟩ := h
      subst h2
      subst h1
      refine ⟨by simp [hf], by simp, rfl, rfl, rfl, rfl, rfl, ?_⟩
      simp [List.filter_cons, hf]
    · have hb : (f.Name == fn.Name) = false := by simpa using hf
      cases hr : redeclareFunction fn fs with
      | none => simp [redeclareFunction, hb, hr] at h
      | some r =>
        obtain ⟨fs2, f2⟩ := r
        simp only [redeclareFunction, hb, hr, Bool.false_eq_true, if_false,
          Option.some.injEq, Prod.mk.injEq] at h
        obtain ⟨h1, h2⟩ := h
        subst h2
        subst h1
        obtain ⟨hn, hm, e1, e2, e3, e4, e5, e6⟩ := ih fs2 f2 hr
        refine ⟨by simp [hn], List.mem_cons_of_mem _ hm, e1, e2, e3, e4, e5, ?_⟩
        simp [List.filter_cons, hf, e6]

/-- C24: on a package whose functions have pairwise distinct names, after
`AddFunction(fn)` exactly one function is named `fn.Name`; it is the current function,
it is in the list, it has the `Inputs`, `Outputs` and `Expressions` of `fn` and the
receiving package as `Package`; the list is one longer when the name was new and as
long as before on a redeclaration; and the functions of another name are the same, in
the same order. -/
theorem C24_AddFunction (pkg : CXPackage) (fn : CXFunction)
    (hnd : (pkg.Functions.map (fun f => f.Name)).Nodup) :
    (pkg.AddFunction fn).Functions.countP (fun f => f.Name == fn.Name) = 1 ∧
    (∃ cur, (pkg.AddFunction fn).CurrentFunction = some cur ∧
      cur ∈ (pkg.AddFunction fn).Functions ∧ cur.Name = fn.Name ∧
      cur.Inputs = fn.Inputs ∧ cur.Outputs = fn.Outputs ∧
      cur.Expressions = fn.Expressions ∧ cur.Package = some pkg.Name) ∧
    ((∀ f ∈ pkg.Functions, f.Name ≠ fn.Name) →
      (pkg.AddFunction fn).Functions.length = pkg.Functions.length + 1) ∧
    ((∃ f ∈ pkg.Functions, f.Name = fn.Name) →
      (pkg.AddFunction fn).Functions.length = pkg.Functions.length) ∧
    (pkg.AddFunction fn).Functions.filter (fun f => f.Name != fn.Name) =
      pkg.Functions.filter (fun f => f.Name != fn.Name) ∧
    (pkg.AddFunction fn).Name = pkg.Name := by
  cases hr : redeclareFunction { fn with Package := some pkg.Name } pkg.Functions with
  | some r =>
    obtain ⟨fns, f1⟩ := r
    have hrun : pkg.AddFunction fn =
        { pkg with Functions := fns, CurrentFunction := some f1 } := by
      simp only [CXPackage.AddFunction, hr]
    obtain ⟨hn, hm, e1, e2, e3, e4, e5, e6⟩ :=
      redeclareFunction_some { fn with Package := some pkg.Name } pkg.Functions fns f1 hr
    have hlen : fns.length = pkg.Functions.length := by
      have := congrArg List.length hn
      simpa using this
    rw [hrun]
    refine ⟨?_, ⟨f1, rfl, hm, e1, e2, e3, e4, e5⟩, ?_, fun _ => hlen, e6, rfl⟩
    · rw [countP_name_eq_count (fun f : CXFunction => f.Name)]
      have hnd1 : (fns.map (fun f => f.Name)).Nodup := by rw [hn]; exact hnd
      exact List.count_eq_one_of_mem hnd1 (List.mem_map.mpr ⟨f1, hm, e1⟩)
    · intro hno
      have := (redeclareFunction_none { fn with Package := some pkg.Name }
        pkg.Functions).mpr hno
      rw [hr] at this
      cases this
  | none =>
    have hno := (redeclareFunction_none { fn with Package := some pkg.Name }
      pkg.Functions).mp hr
    have hno1 : ∀ f ∈ pkg.Functions, f.Name ≠ fn.Name := hno
    have hrun : pkg.AddFunction fn =
        { pkg with Functions := pkg.Functions ++ [{ fn with Package := some pkg.Name }],
                   CurrentFunction := some { fn with Package := some pkg.Name } } := by
      simp only [CXPackage.AddFunction, hr]
    have hnot : fn.Name ∉ pkg.Functions.map (fun f => f.Name) := by
      intro hm
      obtain ⟨f, hf, hfn⟩ := List.mem_map.mp hm
      exact hno1 f hf hfn
    have hnd1 : ((pkg.Functions ++ [{ fn with Package := some pkg.Name }]).map
        (fun f : CXFunction => f.Name)).Nodup := by
      rw [List.map_append, List.map_singleton]
      exact List.Nodup.append hnd (List.nodup_singleton _)
        (by
          intro a ha hb
          rw [List.mem_singleton] at hb
          exact hnot (hb ▸ ha))
    rw [hrun]
    refine ⟨?_, ⟨_, rfl, by simp, rfl, rfl, rfl, rfl, rfl⟩, fun _ => by simp, ?_, ?_, rfl⟩
    · rw [countP_name_eq_count (fun f : CXFunction => f.Name)]
      exact List.count_eq_one_of_mem hnd1 (by simp)
    · rintro ⟨f, hf, hfn⟩
      exact absurd hfn (hno1 f hf)
    · simp [List.filter_append]

/-- C24 at concrete inputs: redeclaring `f` in `main` with one input, and adding `g`. -/
theorem C24_AddFunction_witness :
    ((exMain.AddFunction { Name := "f", Inputs := [{ Name := "a" }] }).Functions =
        [{ Name := "f", Inputs := [{ Name := "a" }], Package := some "main" }] ∧
      (exMain.AddFunction { Name := "f", Inputs := [{ Name := "a" }] }).CurrentFunction =
        some { Name := "f", Inputs := [{ Name := "a" }], Package := some "main" }) ∧
    (exMain.AddFunction { Name := "g" }).Functions.length = exMain.Functions.length + 1 ∧
    (exMain.AddFunction { Name := "g" }).Functions.countP (fun f => f.Name == "g") = 1 :=
  ⟨⟨by decide, by decide⟩,
   (C24_AddFunction exMain { Name := "g" } (by decide)).2.2.1 (by decide),
   by decide⟩

/-! ## The expression cursor -/

/-- `SelectExpression` never panics: the clamped line is an index of the list. -/
theorem CXFunction.SelectExpression_ok (fn : CXFunction) (line : Int) :
    ∃ fn1 r, fn.SelectExpression line = .ok (fn1, r) ∧
      fn1.Expressions = fn.Expressions ∧
      (fn.CurrentExpression ≠ none → fn1.CurrentExpression ≠ none) ∧
      (fn1.CurrentExpression = none → fn.Expressions.getD [] = []) := by
  unfold CXFunction.SelectExpression
  by_cases h0 : (fn.Expressions.getD []).length = 0
  · simp only [h0, if_true]
    exact ⟨fn, _, rfl, rfl, fun h => h, fun _ => List.length_eq_zero.mp h0⟩
  · simp only [h0, if_false]
    have hlt : (if (if line ≥ ((fn.Expressions.getD []).length : Int)
          then ((fn.Expressions.getD []).length : Int) - 1 else line) < 0 then (0 : Int)
        else (if line ≥ ((fn.Expressions.getD []).length : Int)
          then ((fn.Expressions.getD []).length : Int) - 1 else line)).toNat <
        (fn.Expressions.getD []).length := by
      split_ifs <;> omega
    obtain ⟨expr, hexpr⟩ : ∃ expr, (fn.Expressions.getD [])[(if (if line ≥
          ((fn.Expressions.getD []).length : Int)
          then ((fn.Expressions.getD []).length : Int) - 1 else line) < 0 then (0 : Int)
        else (if line ≥ ((fn.Expressions.getD []).length : Int)
          then ((fn.Expressions.getD []).length : Int) - 1 else line)).toNat]? =
        some expr := ⟨_, List.getElem?_eq_getElem hlt⟩
    rw [hexpr]
    exact ⟨_, _, rfl, rfl, fun _ => by simp, fun h => by simp at h⟩

theorem CXFunction.applyOp_CursorInv (fn : CXFunction) (op : FnOp)
    (hinv : fn.CursorInv) : ∃ fn1, fn.applyOp op = .ok fn1 ∧ fn1.CursorInv := by
  cases op with
  | add expr =>
    refine ⟨_, rfl, ?_⟩
    intro h
    simp [CXFunction.AddExpression] at h
  | remove line =>
    refine ⟨_, rfl, ?_⟩
    intro h
    cases hE : fn.Expressions with
    | none => simp [CXFunction.RemoveExpression, hE]
    | some exprs =>
      have hcur : (fn.RemoveExpression line).CurrentExpression = fn.CurrentExpression := by
        simp only [CXFunction.RemoveExpression, hE]
        split_ifs <;> rfl
      rw [hcur] at h
      rw [hinv h] at hE
      cases hE
  | select line =>
    obtain ⟨fn1, r, hrun, hE, hkeep, _⟩ := fn.SelectExpression_ok line
    refine ⟨fn1, by simp only [CXFunction.applyOp, hrun], ?_⟩
    intro h
    rw [hE]
    by_cases hc : fn.CurrentExpression = none
    · exact hinv hc
    · exact absurd h (hkeep hc)

/-- Every sequence of `AddExpression`, `RemoveExpression` and `SelectExpression` calls on
the function `MakeFunction` gives runs without a panic, and `GetCurrentExpression` on
the result does not panic either. -/
theorem CXFunction.GetCurrentExpression_no_panic (ops : List FnOp) :
    ∀ fn : CXFunction, fn.CursorInv →
      ∃ fn1, fn.applyOps ops = .ok fn1 ∧ fn1.CursorInv ∧
        ∃ r, fn1.GetCurrentExpression = .ok r := by
  induction ops with
  | nil =>
    intro fn hinv
    refine ⟨fn, rfl, hinv, ?_⟩
    unfold CXFunction.GetCurrentExpression
    cases hc : fn.CurrentExpression with
    | some e => exact ⟨_, rfl⟩
    | none =>
      rw [hinv hc]
      exact ⟨_, rfl⟩
  | cons op ops ih =>
    intro fn hinv
    obtain ⟨fn1, hrun, hinv1⟩ := fn.applyOp_CursorInv op hinv
    obtain ⟨fn2, hrun2, hinv2, hget⟩ := ih fn1 hinv1
    exact ⟨fn2, by simp only [CXFunction.applyOps, hrun, hrun2], hinv2, hget⟩

/-- C30 (evaluation at the failing input): after `MakeFunction`, one `AddExpression` and
one `RemoveExpression(0)` the expression list is empty, and `GetCurrentExpression`
succeeds and returns the expression that was removed. -/
theorem C30_GetCurrentExpression_returns_removed :
    ∃ fn : CXFunction,
      (MakeFunction "f" "" 0).applyOps [.add { Label := "a" }, .remove 0] = .ok fn ∧
      fn.Expressions = some [] ∧
      fn.GetCurrentExpression = .ok (.ok { Label := "a", Function := some "f" }) ∧
      ∀ exprs, fn.Expressions = some exprs →
        ({ Label := "a", Function := some "f" } : CXExpression) ∉ exprs :=
  ⟨{ Name := "f", Expressions := some [], Length := 1,
     CurrentExpression := some { Label := "a", Function := some "f" } },
   by rfl, rfl, rfl, by
    intro exprs h
    have : exprs = [] := (Option.some.inj h).symm
    rw [this]
    exact List.not_mem_nil _⟩

theorem MakeFunction_CursorInv (name fileName : String) (fileLine : Int) :
    (MakeFunction name fileName fileLine).CursorInv :=
  fun _ => rfl

/-! ## Affordance structs -/

theorem CXStruct.AddField_Name (getSize : CXArgument → Int) (strct strct1 : CXStruct)
    (fld : CXArgument) (h : strct.AddField getSize fld = .ok strct1) :
    strct1.Name = strct.Name := by
  by_cases hdup : ∃ fl ∈ strct.Fields, fl.Name = fld.Name
  · rw [CXStruct.AddField_dup getSize strct fld hdup] at h
    cases h
  · have hfresh : ∀ fl ∈ strct.Fields, fl.Name ≠ fld.Name :=
      fun fl hfl hn => hdup ⟨fl, hfl, hn⟩
    rw [CXStruct.AddField_fresh getSize strct fld hfresh] at h
    simp only [Except.ok.injEq] at h
    rw [← h]

theorem CXStruct.AddFields_Name (getSize : CXArgument → Int) (flds : List CXArgument) :
    ∀ strct strct1 : CXStruct, strct.AddFields getSize flds = .ok strct1 →
      strct1.Name = strct.Name := by
  induction flds with
  | nil =>
    intro strct strct1 h
    simp only [CXStruct.AddFields, Except.ok.injEq] at h
    rw [h]
  | cons f fs ih =>
    intro strct strct1 h
    cases h1 : strct.AddField getSize f with
    | error e => simp [CXStruct.AddFields, h1] at h
    | ok s1 =>
      simp only [CXStruct.AddFields, h1] at h
      rw [ih s1 strct1 h, CXStruct.AddField_Name getSize strct s1 f h1]

theorem replaceStruct_names (strct : CXStruct) (ss : List CXStruct) :
    (∀ ss1, replaceStruct strct ss = some ss1 →
      ss1.map (fun s => s.Name) = ss.map (fun s => s.Name) ∧
      strct.Name ∈ ss.map (fun s => s.Name)) ∧
    (replaceStruct strct ss = none → strct.Name ∉ ss.map (fun s => s.Name)) := by
  induction ss with
  | nil => simp [replaceStruct]
  | cons s ss ih =>
    by_cases hs : s.Name = strct.Name
    · have hb : (s.Name == strct.Name) = true := by simpa using hs
      have hrun : replaceStruct strct (s :: ss) = some (strct :: ss) := by
        simp only [replaceStruct, hb, if_true]
      rw [hrun]
      constructor
      · intro ss1 h
        rw [← Option.some.inj h]
        exact ⟨by simp [hs], by simp [hs]⟩
      · intro h
        cases h
    · have hb : (s.Name == strct.Name) = false := by simpa using hs
      cases hr : replaceStruct strct ss with
      | none =>
        have hrun : replaceStruct strct (s :: ss) = none := by
          simp only [replaceStruct, hb, hr, Bool.false_eq_true, if_false]
        rw [hrun]
        constructor
        · intro ss1 h
          cases h
        · intro _ hm
          rcases List.mem_cons.mp hm with h1 | h1
          · exact hs h1.symm
          · exact ih.2 hr h1
      | some ss2 =>
        obtain ⟨hn, hm⟩ := ih.1 ss2 hr
        have hrun : replaceStruct strct (s :: ss) = some (s :: ss2) := by
          simp only [replaceStruct, hb, hr, Bool.false_eq_true, if_false]
        rw [hrun]
        constructor
        · intro ss1 h
          rw [← Option.some.inj h]
          exact ⟨by simp [hn], List.mem_cons_of_mem _ hm⟩
        · intro h
          cases h

/-- The struct names of a package after `AddStruct`: unchanged when the name was there,
with the new name at the end otherwise; name and imports are kept. -/
theorem CXPackage.AddStruct_names (pkg : CXPackage) (strct : CXStruct) :
    (pkg.AddStruct strct).Structs.map (fun s => s.Name) =
      (if strct.Name ∈ pkg.Structs.map (fun s => s.Name) then
        pkg.Structs.map (fun s => s.Name)
      else pkg.Structs.map (fun s => s.Name) ++ [strct.Name]) ∧
    (pkg.AddStruct strct).Name = pkg.Name ∧
    (pkg.AddStruct strct).Imports = pkg.Imports := by
  have hrep := replaceStruct_names { strct with Package := some pkg.Name } pkg.Structs
  cases hr : replaceStruct { strct with Package := some pkg.Name } pkg.Structs with
  | some ss1 =>
    obtain ⟨hn, hm⟩ := hrep.1 ss1 hr
    have hm1 : strct.Name ∈ pkg.Structs.map (fun s => s.Name) := hm
    simp only [CXPackage.AddStruct, hr, hn, if_pos hm1, and_self]
  | none =>
    have hm : strct.Name ∉ pkg.Structs.map (fun s => s.Name) := hrep.2 hr
    simp only [CXPackage.AddStruct, hr, if_neg hm, List.map_append, List.map_cons,
      List.map_nil, and_self]

theorem Except.bind_eq_ok {α β : Type} (x : Except String α) (f : α → Except String β)
    (b : β) (h : (x >>= f) = .ok b) : ∃ a, x = .ok a ∧ f a = .ok b := by
  cases x with
  | error e => cases h
  | ok a => exact ⟨a, rfl, h⟩

/-- One step of `AffordanceStructs`: a struct made by `MakeStruct name` and filled by
`AddField` calls is added under `name`. -/
theorem AddStruct_made_names (getSize : CXArgument → Int) (name : String)
    (flds : List CXArgument) (strct : CXStruct) (pkg : CXPackage)
    (h : (MakeStruct name).AddFields getSize flds = .ok strct) :
    (pkg.AddStruct strct).Structs.map (fun s => s.Name) =
      (if name ∈ pkg.Structs.map (fun s => s.Name) then
        pkg.Structs.map (fun s => s.Name)
      else pkg.Structs.map (fun s => s.Name) ++ [name]) ∧
    (pkg.AddStruct strct).Name = pkg.Name ∧
    (pkg.AddStruct strct).Imports = pkg.Imports := by
  have hn : strct.Name = name := CXStruct.AddFields_Name getSize flds _ _ h
  have := CXPackage.AddStruct_names pkg strct
  rw [hn] at this
  exact this

/-- Whatever the type table, the sizes and the declaration helpers are: when
`AffordanceStructs` returns on a package without structs and without imports, the
package holds six structs, named Argument, Expression, Function, Structure, Caller and
Program, and `GetStruct` finds no struct named Package. -/
theorem AffordanceStructs_names (getSize : CXArgument → Int) (E : ParseEnv) (A : AffEnv)
    (pkg pkg1 : CXPackage) (currentFile : String) (lineNo : Int)
    (hs : pkg.Structs = []) (hi : pkg.Imports = [])
    (h : AffordanceStructs getSize E A pkg currentFile lineNo = .ok pkg1) :
    pkg1.Structs.map (fun s => s.Name) =
      ["Argument", "Expression", "Function", "Structure", "Caller", "Program"] ∧
    pkg1.GetStruct "Package" =
      .error ("struct '" ++ "Package" ++ "' not found in package '" ++ pkg.Name ++ "'") := by
  unfold AffordanceStructs at h
  obtain ⟨s1, h1, h⟩ := Except.bind_eq_ok _ _ _ h
  obtain ⟨s2, h2, h⟩ := Except.bind_eq_ok _ _ _ h
  obtain ⟨s3, h3, h⟩ := Except.bind_eq_ok _ _ _ h
  obtain ⟨s4, h4, h⟩ := Except.bind_eq_ok _ _ _ h
  obtain ⟨s5, h5, h⟩ := Except.bind_eq_ok _ _ _ h
  obtain ⟨s6, h6, h⟩ := Except.bind_eq_ok _ _ _ h
  obtain ⟨s7, h7, h⟩ := Except.bind_eq_ok _ _ _ h
  have e1 := AddStruct_made_names getSize _ _ s1 pkg h1
  have e2 := AddStruct_made_names getSize _ _ s2 (pkg.AddStruct s1) h2
  have e3 := AddStruct_made_names getSize _ _ s3 ((pkg.AddStruct s1).AddStruct s2) h3
  have e4 := AddStruct_made_names getSize _ _ s4
    (((pkg.AddStruct s1).AddStruct s2).AddStruct s3) h4
  have e5 := AddStruct_made_names getSize _ _ s5
    ((((pkg.AddStruct s1).AddStruct s2).AddStruct s3).AddStruct s4) h5
  have e6 := AddStruct_made_names getSize _ _ s6
    (((((pkg.AddStruct s1).AddStruct s2).AddStruct s3).AddStruct s4).AddStruct s5) h6
  have e7 := AddStruct_made_names getSize _ _ s7
    ((((((pkg.AddStruct s1).AddStruct s2).AddStruct s3).AddStruct s4).AddStruct s5).AddStruct
      s6) h7
  have hpkg1 : pkg1 =
      ((((((pkg.AddStruct s1).AddStruct s2).AddStruct s3).AddStruct s4).AddStruct
        s5).AddStruct s6).AddStruct s7 := by
    have h0 : (pure (((((((pkg.AddStruct s1).AddStruct s2).AddStruct s3).AddStruct
        s4).AddStruct s5).AddStruct s6).AddStruct s7) : Except String CXPackage) =
        .ok pkg1 := h
    exact (Except.ok.inj h0).symm
  obtain ⟨n1, m1, i1⟩ := e1
  obtain ⟨n2, m2, i2⟩ := e2
  obtain ⟨n3, m3, i3⟩ := e3
  obtain ⟨n4, m4, i4⟩ := e4
  obtain ⟨n5, m5, i5⟩ := e5
  obtain ⟨n6, m6, i6⟩ := e6
  obtain ⟨n7, m7, i7⟩ := e7
  rw [hs] at n1
  have k1 : (pkg.AddStruct s1).Structs.map (fun s => s.Name) = ["Argument"] := by
    rw [n1]; decide
  rw [k1] at n2
  have k2 : ((pkg.AddStruct s1).AddStruct s2).Structs.map (fun s => s.Name) =
      ["Argument", "Expression"] := by
    rw [n2]; decide
  rw [k2] at n3
  have k3 : (((pkg.AddStruct s1).AddStruct s2).AddStruct s3).Structs.map
      (fun s => s.Name) = ["Argument", "Expression", "Function"] := by
    rw [n3]; decide
  rw [k3] at n4
  have k4 : ((((pkg.AddStruct s1).AddStruct s2).AddStruct s3).AddStruct s4).Structs.map
      (fun s => s.Name) = ["Argument", "Expression", "Function", "Structure"] := by
    rw [n4]; decide
  rw [k4] at n5
  have k5 : (((((pkg.AddStruct s1).AddStruct s2).AddStruct s3).AddStruct s4).AddStruct
      s5).Structs.map (fun s => s.Name) =
      ["Argument", "Expression", "Function", "Structure"] := by
    rw [n5]; decide
  rw [k5] at n6
  have k6 : ((((((pkg.AddStruct s1).AddStruct s2).AddStruct s3).AddStruct s4).AddStruct
      s5).AddStruct s6).Structs.map (fun s => s.Name) =
      ["Argument", "Expression", "Function", "Structure", "Caller"] := by
    rw [n6]; decide
  rw [k6] at n7
  have k7 : pkg1.Structs.map (fun s => s.Name) =
      ["Argument", "Expression", "Function", "Structure", "Caller", "Program"] := by
    rw [hpkg1, n7]; decide
  have hname : pkg1.Name = pkg.Name := by
    rw [hpkg1, m7, m6, m5, m4, m3, m2, m1]
  have himp : pkg1.Imports = [] := by
    rw [hpkg1, i7, i6, i5, i4, i3, i2, i1, hi]
  refine ⟨k7, ?_⟩
  have hfind : pkg1.Structs.find? (fun strct => strct.Name == "Package") = none := by
    rw [List.find?_eq_none]
    intro strct hmem hq
    have hP : strct.Name = "Package" := by simpa using hq
    have hin : strct.Name ∈ pkg1.Structs.map (fun s => s.Name) :=
      List.mem_map_of_mem _ hmem
    rw [k7, hP] at hin
    revert hin
    decide
  simp only [CXPackage.GetStruct, hfind, himp, overwriteFromImports, hname]

/-- C25 (divergence): `AffordanceStructs` on a package with no structs and no imports
returns with six structs, not seven: the struct built under the comment `Package type`
is made by `MakeStruct("Structure")`, so `AddStruct` puts it in the place of the struct
named Structure, and `GetStruct` finds no struct named Package. -/
theorem C25_AffordanceStructs_six_structs :
    ∃ pkg1 : CXPackage,
      AffordanceStructs GetSize exParseEnv exAffEnv exEmptyPackage "f.cx" 1 = .ok pkg1 ∧
      pkg1.Structs.length = 6 ∧
      pkg1.Structs.map (fun s => s.Name) =
        ["Argument", "Expression", "Function", "Structure", "Caller", "Program"] ∧
      pkg1.GetStruct "Package" = .error "struct 'Package' not found in package 'aff'" := by
  have hok : (AffordanceStructs GetSize exParseEnv exAffEnv exEmptyPackage "f.cx"
      1).toOption.isSome = true := by rfl
  cases h : AffordanceStructs GetSize exParseEnv exAffEnv exEmptyPackage "f.cx" 1 with
  | error e =>
    rw [h] at hok
    cases hok
  | ok pkg1 =>
    obtain ⟨hn, hg⟩ :=
      AffordanceStructs_names GetSize exParseEnv exAffEnv exEmptyPackage pkg1 "f.cx" 1
        rfl rfl h
    refine ⟨pkg1, rfl, ?_, hn, ?_⟩
    · have hl := congrArg List.length hn
      simpa using hl
    · rw [hg]
      rfl

/-! ## Removing from a package -/

/-- The loop, entered at index `pre.length` with `rest` still to visit and no element of
`pre` passing the test, takes the first element that passes the test out of `rest`. -/
theorem removeLoop_from {α : Type} (test : α → Bool) (xs : List α) :
    ∀ (rest pre : List α), xs = pre ++ rest → (∀ y ∈ pre, test y = false) →
      removeLoop test xs pre.length rest = pre ++ rest.eraseP test := by
  intro rest
  induction rest with
  | nil =>
    intro pre hxs _
    simp only [removeLoop, List.eraseP_nil, hxs]
  | cons x rest ih =>
    intro pre hxs hpre
    by_cases hx : test x = true
    · rw [List.eraseP_cons_of_pos hx]
      unfold removeLoop
      rw [if_pos hx]
      have hlen : xs.length = pre.length + (rest.length + 1) := by
        rw [hxs, List.length_append, List.length_cons]
      by_cases hlast : ((pre.length : Nat) : Int) = (xs.length : Int) - 1
      · rw [if_pos hlast]
        have hrest : rest = [] := by
          apply List.eq_nil_of_length_eq_zero
          omega
        subst hrest
        have h1 : xs.length - 1 = pre.length := by omega
        rw [h1, hxs, List.take_left, List.append_nil]
      · rw [if_neg hlast]
        have hdrop : List.drop (pre.length + 1) xs = rest := by
          rw [hxs]
          have : pre ++ x :: rest = (pre ++ [x]) ++ rest := by simp
          rw [this]
          have hl : (pre ++ [x]).length = pre.length + 1 := by simp
          rw [← hl, List.drop_left]
        rw [hdrop, hxs, List.take_left]
    · have hxf : test x = false := by simpa using hx
      rw [List.eraseP_cons_of_neg hx]
      unfold removeLoop
      rw [if_neg hx]
      have hxs1 : xs = (pre ++ [x]) ++ rest := by rw [hxs]; simp
      have hpre1 : ∀ y ∈ pre ++ [x], test y = false := by
        intro y hy
        rcases List.mem_append.mp hy with h | h
        · exact hpre y h
        · rw [List.mem_singleton.mp h]
          exact hxf
      have := ih (pre ++ [x]) hxs1 hpre1
      rw [List.length_append, List.length_singleton] at this
      rw [this]
      simp

theorem removeLoop_eq_eraseP {α : Type} (test : α → Bool) (xs : List α) :
    removeLoop test xs 0 xs = xs.eraseP test := by
  have := removeLoop_from test xs xs [] rfl (fun _ h => absurd h (List.not_mem_nil _))
  simpa using this

/-- What the loop does to a list of named elements: the first element of that name is
removed (or nothing, when there is none), and with pairwise distinct names no element of
that name is left. -/
theorem removeLoop_named {α : Type} (name : α → String) (n : String) (xs : List α) :
    RemovedFirst (fun a => name a = n) xs (removeLoop (fun a => name a == n) xs 0 xs) ∧
    ((xs.map name).Nodup →
      ∀ y ∈ removeLoop (fun a => name a == n) xs 0 xs, name y ≠ n) := by
  rw [removeLoop_eq_eraseP]
  by_cases hex : ∃ a ∈ xs, (name a == n) = true
  · obtain ⟨a, ha, hpa⟩ := hex
    obtain ⟨x, pre, post, hpre, hx, hxs, her⟩ :=
      @List.exists_of_eraseP α (fun a => name a == n) xs a ha hpa
    have hxn : name x = n := by simpa using hx
    have hpren : ∀ y ∈ pre, ¬ name y = n := by
      intro y hy
      have := hpre y hy
      simpa using this
    refine ⟨Or.inl ⟨pre, x, post, hxs, hxn, hpren, her⟩, ?_⟩
    intro hnd y hy hyn
    rw [her] at hy
    rw [hxs, List.map_append, List.map_cons] at hnd
    have hnd1 := (List.nodup_middle.mp hnd)
    rw [List.nodup_cons] at hnd1
    apply hnd1.1
    rw [← List.map_append, hxn, ← hyn]
    exact List.mem_map_of_mem name hy
  · have hall : ∀ a ∈ xs, ¬ (name a == n) = true := fun a ha hp => hex ⟨a, ha, hp⟩
    rw [List.eraseP_of_forall_not hall]
    have hall1 : ∀ y ∈ xs, ¬ name y = n := by
      intro y hy
      have := hall y hy
      simpa using this
    exact ⟨Or.inr ⟨hall1, rfl⟩, fun _ y hy => hall1 y hy⟩

/-- C31: each of `RemoveImport`, `RemoveFunction`, `RemoveStruct` and `RemoveGlobal`
takes the first element of that name out of its list, whether it is the last element or
not, and keeps the elements before and after it in their order; the list is as before
when no element has that name; the three other lists are not touched; and when the names
of the list are pairwise distinct no element of that name is left. -/
theorem C31_Remove_first_named (pkg : CXPackage) (name : String) :
    (RemovedFirst (fun q => q.Name = name) pkg.Imports (pkg.RemoveImport name).Imports ∧
      ((pkg.Imports.map (fun q => q.Name)).Nodup →
        ∀ q ∈ (pkg.RemoveImport name).Imports, q.Name ≠ name) ∧
      (pkg.RemoveImport name).Functions = pkg.Functions ∧
      (pkg.RemoveImport name).Structs = pkg.Structs ∧
      (pkg.RemoveImport name).Globals = pkg.Globals) ∧
    (RemovedFirst (fun f => f.Name = name) pkg.Functions
        (pkg.RemoveFunction name).Functions ∧
      ((pkg.Functions.map (fun f => f.Name)).Nodup →
        ∀ f ∈ (pkg.RemoveFunction name).Functions, f.Name ≠ name) ∧
      (pkg.RemoveFunction name).Imports = pkg.Imports ∧
      (pkg.RemoveFunction name).Structs = pkg.Structs ∧
      (pkg.RemoveFunction name).Globals = pkg.Globals) ∧
    (RemovedFirst (fun s => s.Name = name) pkg.Structs (pkg.RemoveStruct name).Structs ∧
      ((pkg.Structs.map (fun s => s.Name)).Nodup →
        ∀ s ∈ (pkg.RemoveStruct name).Structs, s.Name ≠ name) ∧
      (pkg.RemoveStruct name).Imports = pkg.Imports ∧
      (pkg.RemoveStruct name).Functions = pkg.Functions ∧
      (pkg.RemoveStruct name).Globals = pkg.Globals) ∧
    (RemovedFirst (fun g => g.Name = name) pkg.Globals (pkg.RemoveGlobal name).Globals ∧
      ((pkg.Globals.map (fun g => g.Name)).Nodup →
        ∀ g ∈ (pkg.RemoveGlobal name).Globals, g.Name ≠ name) ∧
      (pkg.RemoveGlobal name).Imports = pkg.Imports ∧
      (pkg.RemoveGlobal name).Functions = pkg.Functions ∧
      (pkg.RemoveGlobal name).Structs = pkg.Structs) := by
  have hi := removeLoop_named (fun q : CXPackage => q.Name) name pkg.Imports
  have hf := removeLoop_named (fun f : CXFunction => f.Name) name pkg.Functions
  have hs := removeLoop_named (fun s : CXStruct => s.Name) name pkg.Structs
  have hg := removeLoop_named (fun g : CXArgument => g.Name) name pkg.Globals
  exact ⟨⟨hi.1, hi.2, rfl, rfl, rfl⟩, ⟨hf.1, hf.2, rfl, rfl, rfl⟩,
    ⟨hs.1, hs.2, rfl, rfl, rfl⟩, ⟨hg.1, hg.2, rfl, rfl, rfl⟩⟩

/-- C31 at concrete inputs: the last import is removed; the middle function is removed,
and no function of that name is left; of two globals named `x` the first one goes; a
struct name that does not occur changes nothing. -/
theorem C31_Remove_first_named_witness :
    (exFull.RemoveImport "app").Imports.map (fun q => q.Name) = ["lib"] ∧
    (exFull.RemoveFunction "g").Functions = [{ Name := "f" }, { Name := "h" }] ∧
    (∀ f ∈ (exFull.RemoveFunction "g").Functions, f.Name ≠ "g") ∧
    (exFull.RemoveGlobal "x").Globals = [{ Name := "y" }, { Name := "x", Offset := 2 }] ∧
    (exFull.RemoveStruct "C").Structs = exFull.Structs :=
  ⟨by decide, by decide,
   (C31_Remove_first_named exFull "g").2.1.2.1 (by decide),
   by decide, by decide⟩

/-! ## Selecting an expression -/

theorem CXFunction.numExpressions_eq (fn : CXFunction) :
    fn.numExpressions = (fn.Expressions.getD []).length := by
  unfold CXFunction.numExpressions
  cases fn.Expressions <;> rfl

/-- On a function with expressions, `SelectExpression` returns the expression at the
clamped index and makes it the current one. -/
theorem CXFunction.SelectExpression_some (fn : CXFunction) (line : Int)
    (exprs : List CXExpression) (hE : fn.Expressions = some exprs)
    (hpos : 0 < exprs.length) :
    ∃ expr, exprs[(min (max line 0) ((exprs.length : Int) - 1)).toNat]? = some expr ∧
      fn.SelectExpression line =
        .ok ({ fn with CurrentExpression := some expr }, .ok expr) := by
  have hclamp : (if (if line ≥ (exprs.length : Int) then (exprs.length : Int) - 1
        else line) < 0 then (0 : Int)
      else (if line ≥ (exprs.length : Int) then (exprs.length : Int) - 1 else line)) =
      min (max line 0) ((exprs.length : Int) - 1) := by
    split_ifs <;> omega
  have hlt : (min (max line 0) ((exprs.length : Int) - 1)).toNat < exprs.length := by
    omega
  obtain ⟨expr, hexpr⟩ : ∃ expr,
      exprs[(min (max line 0) ((exprs.length : Int) - 1)).toNat]? = some expr :=
    ⟨exprs.get ⟨_, hlt⟩, by simp [List.getElem?_eq_getElem hlt]⟩
  refine ⟨expr, hexpr, ?_⟩
  have hne : ¬ exprs.length = 0 := by omega
  unfold CXFunction.SelectExpression
  simp only [hE, Option.getD_some]
  rw [if_neg hne]
  simp only [hclamp, hexpr]

/-- On a function without expressions, `SelectExpression` returns the error and the
function as it was. -/
theorem CXFunction.SelectExpression_none (fn : CXFunction) (line : Int)
    (h0 : fn.numExpressions = 0) :
    fn.SelectExpression line =
      .ok (fn, .error "There are no expressions in this function") := by
  rw [CXFunction.numExpressions_eq] at h0
  unfold CXFunction.SelectExpression
  simp only [h0, if_true]

/-- C32: on a function with `n > 0` expressions, for every integer `line`,
`SelectExpression(line)` returns without error the expression at index
`min(max(line, 0), n - 1)`, and the function afterwards has that expression as
`CurrentExpression` and every other field, the expression list among them, as before;
on a function without expressions it returns the error and changes nothing; so it
returns an error exactly when the function has no expressions. -/
theorem C32_SelectExpression (fn : CXFunction) (line : Int) :
    (∀ exprs, fn.Expressions = some exprs → 0 < exprs.length →
      ∃ expr, exprs[(min (max line 0) ((exprs.length : Int) - 1)).toNat]? = some expr ∧
        fn.SelectExpression line =
          .ok ({ fn with CurrentExpression := some expr }, .ok expr) ∧
        ({ fn with CurrentExpression := some expr } : CXFunction).Expressions =
          some exprs) ∧
    (fn.numExpressions = 0 →
      fn.SelectExpression line =
        .ok (fn, .error "There are no expressions in this function")) ∧
    ((∃ fn1 e, fn.SelectExpression line = .ok (fn1, .error e)) ↔
      fn.numExpressions = 0) := by
  refine ⟨?_, CXFunction.SelectExpression_none fn line, ?_, ?_⟩
  · intro exprs hE hpos
    obtain ⟨expr, hexpr, hrun⟩ := CXFunction.SelectExpression_some fn line exprs hE hpos
    exact ⟨expr, hexpr, hrun, hE⟩
  · rintro ⟨fn1, e, hrun⟩
    by_contra hn
    cases hE : fn.Expressions with
    | none =>
      apply hn
      unfold CXFunction.numExpressions
      rw [hE]
    | some exprs =>
      have hpos : 0 < exprs.length := by
        unfold CXFunction.numExpressions at hn
        rw [hE] at hn
        exact Nat.pos_of_ne_zero hn
      obtain ⟨expr, _, hrun1⟩ := CXFunction.SelectExpression_some fn line exprs hE hpos
      rw [hrun1] at hrun
      injection hrun with hrun
      injection hrun with _ hrun
      cases hrun
  · intro h0
    exact ⟨fn, _, CXFunction.SelectExpression_none fn line h0⟩

/-- C32 at concrete inputs: on a function with the three expressions `a`, `b`, `c`, the
line 7 selects the expression at index `min(max(7, 0), 2)`, which is `c`; the line -5
selects `a` and the line 1 selects `b`; a function without expressions gets the
error. -/
theorem C32_SelectExpression_witness :
    (∃ expr,
      ([{ Label := "a" }, { Label := "b" }, { Label := "c" }] : List CXExpression)[(min
        (max (7 : Int) 0) (3 - 1)).toNat]? = some expr ∧
      exThreeExprs.SelectExpression 7 =
        .ok ({ exThreeExprs with CurrentExpression := some expr }, .ok expr) ∧
      ({ exThreeExprs with CurrentExpression := some expr } : CXFunction).Expressions =
        some [{ Label := "a" }, { Label := "b" }, { Label := "c" }]) ∧
    exThreeExprs.SelectExpression 7 =
      .ok ({ exThreeExprs with CurrentExpression := some { Label := "c" } },
        .ok { Label := "c" }) ∧
    exThreeExprs.SelectExpression (-5) =
      .ok ({ exThreeExprs with CurrentExpression := some { Label := "a" } },
        .ok { Label := "a" }) ∧
    exThreeExprs.SelectExpression 1 =
      .ok ({ exThreeExprs with CurrentExpression := some { Label := "b" } },
        .ok { Label := "b" }) ∧
    (MakeFunction "f" "" 0).SelectExpression 0 =
      .ok (MakeFunction "f" "" 0, .error "There are no expressions in this function") :=
  ⟨(C32_SelectExpression exThreeExprs 7).1
      [{ Label := "a" }, { Label := "b" }, { Label := "c" }] rfl (by decide),
   by rfl, by rfl, by rfl,
   (C32_SelectExpression (MakeFunction "f" "" 0) 0).2.1 rfl⟩

/-! ## Constant codes -/

/-- The opcodes of the calls of `init`, in order. -/
theorem init_opcodes (K : ConstEnv) :
    (init K recordConstI32 []).map (fun c => c.1) =
      [65535, 65536, 65537, 65538, 65539, 65540, 65541, 65542, 65543, 65544, 65545, 65546,
        65547, 65548, 65549, 65550, 65551, 65552, 65553, 65554, 65555, 65556, 65557, 65558,
        65559, 65560, 65561, 65562, 65563, 65564, 65565, 65566] := by
  rfl

/-- The names of the calls of `init`, in order. -/
theorem init_names (K : ConstEnv) :
    (init K recordConstI32 []).map (fun c => c.2.1) =
      ["os.RUN_SUCCESS", "os.RUN_EMPTY_CMD", "os.RUN_PANIC", "os.RUN_START_FAILED",
        "os.RUN_WAIT_FAILED", "os.RUN_TIMEOUT", "os.ModeAppend", "os.ModeExclusive",
        "os.ModeTemporary", "os.ModeSymlink", "os.ModeDevice", "os.ModeNamedPipe",
        "os.ModeSocket", "os.ModeSetuid", "os.ModeSetgid", "os.ModeCharDevice",
        "os.ModeSticky", "os.ModeIrregular", "os.ModePerm", "os.SEEK_SET", "os.SEEK_CUR",
        "os.SEEK_END", "json.TOKEN_NULL", "json.TOKEN_DELIM", "json.TOKEN_BOOL",
        "json.TOKEN_F64", "json.TOKEN_NUMBER", "json.TOKEN_STR", "json.DELIM_CURLY_LEFT",
        "json.DELIM_CURLY_RIGHT", "json.DELIM_SQUARE_LEFT", "json.DELIM_SQUARE_RIGHT"] := by
  rfl

/-- C33: the first six calls of `init` register `os.RUN_SUCCESS`, `os.RUN_EMPTY_CMD`,
`os.RUN_PANIC`, `os.RUN_START_FAILED`, `os.RUN_WAIT_FAILED` and `os.RUN_TIMEOUT` with the
values 0, 1, 2, 3, 4, 5 in that order, under the opcodes 0xFFFF to 0xFFFF + 5; the six
values are pairwise distinct and `OS_RUN_SUCCESS` is 0; no two calls of `init` have the
same opcode or the same name; and whatever `ConstI32` does, `init` makes exactly the
recorded calls in their order. -/
theorem C33_os_run_constants (K : ConstEnv) :
    (init K recordConstI32 []).take 6 =
      [(0xFFFF, "os.RUN_SUCCESS", 0), (0xFFFF + 1, "os.RUN_EMPTY_CMD", 1),
       (0xFFFF + 2, "os.RUN_PANIC", 2), (0xFFFF + 3, "os.RUN_START_FAILED", 3),
       (0xFFFF + 4, "os.RUN_WAIT_FAILED", 4), (0xFFFF + 5, "os.RUN_TIMEOUT", 5)] ∧
    (init K recordConstI32 []).take 6 =
      [(CONST_OS_RUN_SUCCESS, "os.RUN_SUCCESS", OS_RUN_SUCCESS),
       (CONST_OS_RUN_EMPTY_CMD, "os.RUN_EMPTY_CMD", OS_RUN_EMPTY_CMD),
       (CONST_OS_RUN_PANIC, "os.RUN_PANIC", OS_RUN_PANIC),
       (CONST_OS_RUN_START_FAILED, "os.RUN_START_FAILED", OS_RUN_START_FAILED),
       (CONST_OS_RUN_WAIT_FAILED, "os.RUN_WAIT_FAILED", OS_RUN_WAIT_FAILED),
       (CONST_OS_RUN_TIMEOUT, "os.RUN_TIMEOUT", OS_RUN_TIMEOUT)] ∧
    [OS_RUN_SUCCESS, OS_RUN_EMPTY_CMD, OS_RUN_PANIC, OS_RUN_START_FAILED,
      OS_RUN_WAIT_FAILED, OS_RUN_TIMEOUT] = [0, 1, 2, 3, 4, 5] ∧
    [OS_RUN_SUCCESS, OS_RUN_EMPTY_CMD, OS_RUN_PANIC, OS_RUN_START_FAILED,
      OS_RUN_WAIT_FAILED, OS_RUN_TIMEOUT].Nodup ∧
    OS_RUN_SUCCESS = 0 ∧
    ((init K recordConstI32 []).map (fun c => c.1)).Nodup ∧
    ((init K recordConstI32 []).map (fun c => c.2.1)).Nodup ∧
    (∀ (σ : Type) (ConstI32 : Int → String → Int → σ → σ) (s : σ),
      init K ConstI32 s =
        (init K recordConstI32 []).foldl (fun st c => ConstI32 c.1 c.2.1 c.2.2 st) s) := by
  refine ⟨?_, ?_, ?_, ?_, ?_, ?_, ?_, ?_⟩
  · rfl
  · rfl
  · rfl
  · decide
  · rfl
  · rw [init_opcodes]
    decide
  · rw [init_names]
    simp only [List.nodup_cons, List.mem_cons, List.mem_singleton, List.not_mem_nil,
      List.nodup_nil, String.reduceEq, or_self, not_false_eq_true, and_self]
  · intro σ ConstI32 s
    simp only [init, recordConstI32, List.nil_append, List.cons_append, List.foldl_cons,
      List.foldl_nil]

end CX
